import Mathlib

/-! # Rental platform: the inquiry workflow

A shallow embedding of `backend/inquirycontroller.js`, the schema in
`backend/inquiry.js`, the role middleware of `backend/auth.js` and the route
table of `backend/inquiryroutes.js`.

Modelling conventions.

* The database is an explicit `Store` value that every handler takes and
  returns; a handler that answers with an error returns the store it was given.
* ObjectIds are natural numbers. Every id that reaches a handler is a
  well-formed ObjectId.
* JSON body fields are `Option String`: `none` is an absent field. The
  JavaScript test `!x` holds for an absent field and for the empty string.
* The Date cast of the schema is a parameter `isDate` of the handlers that save
  a date: `isDate text` says whether the runtime reads the text as a valid
  date. Every theorem holds for every such cast; the worked examples use
  `isoDate`.
* Mongoose behaviour that decides a branch is isolated in small definitions
  with their own comment: `populate`, `Ref.toString`,
  `ScheduledViewing.truthy`, `validateNew`, `utf16Length`.
* `updatedAt`, which the store rewrites on every save, is not part of the
  modelled record.
* Query values are texts. The numbers `getInquiries` computes with are
  JavaScript doubles, `JsNumber`: an integer is rounded to 53 binary digits by
  `roundDouble`, and `toLong` is the 64-bit integer the database reads from a
  double.
-/

namespace RentalPlatform

/-! ## Data model -/

abbrev ObjectId := Nat

/-- The value of `req.user.role`. Registration (validation.js) admits only
tenant and landlord; `other` stands for any other string. -/
inductive Role where
  | tenant
  | landlord
  | other
  deriving DecidableEq, Repr

/-- The authenticated caller `req.user`, as set by `protect`. -/
structure User where
  id : ObjectId
  role : Role
  deriving DecidableEq, Repr

/-- The `status` enum of inquiry.js line 35. -/
inductive Status where
  | pending
  | viewed
  | replied
  | scheduled
  | cancelled
  | completed
  deriving DecidableEq, Repr

/-- The string each enum value is stored as. -/
def Status.toString : Status → String
  | .pending => "pending"
  | .viewed => "viewed"
  | .replied => "replied"
  | .scheduled => "scheduled"
  | .cancelled => "cancelled"
  | .completed => "completed"

/-- The array `validStatuses` of updateInquiryStatus (line 310). -/
def validStatuses : List Status :=
  [.pending, .viewed, .replied, .scheduled, .cancelled, .completed]

/-- The element of `validStatuses` whose string is `s`, if any:
`validStatuses.includes(s)` is `(Status.ofString s).isSome`. -/
def Status.ofString (s : String) : Option Status :=
  validStatuses.find? (fun st => st.toString == s)

/-- The nested path `scheduledViewing` of inquiry.js lines 38-46. It is a
nested path of the schema, not a sub-document, so every inquiry carries it;
`confirmed` has default false, the other three fields may be unset. -/
structure ScheduledViewing where
  date : Option String
  time : Option String
  notes : Option String
  confirmed : Bool
  deriving DecidableEq, Repr

/-- The nested path as a freshly created document holds it. -/
def ScheduledViewing.unset : ScheduledViewing :=
  { date := none, time := none, notes := none, confirmed := false }

/-- The JavaScript truth value of `inquiry.scheduledViewing`. Reading a nested
path of a Mongoose document yields an object whether or not any of its
fields was ever set, and every object is truthy. -/
def ScheduledViewing.truthy (_ : ScheduledViewing) : Bool := true

/-- One element of `replies` (inquiry.js lines 47-61). -/
structure Reply where
  sender : ObjectId
  message : String
  read : Bool
  createdAt : Nat
  deriving DecidableEq, Repr

/-- An inquiry document (inquiry.js). -/
structure Inquiry where
  id : ObjectId
  property : ObjectId
  tenant : ObjectId
  landlord : ObjectId
  message : String
  moveInDate : String
  numberOfOccupants : Int
  status : Status
  scheduledViewing : ScheduledViewing
  replies : List Reply
  viewedByLandlord : Bool
  viewedByTenant : Bool
  createdAt : Nat
  deriving DecidableEq, Repr

/-- The fields of a property document that the inquiry controller reads or
writes (property.js): owner, `availability.isAvailable`, and the counter
`inquiries`. -/
structure Property where
  id : ObjectId
  landlord : ObjectId
  isAvailable : Bool
  inquiries : Nat
  deriving DecidableEq, Repr

/-- The two collections, and the id the next created inquiry receives. -/
structure Store where
  inquiries : List Inquiry
  properties : List Property
  nextId : ObjectId
  deriving DecidableEq, Repr

/-! ## Responses -/

/-- One constructor for each `res.status(..).json(\x7b message \x7d)` exit of the
controller and of the role middleware. -/
inductive Rejection where
  /-- 403 "Only tenants can create inquiries" (line 11) -/
  | onlyTenantsCreate
  /-- 404 "Property not found" (line 19) -/
  | propertyNotFound
  /-- 400 "This property is not available" (line 24) -/
  | propertyNotAvailable
  /-- 400 "You already have an active inquiry for this property" (line 35) -/
  | activeInquiryExists
  /-- 500 "Server error while creating inquiry" (line 61) -/
  | createServerError
  /-- 404 "Inquiry not found" (lines 125, 167, 223, 264, 300) -/
  | inquiryNotFound
  /-- 403 "Not authorized to view this inquiry" (line 131) -/
  | notAuthorizedToView
  /-- 400 "Reply message is required" (line 161) -/
  | replyMessageRequired
  /-- 403 "Not authorized to reply to this inquiry" (line 173) -/
  | notAuthorizedToReply
  /-- 403 "Only landlords can schedule viewings" (line 211) -/
  | onlyLandlordsSchedule
  /-- 400 "Date and time are required" (line 217) -/
  | dateAndTimeRequired
  /-- 403 "Not authorized to schedule viewing for this inquiry" (line 228) -/
  | notAuthorizedToSchedule
  /-- 500 "Server error while scheduling viewing" (line 248) -/
  | scheduleServerError
  /-- 403 "Only tenants can confirm viewings" (line 258) -/
  | onlyTenantsConfirm
  /-- 403 "Not authorized to confirm this viewing" (line 269) -/
  | notAuthorizedToConfirm
  /-- 400 "No viewing scheduled for this inquiry" (line 273) -/
  | noViewingScheduled
  /-- 403 "Not authorized to update this inquiry" (line 306) -/
  | notAuthorizedToUpdate
  /-- 400 "Invalid status" (line 312) -/
  | invalidStatus
  /-- 403 "Access denied. Landlords only." (auth.js line 53) -/
  | landlordsOnly
  /-- 403 "Access denied. Tenants only." (auth.js line 61) -/
  | tenantsOnly
  deriving DecidableEq, Repr

/-- The HTTP status each exit sends. -/
def Rejection.httpStatus : Rejection → Nat
  | .onlyTenantsCreate => 403
  | .propertyNotFound => 404
  | .propertyNotAvailable => 400
  | .activeInquiryExists => 400
  | .createServerError => 500
  | .inquiryNotFound => 404
  | .notAuthorizedToView => 403
  | .replyMessageRequired => 400
  | .notAuthorizedToReply => 403
  | .onlyLandlordsSchedule => 403
  | .dateAndTimeRequired => 400
  | .notAuthorizedToSchedule => 403
  | .scheduleServerError => 500
  | .onlyTenantsConfirm => 403
  | .notAuthorizedToConfirm => 403
  | .noViewingScheduled => 400
  | .notAuthorizedToUpdate => 403
  | .invalidStatus => 400
  | .landlordsOnly => 403
  | .tenantsOnly => 403

/-- The error taxonomy of the specification (section 7). -/
inductive ErrorKind where
  | notFound
  | forbidden
  | conflict
  | badRequest
  | unavailable
  | internal
  deriving DecidableEq, Repr

/-- The taxonomy entry each exit falls under: 404 is NotFound, 403 is
Forbidden, 500 is Internal, and the 400 exits are told apart by their
message (duplicate inquiry, property not open, missing or invalid field). -/
def Rejection.kind : Rejection → ErrorKind
  | .onlyTenantsCreate => .forbidden
  | .propertyNotFound => .notFound
  | .propertyNotAvailable => .unavailable
  | .activeInquiryExists => .conflict
  | .createServerError => .internal
  | .inquiryNotFound => .notFound
  | .notAuthorizedToView => .forbidden
  | .replyMessageRequired => .badRequest
  | .notAuthorizedToReply => .forbidden
  | .onlyLandlordsSchedule => .forbidden
  | .dateAndTimeRequired => .badRequest
  | .notAuthorizedToSchedule => .forbidden
  | .scheduleServerError => .internal
  | .onlyTenantsConfirm => .forbidden
  | .notAuthorizedToConfirm => .forbidden
  | .noViewingScheduled => .badRequest
  | .notAuthorizedToUpdate => .forbidden
  | .invalidStatus => .badRequest
  | .landlordsOnly => .forbidden
  | .tenantsOnly => .forbidden

/-- What a handler sends: the inquiry with a success status (201 or 200), or
one of the error exits. -/
inductive Response where
  | ok (code : Nat) (inquiry : Inquiry)
  | fail (r : Rejection)
  deriving DecidableEq, Repr

/-- The error kind of a response, `none` for a success. -/
def Response.errorKind : Response → Option ErrorKind
  | .ok _ _ => none
  | .fail r => some r.kind

/-- The inquiry a response carries, `none` for an error. -/
def Response.inquiry? : Response → Option Inquiry
  | .ok _ i => some i
  | .fail _ => none

/-! ## Store access -/

/-- Replaces the first element satisfying `p` by its image under `f`: a write
to the one document a query matched. -/
def updateFirst {α : Type} (p : α → Bool) (f : α → α) : List α → List α
  | [] => []
  | x :: xs => if p x then f x :: xs else x :: updateFirst p f xs

/-- The query `Inquiry.findById(id)`. -/
def Store.findInquiry (s : Store) (id : ObjectId) : Option Inquiry :=
  s.inquiries.find? (fun i => i.id == id)

/-- The query `Property.findById(id)`. -/
def Store.findProperty (s : Store) (id : ObjectId) : Option Property :=
  s.properties.find? (fun p => p.id == id)

/-- The call `inquiry.save()` on a loaded document: writes it back under its id. -/
def Store.save (s : Store) (inquiry : Inquiry) : Store :=
  { s with inquiries := updateFirst (fun i => i.id == inquiry.id) (fun _ => inquiry) s.inquiries }

/-- The insertion done by `Inquiry.create`. -/
def Store.insert (s : Store) (inquiry : Inquiry) : Store :=
  { s with inquiries := s.inquiries ++ [inquiry], nextId := s.nextId + 1 }

/-- The update `Property.findByIdAndUpdate(id, $inc inquiries 1)` of lines 51-53. -/
def Store.incInquiries (s : Store) (id : ObjectId) : Store :=
  { s with properties :=
      updateFirst (fun p => p.id == id) (fun p => { p with inquiries := p.inquiries + 1 }) s.properties }

/-- The statuses listed in the `$in` of the duplicate check (line 31). -/
def duplicateCheckStatuses : List Status := [.pending, .viewed, .replied]

/-- The query `Inquiry.findOne` of lines 28-32. -/
def Store.findExisting (s : Store) (propertyId tenant : ObjectId) : Option Inquiry :=
  s.inquiries.find? (fun i =>
    i.property == propertyId && i.tenant == tenant && duplicateCheckStatuses.contains i.status)

/-! ## JavaScript values -/

/-- The JavaScript truth value of a body field: an absent field and the empty
string are falsy. -/
def truthy : Option String → Bool
  | none => false
  | some v => v != ""

/-- The JavaScript `length` of a string: its number of UTF-16 code units, two
for each character outside the basic plane. The `maxlength` validator of the
schema compares this number. -/
def utf16Length (text : String) : Nat :=
  (text.toList.map (fun c => if c.toNat < 65536 then 1 else 2)).sum

/-- How a reference path (`tenant`, `landlord`) of a loaded inquiry reads:
the stored ObjectId, or after `populate` the referenced user document. -/
inductive Ref where
  | oid (id : ObjectId)
  | populated (id : ObjectId)
  deriving DecidableEq, Repr

/-- The strings the authorisation checks compare: the hex string of an
ObjectId, or the rendering of a whole document. -/
inductive IdText where
  | hex (id : ObjectId)
  | inspected (id : ObjectId)
  deriving DecidableEq, Repr

/-- The method `toString()` on a reference path. On an ObjectId it is the hex
string. On a populated path the value is a document, whose `toString()` is
the inspection dump of the document and not its id. -/
def Ref.toString : Ref → IdText
  | .oid id => .hex id
  | .populated id => .inspected id

/-- The call `.populate(path, fields)`: the path then reads as the referenced
user document. No route of the application deletes a user, so the document is
always found. -/
def populate (id : ObjectId) : Ref := .populated id

/-- The getter `req.user.id`: the hex string of the caller id. -/
def User.idText (u : User) : IdText := .hex u.id

/-! ## Role middleware (auth.js) -/

/-- The middleware `landlordOnly`: `none` lets the request through. -/
def landlordOnly (user : User) : Option Rejection :=
  if user.role = .landlord then none else some .landlordsOnly

/-- The middleware `tenantOnly`: `none` lets the request through. -/
def tenantOnly (user : User) : Option Rejection :=
  if user.role = .tenant then none else some .tenantsOnly

/-! ## createInquiry -/

/-- The body of `POST /api/inquiries`. -/
structure CreateBody where
  propertyId : ObjectId
  message : Option String
  moveInDate : Option String
  numberOfOccupants : Option Int
  deriving DecidableEq, Repr

/-- The document `Inquiry.create` builds at lines 41-48, with the schema
defaults, or `none` when the schema rejects it: `message` is required and at
most 1000 UTF-16 units long, `moveInDate` is required and must pass the Date
cast `isDate`, `numberOfOccupants` is at least 1 with default 1. The handler
then answers 500 from its catch block. -/
def validateNew (isDate : String → Bool) (s : Store) (user : User) (property : Property)
    (body : CreateBody) (now : Nat) : Option Inquiry :=
  match body.message, body.moveInDate with
  | some message, some moveInDate =>
    if message != "" && decide (utf16Length message ≤ 1000) && moveInDate != ""
        && isDate moveInDate && decide (1 ≤ body.numberOfOccupants.getD 1) then
      some
        { id := s.nextId
          property := body.propertyId
          tenant := user.id
          landlord := property.landlord
          message := message
          moveInDate := moveInDate
          numberOfOccupants := body.numberOfOccupants.getD 1
          status := .pending
          scheduledViewing := ScheduledViewing.unset
          replies := []
          viewedByLandlord := false
          viewedByTenant := false
          createdAt := now }
    else none
  | _, _ => none

/-- The handler `createInquiry` (lines 8-63). -/
def createInquiry (isDate : String → Bool) (s : Store) (user : User) (body : CreateBody)
    (now : Nat) : Response × Store :=
  if user.role ≠ .tenant then (.fail .onlyTenantsCreate, s)
  else
    match s.findProperty body.propertyId with
    | none => (.fail .propertyNotFound, s)
    | some property =>
      if !property.isAvailable then (.fail .propertyNotAvailable, s)
      else
        match s.findExisting body.propertyId user.id with
        | some _ => (.fail .activeInquiryExists, s)
        | none =>
          match validateNew isDate s user property body now with
          | none => (.fail .createServerError, s)
          | some inquiry =>
            (.ok 201 inquiry, (s.insert inquiry).incInquiries body.propertyId)

/-! ## getInquiryById -/

/-- The handler `getInquiryById` (lines 116-151). The document is loaded with
`tenant` and `landlord` populated (lines 120-121), and the check of lines
129-130 reads those populated paths. -/
def getInquiryById (s : Store) (user : User) (id : ObjectId) : Response × Store :=
  match s.findInquiry id with
  | none => (.fail .inquiryNotFound, s)
  | some inquiry =>
    if (populate inquiry.tenant).toString ≠ user.idText
        ∧ (populate inquiry.landlord).toString ≠ user.idText then
      (.fail .notAuthorizedToView, s)
    else if user.role = .landlord ∧ inquiry.viewedByLandlord = false then
      (.ok 200 { inquiry with viewedByLandlord := true },
        s.save { inquiry with viewedByLandlord := true })
    else if user.role = .tenant ∧ inquiry.viewedByTenant = false then
      (.ok 200 { inquiry with viewedByTenant := true },
        s.save { inquiry with viewedByTenant := true })
    else (.ok 200 inquiry, s)

/-! ## replyToInquiry -/

/-- The mutation of lines 176-191 on the loaded document. -/
def applyReply (inquiry : Inquiry) (user : User) (message : String) (now : Nat) : Inquiry :=
  let pushed : Inquiry :=
    { inquiry with
      replies := inquiry.replies ++
        [{ sender := user.id, message := message, read := false, createdAt := now }]
      status := .replied }
  if user.role = .landlord then { pushed with viewedByTenant := false }
  else { pushed with viewedByLandlord := false }

/-- The handler `replyToInquiry` (lines 156-203). -/
def replyToInquiry (s : Store) (user : User) (id : ObjectId) (message : Option String)
    (now : Nat) : Response × Store :=
  match message with
  | none => (.fail .replyMessageRequired, s)
  | some text =>
    if !truthy (some text) then (.fail .replyMessageRequired, s)
    else
      match s.findInquiry id with
      | none => (.fail .inquiryNotFound, s)
      | some inquiry =>
        if (Ref.oid inquiry.tenant).toString ≠ user.idText
            ∧ (Ref.oid inquiry.landlord).toString ≠ user.idText then
          (.fail .notAuthorizedToReply, s)
        else (.ok 200 (applyReply inquiry user text now), s.save (applyReply inquiry user text now))

/-! ## scheduleViewing -/

/-- The handler `scheduleViewing` (lines 208-250). The assignment of lines
232-237 casts `date` to the schema type Date; when the cast `isDate` rejects
the text, `save()` at line 240 throws and the catch block answers 500. -/
def scheduleViewing (isDate : String → Bool) (s : Store) (user : User) (id : ObjectId)
    (date time notes : Option String) : Response × Store :=
  if user.role ≠ .landlord then (.fail .onlyLandlordsSchedule, s)
  else if !truthy date || !truthy time then (.fail .dateAndTimeRequired, s)
  else
    match s.findInquiry id with
    | none => (.fail .inquiryNotFound, s)
    | some inquiry =>
      if (Ref.oid inquiry.landlord).toString ≠ user.idText then
        (.fail .notAuthorizedToSchedule, s)
      else if !isDate (date.getD "") then (.fail .scheduleServerError, s)
      else
        (.ok 200
          { inquiry with
            scheduledViewing := { date := date, time := time, notes := notes, confirmed := false }
            status := .scheduled },
         s.save
          { inquiry with
            scheduledViewing := { date := date, time := time, notes := notes, confirmed := false }
            status := .scheduled })

/-! ## confirmViewing -/

/-- The handler `confirmViewing` (lines 255-288). -/
def confirmViewing (s : Store) (user : User) (id : ObjectId) : Response × Store :=
  if user.role ≠ .tenant then (.fail .onlyTenantsConfirm, s)
  else
    match s.findInquiry id with
    | none => (.fail .inquiryNotFound, s)
    | some inquiry =>
      if (Ref.oid inquiry.tenant).toString ≠ user.idText then
        (.fail .notAuthorizedToConfirm, s)
      else if !inquiry.scheduledViewing.truthy then (.fail .noViewingScheduled, s)
      else
        (.ok 200
          { inquiry with
            scheduledViewing := { inquiry.scheduledViewing with confirmed := true }
            status := .scheduled },
         s.save
          { inquiry with
            scheduledViewing := { inquiry.scheduledViewing with confirmed := true }
            status := .scheduled })

/-! ## updateInquiryStatus -/

/-- The handler `updateInquiryStatus` (lines 293-326). -/
def updateInquiryStatus (s : Store) (user : User) (id : ObjectId) (status : Option String) :
    Response × Store :=
  match s.findInquiry id with
  | none => (.fail .inquiryNotFound, s)
  | some inquiry =>
    if (Ref.oid inquiry.tenant).toString ≠ user.idText
        ∧ (Ref.oid inquiry.landlord).toString ≠ user.idText then
      (.fail .notAuthorizedToUpdate, s)
    else
      match status.bind Status.ofString with
      | none => (.fail .invalidStatus, s)
      | some st => (.ok 200 { inquiry with status := st }, s.save { inquiry with status := st })

/-! ## getInquiries -/

/-- The value of a decimal digit. -/
def digitValue (c : Char) : Option Nat :=
  if 48 ≤ c.toNat ∧ c.toNat ≤ 57 then some (c.toNat - 48) else none

/-- The value of a hexadecimal digit. -/
def hexValue (c : Char) : Option Nat :=
  if 48 ≤ c.toNat ∧ c.toNat ≤ 57 then some (c.toNat - 48)
  else if 97 ≤ c.toNat ∧ c.toNat ≤ 102 then some (c.toNat - 87)
  else if 65 ≤ c.toNat ∧ c.toNat ≤ 70 then some (c.toNat - 55)
  else none

/-- Reads the longest run of digits at the head of `cs`; `none` when there is
no digit at all. -/
def readDigits (value : Char → Option Nat) (radix : Nat) :
    List Char → Option Nat → Option Nat
  | [], acc => acc
  | c :: cs, acc =>
    match value c with
    | some d => readDigits value radix cs (some (acc.getD 0 * radix + d))
    | none => acc

/-- White space and line terminators of JavaScript, which `parseInt` skips at
the head of its argument: U+0009 to U+000D, U+0020, U+00A0, U+1680, U+2000 to
U+200A, U+2028, U+2029, U+202F, U+205F, U+3000 and U+FEFF. -/
def isWhiteSpace (c : Char) : Bool :=
  (0x0009 ≤ c.toNat && c.toNat ≤ 0x000D) || c.toNat == 0x0020 || c.toNat == 0x00A0
    || c.toNat == 0x1680 || (0x2000 ≤ c.toNat && c.toNat ≤ 0x200A)
    || c.toNat == 0x2028 || c.toNat == 0x2029 || c.toNat == 0x202F
    || c.toNat == 0x205F || c.toNat == 0x3000 || c.toNat == 0xFEFF

/-- The number of binary digits of `n`, counted in at most `fuel` steps. -/
def bitLengthAux : Nat → Nat → Nat
  | 0, _ => 0
  | fuel + 1, n => if n = 0 then 0 else bitLengthAux fuel (n / 2) + 1

/-- The number of binary digits of `n`; 0 for 0. -/
def bitLength (n : Nat) : Nat := bitLengthAux n n

/-- The multiple of `2 ^ e` nearest to a quantity `x` with `n ≤ x < n + 1`,
where `sticky` tells whether `x` exceeds `n`; of two nearest multiples the
one with an even factor is taken (the rounding of IEEE 754 arithmetic).
With `sticky` set, `e` is at least 1. -/
def roundToMultiple (n e : Nat) (sticky : Bool) : Nat :=
  if decide (2 ^ e < 2 * (n % 2 ^ e))
      || (2 * (n % 2 ^ e) == 2 ^ e && (sticky || n / 2 ^ e % 2 == 1)) then
    (n / 2 ^ e + 1) * 2 ^ e
  else n / 2 ^ e * 2 ^ e

/-- The double nearest to the natural number `n`: 53 binary digits are kept.
`none` stands for Infinity, the result from 2 ^ 1024 on. -/
def roundDouble (n : Nat) : Option Nat :=
  if bitLength (roundToMultiple n (bitLength n - 53) false) ≤ 1024 then
    some (roundToMultiple n (bitLength n - 53) false)
  else none

/-- The JavaScript numbers that `parseInt` and the arithmetic of
`getInquiries` yield: NaN, a double with an integer value, or an infinity.
The value 0 stands for both zeros. -/
inductive JsNumber where
  | nan
  | finite (value : Int)
  | infinite (negative : Bool)
  deriving DecidableEq, Repr

/-- The double nearest to an integer. -/
def JsNumber.ofInt (i : Int) : JsNumber :=
  match roundDouble i.natAbs with
  | some m => .finite (if i < 0 then -(m : Int) else (m : Int))
  | none => .infinite (decide (i < 0))

/-- JavaScript `a - b`. -/
def JsNumber.sub : JsNumber → JsNumber → JsNumber
  | .finite x, .finite y => JsNumber.ofInt (x - y)
  | .infinite a, .finite _ => .infinite a
  | .finite _, .infinite b => .infinite (!b)
  | .infinite a, .infinite b => if a = b then .nan else .infinite a
  | _, _ => .nan

/-- JavaScript `a * b`. -/
def JsNumber.mul : JsNumber → JsNumber → JsNumber
  | .finite x, .finite y => JsNumber.ofInt (x * y)
  | .infinite a, .finite y => if y = 0 then .nan else .infinite (a != decide (y < 0))
  | .finite x, .infinite b => if x = 0 then .nan else .infinite (decide (x < 0) != b)
  | .infinite a, .infinite b => .infinite (a != b)
  | _, _ => .nan

/-- The part of a text that `parseInt` reads digits from: what follows the
leading white space and at most one sign. -/
def significant (text : String) : List Char :=
  if (text.toList.dropWhile isWhiteSpace).head? == some '-'
      || (text.toList.dropWhile isWhiteSpace).head? == some '+' then
    (text.toList.dropWhile isWhiteSpace).tail
  else text.toList.dropWhile isWhiteSpace

/-- JavaScript `parseInt(x)` on a query value, given as text: leading white
space is skipped, then an optional sign is read, then the longest run of
digits (hexadecimal after `0x` or `0X`, decimal otherwise); what follows is
ignored. The integer read is rounded to a double. The result is NaN for an
absent value and for a value without digits. -/
def parseInt : Option String → JsNumber
  | none => .nan
  | some text =>
    match
      (if (significant text).take 2 == ['0', 'x'] || (significant text).take 2 == ['0', 'X']
        then readDigits hexValue 16 ((significant text).drop 2) none
        else readDigits digitValue 10 (significant text) none) with
    | none => .nan
    | some n =>
      if (text.toList.dropWhile isWhiteSpace).head? == some '-' then JsNumber.ofInt (-(n : Int))
      else JsNumber.ofInt (n : Int)

/-- The JavaScript expression `x || d` on a number: NaN and zero are falsy. -/
def orDefault (x : JsNumber) (d : Int) : JsNumber :=
  match x with
  | .nan => .finite d
  | .finite n => if n = 0 then .finite d else .finite n
  | .infinite negative => .infinite negative

/-- The query string of `GET /api/inquiries`, each value as text. The field
`sort` holds the order that the sort string of the request denotes, as a test
that the first inquiry does not come after the second; `none` is an absent or
empty sort string. -/
structure ListQuery where
  page : Option String
  limit : Option String
  status : Option String
  sort : Option (Inquiry → Inquiry → Bool)

/-- The order of the default sort string `-createdAt`: newest first. -/
def newestFirst (a b : Inquiry) : Bool := decide (b.createdAt ≤ a.createdAt)

/-- The filter object built at lines 74-86, as a test on one inquiry: the
role of the caller selects the tenant or the landlord path, and a truthy
status value adds an equality on `status`. -/
def listFilter (user : User) (status : Option String) (i : Inquiry) : Bool :=
  (match user.role with
    | .tenant => i.tenant == user.id
    | .landlord => i.landlord == user.id
    | .other => true)
  && (if truthy status then some i.status.toString == status else true)

/-- The documents `Inquiry.find(filter).sort(..)` yields before skip and limit
(lines 88-93). -/
def sortedMatches (s : Store) (user : User) (status : Option String)
    (sort : Option (Inquiry → Inquiry → Bool)) : List Inquiry :=
  List.insertionSort (fun a b => (sort.getD newestFirst) a b = true)
    (s.inquiries.filter (listFilter user status))

/-- The 64-bit integer the database server reads from a number of the find
command: NaN reads as 0, and a value beyond the 64-bit range as the nearest
bound. -/
def toLong : JsNumber → Int
  | .nan => 0
  | .finite v => max (-(2 ^ 63)) (min v (2 ^ 63 - 1))
  | .infinite true => -(2 ^ 63)
  | .infinite false => 2 ^ 63 - 1

/-- The cursor methods `.skip(skip).limit(limit)` (lines 94-95). The server
rejects a negative skip, which is `none` here. Limit 0 means no limit. The
driver sends a negative limit as its absolute value with the request for a
single batch, which holds at most 101 documents. -/
def skipLimit {α : Type} (docs : List α) (skip limit : JsNumber) : Option (List α) :=
  if toLong skip < 0 then none
  else if toLong limit < 0 then
    some ((docs.drop (toLong skip).toNat).take
      (min (toLong (JsNumber.sub (.finite 0) limit)).toNat 101))
  else if toLong limit = 0 then some (docs.drop (toLong skip).toNat)
  else some ((docs.drop (toLong skip).toNat).take (toLong limit).toNat)

/-- The double nearest to `t / l`, for positive `t` and `l` below 2 ^ 1024,
as a pair `(m, k)` that stands for `m / 2 ^ k`. The quotient is scaled by
`2 ^ k` to at least 55 binary digits, of which 53 are kept, or fewer where
the double is subnormal. -/
def divDouble (t l : Nat) : Nat × Nat :=
  (roundToMultiple (t * 2 ^ (55 + bitLength l - bitLength t) / l)
      (max (bitLength (t * 2 ^ (55 + bitLength l - bitLength t) / l) - 53)
        (55 + bitLength l - bitLength t - 1074))
      (t * 2 ^ (55 + bitLength l - bitLength t) % l != 0),
    55 + bitLength l - bitLength t)

/-- The expression `Math.ceil(total / limit)` (line 104): the quotient is
rounded to a double, then its ceiling is taken. -/
def pageCount (total limit : JsNumber) : JsNumber :=
  match total, limit with
  | .finite t, .finite l =>
    if l = 0 then (if t = 0 then .nan else .infinite (decide (t < 0)))
    else if t = 0 then .finite 0
    else if decide (t < 0) = decide (l < 0) then
      .finite (((divDouble t.natAbs l.natAbs).1 + 2 ^ (divDouble t.natAbs l.natAbs).2 - 1)
        / 2 ^ (divDouble t.natAbs l.natAbs).2 : Nat)
    else
      .finite (-(((divDouble t.natAbs l.natAbs).1 / 2 ^ (divDouble t.natAbs l.natAbs).2 : Nat)
        : Int))
  | .finite _, .infinite _ => .finite 0
  | .infinite a, .finite l => .infinite (a != decide (l < 0))
  | _, _ => .nan

/-- The object sent at lines 99-106. -/
structure Listing where
  count : Nat
  total : JsNumber
  page : JsNumber
  pages : JsNumber
  inquiries : List Inquiry
  deriving DecidableEq, Repr

/-- What `getInquiries` sends: a listing, or 500 "Server error while fetching
inquiries" from its catch block. -/
inductive ListResponse where
  | ok (listing : Listing)
  | serverError
  deriving DecidableEq, Repr

/-- The inquiries of a response; none for an error. -/
def ListResponse.inquiries : ListResponse → List Inquiry
  | .ok listing => listing.inquiries
  | .serverError => []

/-- The handler `getInquiries` (lines 68-111): `page` and `limit` are read at
lines 70-71, `skip` is computed at line 72, the documents are fetched at lines
88-95 and counted at line 97. -/
def getInquiries (s : Store) (user : User) (q : ListQuery) : ListResponse :=
  match skipLimit (sortedMatches s user q.status q.sort)
      (JsNumber.mul (JsNumber.sub (orDefault (parseInt q.page) 1) (.finite 1))
        (orDefault (parseInt q.limit) 20))
      (orDefault (parseInt q.limit) 20) with
  | none => .serverError
  | some inquiries =>
    .ok
      { count := inquiries.length
        total := JsNumber.ofInt (s.inquiries.filter (listFilter user q.status)).length
        page := orDefault (parseInt q.page) 1
        pages := pageCount
          (JsNumber.ofInt (s.inquiries.filter (listFilter user q.status)).length)
          (orDefault (parseInt q.limit) 20)
        inquiries := inquiries }

/-! ## Routes (inquiryroutes.js) -/

/-- The route `POST /:id/schedule`: `landlordOnly`, then the handler. -/
def scheduleRoute (isDate : String → Bool) (s : Store) (user : User) (id : ObjectId)
    (date time notes : Option String) : Response × Store :=
  match landlordOnly user with
  | some r => (.fail r, s)
  | none => scheduleViewing isDate s user id date time notes

/-- The route `PUT /:id/confirm-viewing`: `tenantOnly`, then the handler. -/
def confirmRoute (s : Store) (user : User) (id : ObjectId) : Response × Store :=
  match tenantOnly user with
  | some r => (.fail r, s)
  | none => confirmViewing s user id

/-- The route `POST /`: `tenantOnly`, then the handler. -/
def createRoute (isDate : String → Bool) (s : Store) (user : User) (body : CreateBody)
    (now : Nat) : Response × Store :=
  match tenantOnly user with
  | some r => (.fail r, s)
  | none => createInquiry isDate s user body now


/-! ## Sequences of operations -/

/-- One call of an inquiry handler, with its caller and inputs. -/
inductive Op where
  | create (user : User) (body : CreateBody) (now : Nat)
  | get (user : User) (id : ObjectId)
  | reply (user : User) (id : ObjectId) (message : Option String) (now : Nat)
  | schedule (user : User) (id : ObjectId) (date time notes : Option String)
  | confirm (user : User) (id : ObjectId)
  | setStatus (user : User) (id : ObjectId) (status : Option String)
  deriving DecidableEq, Repr

/-- Runs the handler an `Op` names. -/
def Op.apply (isDate : String → Bool) (s : Store) : Op → Response × Store
  | .create user body now => createInquiry isDate s user body now
  | .get user id => getInquiryById s user id
  | .reply user id message now => replyToInquiry s user id message now
  | .schedule user id date time notes => scheduleViewing isDate s user id date time notes
  | .confirm user id => confirmViewing s user id
  | .setStatus user id status => updateInquiryStatus s user id status

/-- The store after a sequence of calls. -/
def run (isDate : String → Bool) (s : Store) (ops : List Op) : Store :=
  ops.foldl (fun st op => (op.apply isDate st).2) s

/-- A store that holds the given properties and no inquiry yet. -/
def Store.initial (properties : List Property) : Store :=
  { inquiries := [], properties := properties, nextId := 0 }

/-! ## Notions of the specification -/

/-- Active inquiry, as the glossary of the specification defines it: status
pending, viewed, replied or scheduled. -/
def Status.isActive : Status → Bool
  | .pending => true
  | .viewed => true
  | .replied => true
  | .scheduled => true
  | .cancelled => false
  | .completed => false

/-- Number of active inquiries (in the sense of the specification) a store
holds for a (property, tenant) pair. -/
def Store.activeCount (s : Store) (propertyId tenant : ObjectId) : Nat :=
  (s.inquiries.filter (fun i =>
    i.property == propertyId && i.tenant == tenant && i.status.isActive)).length

/-- The inquiry id a call addresses; `none` for `createInquiry`. -/
def Op.target : Op → Option ObjectId
  | .create _ _ _ => none
  | .get _ id => some id
  | .reply _ id _ _ => some id
  | .schedule _ id _ _ _ => some id
  | .confirm _ id => some id
  | .setStatus _ id _ => some id

/-- Whether the call turns the inquiry it addresses from cancelled or
completed into an active one. -/
def Op.reactivates (isDate : String → Bool) (s : Store) (op : Op) : Bool :=
  match op.target with
  | none => false
  | some id =>
    match s.findInquiry id, (op.apply isDate s).2.findInquiry id with
    | some before, some after => !before.status.isActive && after.status.isActive
    | _, _ => false

/-- Whether the call is a `createInquiry` that is accepted although the store
holds a scheduled inquiry of the caller for the same property. -/
def Op.createsBesideScheduled (isDate : String → Bool) (s : Store) (op : Op) : Bool :=
  match op with
  | .create user body _ =>
    (op.apply isDate s).1.errorKind == none
      && s.inquiries.any (fun i =>
        i.property == body.propertyId && i.tenant == user.id && i.status == .scheduled)
  | _ => false

/-- Whether the call is a `createInquiry` that is accepted for a property
whose owner is the caller. -/
def Op.createsForOwnProperty (isDate : String → Bool) (s : Store) (op : Op) : Bool :=
  match op with
  | .create user body _ =>
    (op.apply isDate s).1.errorKind == none
      && (s.findProperty body.propertyId).any (fun p => p.landlord == user.id)
  | _ => false

/-- Whether the test `ok` holds for every call of the sequence, each taken in
the store the calls before it have produced. -/
def everyStep (ok : Store → Op → Bool) (isDate : String → Bool) : Store → List Op → Bool
  | _, [] => true
  | s, op :: rest => ok s op && everyStep ok isDate (op.apply isDate s).2 rest

/-- Id, property, tenant and status of every inquiry of a store, in order: a
compact view used in worked examples. -/
def Store.summary (s : Store) : List (ObjectId × ObjectId × ObjectId × Status) :=
  s.inquiries.map (fun i => (i.id, i.property, i.tenant, i.status))

/-! ## Query texts -/

/-- The character of a decimal digit. -/
def digitChar (d : Nat) : Char := Char.ofNat (48 + d)

/-- The decimal digits of `n`, most significant first, before `acc`. -/
def decimalDigits : Nat → Nat → List Char → List Char
  | 0, _, acc => acc
  | fuel + 1, n, acc =>
    if n < 10 then digitChar n :: acc
    else decimalDigits fuel (n / 10) (digitChar (n % 10) :: acc)

/-- The decimal text of a natural number, as a client writes it into the
query string. -/
def decimal (n : Nat) : String := String.mk (decimalDigits (n + 1) n [])

/-- A text is numeric when a decimal digit follows its leading white space
and optional sign. -/
def isNumericText (text : String) : Bool :=
  ((significant text).head?.bind digitValue).isSome

/-- A text of zero: after leading white space and an optional sign, one or
more digits 0, followed by nothing or by a character that is neither a
decimal digit nor the letter x. -/
def isZeroText (text : String) : Bool :=
  (significant text).head? == some '0'
    && (((significant text).dropWhile (fun c => c == '0')).head?.all
        (fun c => (digitValue c).isNone && c != 'x' && c != 'X'))

/-! ## Example data -/

/-- The Date cast of the worked examples: it accepts the calendar dates written
YYYY-MM-DD with month 01 to 12 and day 01 to 28, and no other text. -/
def isoDate (text : String) : Bool :=
  match text.toList with
  | [y1, y2, y3, y4, a, m1, m2, b, d1, d2] =>
    y1.isDigit && y2.isDigit && y3.isDigit && y4.isDigit && a == '-' && b == '-'
      && m1.isDigit && m2.isDigit && d1.isDigit && d2.isDigit
      && decide (1 ≤ (m1.toNat - 48) * 10 + (m2.toNat - 48))
      && decide ((m1.toNat - 48) * 10 + (m2.toNat - 48) ≤ 12)
      && decide (1 ≤ (d1.toNat - 48) * 10 + (d2.toNat - 48))
      && decide ((d1.toNat - 48) * 10 + (d2.toNat - 48) ≤ 28)
  | _ => false

/-- An available property, id 7, owned by user 2. -/
def flat : Property := { id := 7, landlord := 2, isAvailable := true, inquiries := 0 }

/-- A tenant, user 1. -/
def alice : User := { id := 1, role := .tenant }

/-- The landlord who owns `flat`, user 2. -/
def bob : User := { id := 2, role := .landlord }

/-- Another landlord, user 3. -/
def carol : User := { id := 3, role := .landlord }

/-- Another tenant, user 4. -/
def dave : User := { id := 4, role := .tenant }

/-- A well-formed creation request for `flat`. -/
def request : CreateBody :=
  { propertyId := 7, message := some "Is it free in June?", moveInDate := some "2025-06-01",
    numberOfOccupants := some 2 }

/-- The store after alice has inquired about `flat`. -/
def inquired : Store := run isoDate (Store.initial [flat]) [.create alice request 100]

/-- The store after alice has inquired about `flat` and bob has scheduled a
viewing on that inquiry. -/
def viewingScheduled : Store :=
  run isoDate inquired [.schedule bob 0 (some "2025-06-01") (some "10:00") none]

/-- An available property, id 9, whose owner field names user 1, the account
of alice. -/
def ownFlat : Property := { id := 9, landlord := 1, isAvailable := true, inquiries := 0 }

/-- A store with three inquiries about the flat of bob: inquiry 0 by alice,
cancelled, inquiry 1 by dave and inquiry 2 by alice, both pending. -/
def threeInquiries : Store :=
  run isoDate (Store.initial [flat])
    [.create alice request 100, .create dave request 200,
     .setStatus alice 0 (some "cancelled"), .create alice request 300]

/-! # Proofs -/

variable {isDate : String → Bool}


/-! ## Store lemmas -/

theorem find_updateFirst_same {α : Type} (p : α → Bool) (y : α) (hy : p y = true) :
    ∀ (l : List α) (x : α), l.find? p = some x →
      (updateFirst p (fun _ => y) l).find? p = some y := by
  intro l
  induction l with
  | nil => intro x h; simp at h
  | cons a t ih =>
    intro x h
    by_cases ha : p a = true
    · simp [updateFirst, ha, List.find?, hy]
    · simp only [Bool.not_eq_true] at ha
      simp only [List.find?, ha] at h
      simp only [updateFirst, ha, List.find?]
      exact ih x h

theorem findInquiry_id {s : Store} {id : ObjectId} {inquiry : Inquiry}
    (h : s.findInquiry id = some inquiry) : inquiry.id = id := by
  have := List.find?_some h
  simpa using this

theorem findInquiry_mem {s : Store} {id : ObjectId} {inquiry : Inquiry}
    (h : s.findInquiry id = some inquiry) : inquiry ∈ s.inquiries :=
  List.mem_of_find?_eq_some h

theorem findInquiry_save {s : Store} {id : ObjectId} {inquiry next : Inquiry}
    (h : s.findInquiry id = some inquiry) (hid : next.id = id) :
    (s.save next).findInquiry id = some next := by
  have h0 : s.inquiries.find? (fun i => i.id == id) = some inquiry := h
  have h1 := find_updateFirst_same (fun i => i.id == id) next (by simp [hid]) s.inquiries inquiry h0
  unfold Store.findInquiry Store.save
  simpa [hid] using h1

theorem updateFirst_idem {α : Type} (p : α → Bool) (y : α) (hy : p y = true) :
    ∀ l : List α, updateFirst p (fun _ => y) (updateFirst p (fun _ => y) l)
      = updateFirst p (fun _ => y) l := by
  intro l
  induction l with
  | nil => rfl
  | cons a t ih =>
    by_cases ha : p a = true
    · simp [updateFirst, ha, hy]
    · simp only [Bool.not_eq_true] at ha
      simp [updateFirst, ha, ih]

theorem save_save (s : Store) (next : Inquiry) : (s.save next).save next = s.save next := by
  unfold Store.save
  simp only
  rw [updateFirst_idem _ _ (by simp)]

theorem truthy_some {text : String} (h : text ≠ "") : truthy (some text) = true := by
  simp [truthy, h]


/-! ## C1: the duplicate check of createInquiry -/

/-- C1. At the failing input the code does not answer Conflict: alice holds
one inquiry for the flat, in status scheduled (reached by her own create and
the landlord scheduling a viewing), and her second `createInquiry` for the
same flat answers 201 and stores a second inquiry, in status pending. -/
theorem createInquiry_ignores_scheduled :
    viewingScheduled.summary = [(0, 7, 1, .scheduled)]
    ∧ (createInquiry isoDate viewingScheduled alice request 200).1.errorKind = none
    ∧ (createInquiry isoDate viewingScheduled alice request 200).2.summary
        = [(0, 7, 1, .scheduled), (1, 7, 1, .pending)]
    ∧ (createInquiry isoDate viewingScheduled alice request 200).2.activeCount 7 1 = 2 := by
  decide


/-! ## C3: replyToInquiry -/

theorem replyToInquiry_participant (s : Store) (user : User) (id : ObjectId)
    (inquiry : Inquiry) (text : String) (now : Nat)
    (hfind : s.findInquiry id = some inquiry)
    (hpart : user.id = inquiry.tenant ∨ user.id = inquiry.landlord)
    (htext : text ≠ "") :
    replyToInquiry s user id (some text) now
      = (.ok 200 (applyReply inquiry user text now), s.save (applyReply inquiry user text now)) := by
  have hauth : ¬ ((Ref.oid inquiry.tenant).toString ≠ user.idText
      ∧ (Ref.oid inquiry.landlord).toString ≠ user.idText) := by
    simp only [Ref.toString, User.idText, ne_eq, IdText.hex.injEq, not_and, not_not]
    rcases hpart with h | h
    · intro h1; exact absurd h.symm h1
    · intro _; exact h.symm
  simp [replyToInquiry, truthy_some htext, hfind, hauth]

theorem applyReply_id (inquiry : Inquiry) (user : User) (text : String) (now : Nat) :
    (applyReply inquiry user text now).id = inquiry.id := by
  unfold applyReply; split <;> rfl

/-- C3. For every stored inquiry (whatever its status), every participant and
every non-empty message, `replyToInquiry` answers 200 with an inquiry that is
then the stored one, whose status is replied and whose replies are the old
replies followed by one entry with the caller as sender, the given message
and read = false. -/
theorem replyToInquiry_appends (s : Store) (user : User) (id : ObjectId)
    (inquiry : Inquiry) (text : String) (now : Nat)
    (hfind : s.findInquiry id = some inquiry)
    (hpart : user.id = inquiry.tenant ∨ user.id = inquiry.landlord)
    (htext : text ≠ "") :
    ∃ next : Inquiry,
      (replyToInquiry s user id (some text) now).1 = .ok 200 next
      ∧ (replyToInquiry s user id (some text) now).2.findInquiry id = some next
      ∧ next.status = .replied
      ∧ next.replies = inquiry.replies ++
          [{ sender := user.id, message := text, read := false, createdAt := now }] := by
  refine ⟨applyReply inquiry user text now, ?_, ?_, ?_, ?_⟩
  · rw [replyToInquiry_participant s user id inquiry text now hfind hpart htext]
  · rw [replyToInquiry_participant s user id inquiry text now hfind hpart htext]
    exact findInquiry_save hfind ((applyReply_id inquiry user text now).trans (findInquiry_id hfind))
  · unfold applyReply; split <;> rfl
  · unfold applyReply; split <;> rfl

/-- Witness for C3: bob, the landlord of record, replies to the inquiry alice
created. -/
theorem replyToInquiry_appends_witness :
    inquired.findInquiry 0 ≠ none
    ∧ ∃ next : Inquiry,
      (replyToInquiry inquired bob 0 (some "available June 1") 150).1 = .ok 200 next
      ∧ (replyToInquiry inquired bob 0 (some "available June 1") 150).2.findInquiry 0 = some next
      ∧ next.status = .replied
      ∧ next.replies = [] ++
          [{ sender := 2, message := "available June 1", read := false, createdAt := 150 }] :=
  ⟨by decide,
   replyToInquiry_appends inquired bob 0 _ "available June 1" 150
     (by decide : inquired.findInquiry 0 = some
        { id := 0, property := 7, tenant := 1, landlord := 2, message := "Is it free in June?",
          moveInDate := "2025-06-01", numberOfOccupants := 2, status := .pending,
          scheduledViewing := ScheduledViewing.unset, replies := [],
          viewedByLandlord := false, viewedByTenant := false, createdAt := 100 })
     (Or.inr (by decide)) (by decide)⟩

/-- Lines 187-191: a reply by a participant answers 200, and the branch that
resets a flag tests the role of the caller. With role landlord,
viewedByTenant is false afterwards and viewedByLandlord is as before; with
any other role, viewedByLandlord is false afterwards and viewedByTenant is
as before. -/
theorem replyToInquiry_resets_by_role (s : Store) (user : User) (id : ObjectId)
    (inquiry : Inquiry) (text : String) (now : Nat)
    (hfind : s.findInquiry id = some inquiry)
    (hpart : user.id = inquiry.tenant ∨ user.id = inquiry.landlord)
    (htext : text ≠ "") :
    ∃ next : Inquiry,
      (replyToInquiry s user id (some text) now).1 = .ok 200 next
      ∧ (user.role = .landlord →
          next.viewedByTenant = false ∧ next.viewedByLandlord = inquiry.viewedByLandlord)
      ∧ (user.role ≠ .landlord →
          next.viewedByLandlord = false ∧ next.viewedByTenant = inquiry.viewedByTenant) := by
  refine ⟨applyReply inquiry user text now, ?_, ?_, ?_⟩
  · rw [replyToInquiry_participant s user id inquiry text now hfind hpart htext]
  · intro h; simp [applyReply, h]
  · intro h; simp [applyReply, h]


/-! ## C5, C6: scheduleViewing -/

theorem hex_ne_iff {r : Role} (a b : ObjectId) : (Ref.oid a).toString ≠ User.idText ⟨b, r⟩ ↔ b ≠ a := by
  simp only [Ref.toString, User.idText, ne_eq, IdText.hex.injEq]
  exact ⟨fun h e => h e.symm, fun h e => h e.symm⟩

/-- C5, as stated, fails: carol has role landlord and is not the landlord of
record of inquiry 0; when she sends no date, the handler and the route both
answer BadRequest, not Forbidden. -/
theorem scheduleViewing_stranger_missing_date :
    (inquired.findInquiry 0).map (fun i => i.landlord) = some 2
    ∧ carol.id ≠ 2
    ∧ (scheduleViewing isoDate inquired carol 0 none (some "10:00") none).1.errorKind
        = some .badRequest
    ∧ (scheduleRoute isoDate inquired carol 0 none (some "10:00") none).1.errorKind
        = some .badRequest := by
  decide

/-- C5, amended. For a stored inquiry and a caller who is not its landlord of
record, `scheduleViewing` (the handler, and the route with its middleware)
answers with an error, returns no inquiry and leaves the store as it was,
whatever date, time and notes are. The error is Forbidden when the role of
the caller is not landlord, and when date and time are both present; it is
BadRequest when the caller has role landlord and date or time is missing. -/
theorem scheduleViewing_not_owner (s : Store) (user : User) (id : ObjectId)
    (inquiry : Inquiry) (date time notes : Option String)
    (hfind : s.findInquiry id = some inquiry)
    (hne : user.id ≠ inquiry.landlord) :
    (scheduleViewing isDate s user id date time notes).2 = s
    ∧ (scheduleRoute isDate s user id date time notes).2 = s
    ∧ (scheduleViewing isDate s user id date time notes).1.inquiry? = none
    ∧ (scheduleRoute isDate s user id date time notes).1.inquiry? = none
    ∧ ((user.role ≠ .landlord ∨ (truthy date = true ∧ truthy time = true)) →
        (scheduleViewing isDate s user id date time notes).1.errorKind = some .forbidden
        ∧ (scheduleRoute isDate s user id date time notes).1.errorKind = some .forbidden)
    ∧ ((user.role = .landlord ∧ (truthy date = false ∨ truthy time = false)) →
        (scheduleViewing isDate s user id date time notes).1.errorKind = some .badRequest
        ∧ (scheduleRoute isDate s user id date time notes).1.errorKind = some .badRequest) := by
  obtain ⟨uid, role⟩ := user
  have hauth : (Ref.oid inquiry.landlord).toString ≠ User.idText ⟨uid, role⟩ :=
    (hex_ne_iff _ _).mpr hne
  by_cases hrole : role = .landlord
  · subst hrole
    by_cases hd : truthy date = true <;> by_cases ht : truthy time = true <;>
      simp [scheduleViewing, scheduleRoute, landlordOnly, hfind, hauth, hd, ht,
        Response.errorKind, Response.inquiry?, Rejection.kind]
  · simp [scheduleViewing, scheduleRoute, landlordOnly, hrole,
      Response.errorKind, Response.inquiry?, Rejection.kind]

/-- Witness for C5, amended: carol on the inquiry alice created about the
flat of bob. -/
theorem scheduleViewing_not_owner_witness :
    (scheduleViewing isoDate inquired carol 0 (some "2025-06-01") none none).2 = inquired
    ∧ (scheduleRoute isoDate inquired carol 0 (some "2025-06-01") none none).2 = inquired
    ∧ (scheduleViewing isoDate inquired carol 0 (some "2025-06-01") none none).1.inquiry? = none
    ∧ (scheduleRoute isoDate inquired carol 0 (some "2025-06-01") none none).1.inquiry? = none
    ∧ ((carol.role ≠ .landlord
          ∨ (truthy (some "2025-06-01") = true ∧ truthy none = true)) →
        (scheduleViewing isoDate inquired carol 0 (some "2025-06-01") none none).1.errorKind
          = some .forbidden
        ∧ (scheduleRoute isoDate inquired carol 0 (some "2025-06-01") none none).1.errorKind
          = some .forbidden)
    ∧ ((carol.role = .landlord
          ∧ (truthy (some "2025-06-01") = false ∨ truthy none = false)) →
        (scheduleViewing isoDate inquired carol 0 (some "2025-06-01") none none).1.errorKind
          = some .badRequest
        ∧ (scheduleRoute isoDate inquired carol 0 (some "2025-06-01") none none).1.errorKind
          = some .badRequest) :=
  scheduleViewing_not_owner inquired carol 0
    { id := 0, property := 7, tenant := 1, landlord := 2, message := "Is it free in June?",
      moveInDate := "2025-06-01", numberOfOccupants := 2, status := .pending,
      scheduledViewing := ScheduledViewing.unset, replies := [],
      viewedByLandlord := false, viewedByTenant := false, createdAt := 100 }
    (some "2025-06-01") none none (by decide) (by decide)

theorem scheduleViewing_by_landlord (s : Store) (user : User) (id : ObjectId)
    (inquiry : Inquiry) (text : String) (time notes : Option String)
    (hfind : s.findInquiry id = some inquiry)
    (hrole : user.role = .landlord)
    (hown : user.id = inquiry.landlord)
    (hd : text ≠ "") (ht : truthy time = true) :
    scheduleViewing isDate s user id (some text) time notes
      = if isDate text = true then
          (.ok 200
            { inquiry with
              scheduledViewing :=
                { date := some text, time := time, notes := notes, confirmed := false }
              status := .scheduled },
           s.save
            { inquiry with
              scheduledViewing :=
                { date := some text, time := time, notes := notes, confirmed := false }
              status := .scheduled })
        else (.fail .scheduleServerError, s) := by
  obtain ⟨uid, role⟩ := user
  simp only at hrole hown
  subst hrole
  have hauth : ¬ (Ref.oid inquiry.landlord).toString ≠ User.idText ⟨uid, .landlord⟩ := by
    rw [hex_ne_iff]; simp [hown]
  by_cases hdate : isDate text = true
  · simp [scheduleViewing, truthy_some hd, ht, hfind, hauth, hdate]
  · simp [scheduleViewing, truthy_some hd, ht, hfind, hauth, hdate]

/-- C6, as stated, fails: bob, role landlord, is the landlord of record of
inquiry 0 and sends a date and a time, both present; the date text is not
one the Date cast accepts, and the handler answers 500 and leaves the store
as it was. -/
theorem scheduleViewing_rejects_bad_date :
    (inquired.findInquiry 0).map (fun i => i.landlord) = some bob.id
    ∧ bob.role = .landlord
    ∧ truthy (some "tomorrow") = true ∧ truthy (some "10:00") = true
    ∧ isoDate "tomorrow" = false
    ∧ (scheduleViewing isoDate inquired bob 0 (some "tomorrow") (some "10:00") none).1
        = .fail .scheduleServerError
    ∧ (scheduleViewing isoDate inquired bob 0 (some "tomorrow") (some "10:00")
        none).1.errorKind = some .internal
    ∧ (scheduleViewing isoDate inquired bob 0 (some "tomorrow") (some "10:00") none).2
        = inquired := by
  decide

/-- C6, amended. For a stored inquiry in any status and its landlord of record
with role landlord. When date and time are both present and the Date cast
accepts the date text, `scheduleViewing` answers 200 with an inquiry that is
then the stored one, whose scheduledViewing is the given date, time and notes
with confirmed = false (whatever viewing it held before), whose status is
scheduled, and whose other fields are those of the inquiry before the call.
When both are present and the cast rejects the date text, it answers 500 and
the store is as it was. When date or time is missing it answers BadRequest and
the store is as it was. -/
theorem scheduleViewing_by_owner (s : Store) (user : User) (id : ObjectId)
    (inquiry : Inquiry) (date time notes : Option String)
    (hfind : s.findInquiry id = some inquiry)
    (hrole : user.role = .landlord)
    (hown : user.id = inquiry.landlord) :
    (∀ text : String, date = some text → text ≠ "" → truthy time = true →
      isDate text = true →
      ∃ next : Inquiry,
        (scheduleViewing isDate s user id date time notes).1 = .ok 200 next
        ∧ (scheduleViewing isDate s user id date time notes).2.findInquiry id = some next
        ∧ next.scheduledViewing
            = { date := date, time := time, notes := notes, confirmed := false }
        ∧ next.status = .scheduled
        ∧ next = { inquiry with
                    scheduledViewing := next.scheduledViewing, status := next.status }
        ∧ next.replies = inquiry.replies
        ∧ next.viewedByLandlord = inquiry.viewedByLandlord
        ∧ next.viewedByTenant = inquiry.viewedByTenant)
    ∧ (∀ text : String, date = some text → text ≠ "" → truthy time = true →
      isDate text = false →
        (scheduleViewing isDate s user id date time notes).1.errorKind = some .internal
        ∧ (scheduleViewing isDate s user id date time notes).2 = s)
    ∧ ((truthy date = false ∨ truthy time = false) →
        (scheduleViewing isDate s user id date time notes).1.errorKind = some .badRequest
        ∧ (scheduleViewing isDate s user id date time notes).2 = s) := by
  have hid : inquiry.id = id := findInquiry_id hfind
  refine ⟨?_, ?_, ?_⟩
  · intro text hdate hd ht hok
    subst hdate
    have hrun := @scheduleViewing_by_landlord isDate s user id inquiry text time
      notes hfind hrole hown hd ht
    rw [hok] at hrun
    simp only [if_true] at hrun
    refine ⟨{ inquiry with
      scheduledViewing :=
        { date := some text, time := time, notes := notes, confirmed := false }
      status := .scheduled }, ?_, ?_, rfl, rfl, rfl, rfl, rfl, rfl⟩
    · rw [hrun]
    · rw [hrun]
      exact findInquiry_save hfind hid
  · intro text hdate hd ht hbad
    subst hdate
    have hrun := @scheduleViewing_by_landlord isDate s user id inquiry text time
      notes hfind hrole hown hd ht
    rw [hbad] at hrun
    simp only [Bool.false_eq_true, if_false] at hrun
    rw [hrun]
    exact ⟨rfl, rfl⟩
  · intro h
    obtain ⟨uid, role⟩ := user
    simp only at hrole
    subst hrole
    rcases h with h | h <;>
      simp [scheduleViewing, h, Response.errorKind, Rejection.kind]

/-- Witness for C6, amended: bob schedules a second viewing on the inquiry for
which he had already scheduled one. -/
theorem scheduleViewing_by_owner_witness :
    isoDate "2025-07-01" = true
    ∧ ∃ next : Inquiry,
        (scheduleViewing isoDate viewingScheduled bob 0 (some "2025-07-01") (some "09:00")
            (some "ring twice")).1 = .ok 200 next
        ∧ (scheduleViewing isoDate viewingScheduled bob 0 (some "2025-07-01") (some "09:00")
            (some "ring twice")).2.findInquiry 0 = some next
        ∧ next.scheduledViewing
            = { date := some "2025-07-01", time := some "09:00", notes := some "ring twice",
                confirmed := false }
        ∧ next.status = .scheduled
        ∧ next = { ({ id := 0, property := 7, tenant := 1, landlord := 2,
                      message := "Is it free in June?", moveInDate := "2025-06-01",
                      numberOfOccupants := 2, status := .scheduled,
                      scheduledViewing :=
                        { date := some "2025-06-01", time := some "10:00", notes := none,
                          confirmed := false },
                      replies := [], viewedByLandlord := false, viewedByTenant := false,
                      createdAt := 100 } : Inquiry) with
                    scheduledViewing := next.scheduledViewing, status := next.status }
        ∧ next.replies = []
        ∧ next.viewedByLandlord = false
        ∧ next.viewedByTenant = false :=
  ⟨by decide,
   (scheduleViewing_by_owner viewingScheduled bob 0
    { id := 0, property := 7, tenant := 1, landlord := 2, message := "Is it free in June?",
      moveInDate := "2025-06-01", numberOfOccupants := 2, status := .scheduled,
      scheduledViewing :=
        { date := some "2025-06-01", time := some "10:00", notes := none, confirmed := false },
      replies := [], viewedByLandlord := false, viewedByTenant := false, createdAt := 100 }
    (some "2025-07-01") (some "09:00") (some "ring twice") (by decide) (by decide)
    (by decide)).1 "2025-07-01" rfl (by decide) (by decide) (by decide)⟩

/-! ## C7, C8: confirmViewing -/

theorem confirmViewing_by_tenant (s : Store) (user : User) (id : ObjectId)
    (inquiry : Inquiry)
    (hfind : s.findInquiry id = some inquiry)
    (hrole : user.role = .tenant)
    (hown : user.id = inquiry.tenant) :
    confirmViewing s user id
      = (.ok 200
          { inquiry with
            scheduledViewing := { inquiry.scheduledViewing with confirmed := true }
            status := .scheduled },
         s.save
          { inquiry with
            scheduledViewing := { inquiry.scheduledViewing with confirmed := true }
            status := .scheduled }) := by
  obtain ⟨uid, role⟩ := user
  simp only at hrole hown
  subst hrole
  have hauth : ¬ (Ref.oid inquiry.tenant).toString ≠ User.idText ⟨uid, .tenant⟩ := by
    rw [hex_ne_iff]; simp [hown]
  simp [confirmViewing, hfind, hauth, ScheduledViewing.truthy]

/-- C7. At the failing input the code does not answer BadRequest: on the
inquiry alice has just created, for which no viewing was ever scheduled
(status pending, no date, no time), `confirmViewing` by alice answers 200,
and the stored inquiry then has status scheduled and confirmed = true with
date and time still unset. The route with its middleware does the same. -/
theorem confirmViewing_without_schedule :
    (inquired.findInquiry 0).map (fun i => (i.tenant, i.status, i.scheduledViewing))
      = some (1, .pending,
          { date := none, time := none, notes := none, confirmed := false })
    ∧ (confirmViewing inquired alice 0).1.errorKind = none
    ∧ ((confirmViewing inquired alice 0).2.findInquiry 0).map
        (fun i => (i.status, i.scheduledViewing))
      = some (.scheduled,
          { date := none, time := none, notes := none, confirmed := true })
    ∧ confirmRoute inquired alice 0 = confirmViewing inquired alice 0 := by
  decide

/-- C8. For every stored inquiry (in particular one on which the landlord of
record has scheduled a viewing) and its tenant of record, with role tenant:
`confirmViewing` answers 200 with an inquiry that is then the stored one,
with confirmed = true, status scheduled, and date, time and notes of the
viewing as they were; a second `confirmViewing` answers 200 with the same
inquiry and leaves the store as the first call left it. -/
theorem confirmViewing_idempotent (s : Store) (user : User) (id : ObjectId)
    (inquiry : Inquiry)
    (hfind : s.findInquiry id = some inquiry)
    (hrole : user.role = .tenant)
    (hown : user.id = inquiry.tenant) :
    ∃ next : Inquiry,
      (confirmViewing s user id).1 = .ok 200 next
      ∧ (confirmViewing s user id).2.findInquiry id = some next
      ∧ next.scheduledViewing.confirmed = true
      ∧ next.status = .scheduled
      ∧ next.scheduledViewing.date = inquiry.scheduledViewing.date
      ∧ next.scheduledViewing.time = inquiry.scheduledViewing.time
      ∧ next.scheduledViewing.notes = inquiry.scheduledViewing.notes
      ∧ (confirmViewing (confirmViewing s user id).2 user id).1 = .ok 200 next
      ∧ (confirmViewing (confirmViewing s user id).2 user id).2
          = (confirmViewing s user id).2 := by
  have hid : inquiry.id = id := findInquiry_id hfind
  have h1 := confirmViewing_by_tenant s user id inquiry hfind hrole hown
  have hfind2 : (s.save
      { inquiry with
        scheduledViewing := { inquiry.scheduledViewing with confirmed := true }
        status := .scheduled }).findInquiry id
      = some
        { inquiry with
          scheduledViewing := { inquiry.scheduledViewing with confirmed := true }
          status := .scheduled } := findInquiry_save hfind hid
  have h2 := confirmViewing_by_tenant _ user id _ hfind2 hrole hown
  refine ⟨{ inquiry with
      scheduledViewing := { inquiry.scheduledViewing with confirmed := true }
      status := .scheduled }, ?_, ?_, rfl, rfl, rfl, rfl, rfl, ?_, ?_⟩
  · rw [h1]
  · rw [h1]; exact hfind2
  · rw [h1]; simp only; rw [h2]
  · rw [h1]; simp only; rw [h2]; simp only; exact save_save _ _

/-- Witness for C8: alice confirms, twice, the viewing bob scheduled. -/
theorem confirmViewing_idempotent_witness :
    (viewingScheduled.findInquiry 0).map (fun i => i.scheduledViewing)
      = some { date := some "2025-06-01", time := some "10:00", notes := none,
               confirmed := false }
    ∧ ∃ next : Inquiry,
      (confirmViewing viewingScheduled alice 0).1 = .ok 200 next
      ∧ (confirmViewing viewingScheduled alice 0).2.findInquiry 0 = some next
      ∧ next.scheduledViewing.confirmed = true
      ∧ next.status = .scheduled
      ∧ next.scheduledViewing.date = some "2025-06-01"
      ∧ next.scheduledViewing.time = some "10:00"
      ∧ next.scheduledViewing.notes = none
      ∧ (confirmViewing (confirmViewing viewingScheduled alice 0).2 alice 0).1 = .ok 200 next
      ∧ (confirmViewing (confirmViewing viewingScheduled alice 0).2 alice 0).2
          = (confirmViewing viewingScheduled alice 0).2 :=
  ⟨by decide,
   confirmViewing_idempotent viewingScheduled alice 0
    { id := 0, property := 7, tenant := 1, landlord := 2, message := "Is it free in June?",
      moveInDate := "2025-06-01", numberOfOccupants := 2, status := .scheduled,
      scheduledViewing :=
        { date := some "2025-06-01", time := some "10:00", notes := none, confirmed := false },
      replies := [], viewedByLandlord := false, viewedByTenant := false, createdAt := 100 }
    (by decide) (by decide) (by decide)⟩

/-! ## C9: getInquiryById -/

theorem getInquiryById_rejects_all (s : Store) (user : User) (id : ObjectId) :
    (getInquiryById s user id).1.inquiry? = none ∧ (getInquiryById s user id).2 = s := by
  unfold getInquiryById
  cases s.findInquiry id with
  | none => simp [Response.inquiry?]
  | some inquiry =>
    simp [populate, Ref.toString, User.idText, Response.inquiry?]

/-- C9. At the failing input the code does not return the inquiry: bob, role
landlord, is the landlord of record of inquiry 0, whose viewedByLandlord is
false; `getInquiryById` answers Forbidden and the stored flag stays false.
The same holds for alice, the tenant of record. No call of `getInquiryById`
returns an inquiry or changes the store. -/
theorem getInquiryById_rejects_participants :
    (inquired.findInquiry 0).map (fun i => (i.tenant, i.landlord, i.viewedByLandlord,
        i.viewedByTenant)) = some (1, 2, false, false)
    ∧ getInquiryById inquired bob 0 = (.fail .notAuthorizedToView, inquired)
    ∧ getInquiryById inquired alice 0 = (.fail .notAuthorizedToView, inquired)
    ∧ ∀ (s : Store) (user : User) (id : ObjectId),
        (getInquiryById s user id).1.inquiry? = none ∧ (getInquiryById s user id).2 = s := by
  refine ⟨by decide, by decide, by decide, ?_⟩
  intro s user id
  unfold getInquiryById
  cases s.findInquiry id with
  | none => simp [Response.inquiry?]
  | some inquiry =>
    simp [populate, Ref.toString, User.idText, Response.inquiry?]


/-! ## C10: participant-only access -/

/-- C10, as stated, fails for `replyToInquiry`: the message is checked before
the inquiry is looked up. With no message, carol gets BadRequest for the
unknown id 99 (not NotFound) and BadRequest for inquiry 0, of which she is
neither tenant nor landlord (not Forbidden); the same with an empty message. -/
theorem replyToInquiry_checks_message_first :
    inquired.findInquiry 99 = none
    ∧ (replyToInquiry inquired carol 99 none 150).1.errorKind = some .badRequest
    ∧ (inquired.findInquiry 0).map (fun i => (i.tenant, i.landlord)) = some (1, 2)
    ∧ carol.id = 3
    ∧ (replyToInquiry inquired carol 0 none 150).1.errorKind = some .badRequest
    ∧ (replyToInquiry inquired carol 0 (some "") 150).1.errorKind = some .badRequest := by
  decide

theorem replyToInquiry_falsy (s : Store) (user : User) (id : ObjectId)
    (message : Option String) (now : Nat) (h : truthy message = false) :
    replyToInquiry s user id message now = (.fail .replyMessageRequired, s) := by
  cases message with
  | none => rfl
  | some text => simp [replyToInquiry, h]

theorem replyToInquiry_unchanged_of_outsider (s : Store) (user : User) (id : ObjectId)
    (message : Option String) (now : Nat)
    (h : ∀ inquiry, s.findInquiry id = some inquiry →
      user.id ≠ inquiry.tenant ∧ user.id ≠ inquiry.landlord) :
    (replyToInquiry s user id message now).1.inquiry? = none
    ∧ (replyToInquiry s user id message now).2 = s := by
  obtain ⟨uid, role⟩ := user
  cases message with
  | none => exact ⟨rfl, rfl⟩
  | some text =>
    by_cases ht : truthy (some text) = true
    · cases hfind : s.findInquiry id with
      | none => simp [replyToInquiry, ht, hfind, Response.inquiry?]
      | some inquiry =>
        have ho := h inquiry hfind
        have h1 : (Ref.oid inquiry.tenant).toString ≠ User.idText ⟨uid, role⟩ :=
          (hex_ne_iff _ _).mpr ho.1
        have h2 : (Ref.oid inquiry.landlord).toString ≠ User.idText ⟨uid, role⟩ :=
          (hex_ne_iff _ _).mpr ho.2
        simp [replyToInquiry, ht, hfind, h1, h2, Response.inquiry?]
    · simp only [Bool.not_eq_true] at ht
      rw [replyToInquiry_falsy s _ id (some text) now ht]
      exact ⟨rfl, rfl⟩

/-- C10, amended. For `getInquiryById`, `updateInquiryStatus`, and for
`replyToInquiry` with a non-empty message: an unknown inquiry id yields
NotFound, and on a stored inquiry a caller who is neither its tenant nor its
landlord gets Forbidden. In both situations, and for `replyToInquiry`
whatever the message is, the response carries no inquiry and the store is as
it was. With a missing or empty message `replyToInquiry` answers BadRequest
before it looks the inquiry up. -/
theorem participant_only_access (s : Store) (user : User) (id : ObjectId)
    (message status : Option String) (now : Nat) :
    (s.findInquiry id = none →
      (getInquiryById s user id).1.errorKind = some .notFound
      ∧ (updateInquiryStatus s user id status).1.errorKind = some .notFound
      ∧ (truthy message = true →
          (replyToInquiry s user id message now).1.errorKind = some .notFound)
      ∧ (getInquiryById s user id).2 = s
      ∧ (updateInquiryStatus s user id status).2 = s
      ∧ (replyToInquiry s user id message now).2 = s
      ∧ (replyToInquiry s user id message now).1.inquiry? = none)
    ∧ (∀ inquiry : Inquiry, s.findInquiry id = some inquiry →
        user.id ≠ inquiry.tenant → user.id ≠ inquiry.landlord →
      (getInquiryById s user id).1.errorKind = some .forbidden
      ∧ (updateInquiryStatus s user id status).1.errorKind = some .forbidden
      ∧ (truthy message = true →
          (replyToInquiry s user id message now).1.errorKind = some .forbidden)
      ∧ (getInquiryById s user id).2 = s
      ∧ (updateInquiryStatus s user id status).2 = s
      ∧ (replyToInquiry s user id message now).2 = s
      ∧ (replyToInquiry s user id message now).1.inquiry? = none
      ∧ (s.findInquiry id = some inquiry))
    ∧ (truthy message = false →
        (replyToInquiry s user id message now).1.errorKind = some .badRequest
        ∧ (replyToInquiry s user id message now).2 = s) := by
  refine ⟨?_, ?_, ?_⟩
  · intro hfind
    have hr := replyToInquiry_unchanged_of_outsider s user id message now
      (by intro i hi; rw [hfind] at hi; cases hi)
    refine ⟨?_, ?_, ?_, ?_, ?_, hr.2, hr.1⟩
    · simp [getInquiryById, hfind, Response.errorKind, Rejection.kind]
    · simp [updateInquiryStatus, hfind, Response.errorKind, Rejection.kind]
    · intro ht
      cases message with
      | none => simp [truthy] at ht
      | some text => simp [replyToInquiry, ht, hfind, Response.errorKind, Rejection.kind]
    · simp [getInquiryById, hfind]
    · simp [updateInquiryStatus, hfind]
  · intro inquiry hfind h1 h2
    obtain ⟨uid, role⟩ := user
    have hr := replyToInquiry_unchanged_of_outsider s ⟨uid, role⟩ id message now
      (by intro i hi; rw [hfind] at hi; cases hi; exact ⟨h1, h2⟩)
    have a1 : (Ref.oid inquiry.tenant).toString ≠ User.idText ⟨uid, role⟩ :=
      (hex_ne_iff _ _).mpr h1
    have a2 : (Ref.oid inquiry.landlord).toString ≠ User.idText ⟨uid, role⟩ :=
      (hex_ne_iff _ _).mpr h2
    refine ⟨?_, ?_, ?_, ?_, ?_, hr.2, hr.1, hfind⟩
    · simp [getInquiryById, hfind, populate, Ref.toString, User.idText,
        Response.errorKind, Rejection.kind]
    · simp [updateInquiryStatus, hfind, a1, a2, Response.errorKind, Rejection.kind]
    · intro ht
      cases message with
      | none => simp [truthy] at ht
      | some text =>
        simp [replyToInquiry, ht, hfind, a1, a2, Response.errorKind, Rejection.kind]
    · simp [getInquiryById, hfind, populate, Ref.toString, User.idText]
    · simp [updateInquiryStatus, hfind, a1, a2]
  · intro ht
    rw [replyToInquiry_falsy s user id message now ht]
    exact ⟨rfl, rfl⟩

/-- Witness for C10, amended: carol on the unknown id 99 and on inquiry 0, of
which she is neither tenant nor landlord, with a non-empty message. -/
theorem participant_only_access_witness :
    ((getInquiryById inquired carol 99).1.errorKind = some .notFound
      ∧ (updateInquiryStatus inquired carol 99 (some "cancelled")).1.errorKind = some .notFound
      ∧ (truthy (some "hello") = true →
          (replyToInquiry inquired carol 99 (some "hello") 150).1.errorKind = some .notFound)
      ∧ (getInquiryById inquired carol 99).2 = inquired
      ∧ (updateInquiryStatus inquired carol 99 (some "cancelled")).2 = inquired
      ∧ (replyToInquiry inquired carol 99 (some "hello") 150).2 = inquired
      ∧ (replyToInquiry inquired carol 99 (some "hello") 150).1.inquiry? = none)
    ∧ ((getInquiryById inquired carol 0).1.errorKind = some .forbidden
      ∧ (updateInquiryStatus inquired carol 0 (some "cancelled")).1.errorKind = some .forbidden
      ∧ (truthy (some "hello") = true →
          (replyToInquiry inquired carol 0 (some "hello") 150).1.errorKind = some .forbidden)
      ∧ (getInquiryById inquired carol 0).2 = inquired
      ∧ (updateInquiryStatus inquired carol 0 (some "cancelled")).2 = inquired
      ∧ (replyToInquiry inquired carol 0 (some "hello") 150).2 = inquired
      ∧ (replyToInquiry inquired carol 0 (some "hello") 150).1.inquiry? = none
      ∧ (inquired.findInquiry 0 = some
          { id := 0, property := 7, tenant := 1, landlord := 2,
            message := "Is it free in June?", moveInDate := "2025-06-01",
            numberOfOccupants := 2, status := .pending,
            scheduledViewing := ScheduledViewing.unset, replies := [],
            viewedByLandlord := false, viewedByTenant := false, createdAt := 100 })) :=
  ⟨(participant_only_access inquired carol 99 (some "hello") (some "cancelled") 150).1
      (by decide),
   (participant_only_access inquired carol 0 (some "hello") (some "cancelled") 150).2.1
      _ (by decide) (by decide) (by decide)⟩


/-! ## C2: one active inquiry per (property, tenant) -/

theorem countP_updateFirst {α : Type} (sel q : α → Bool) (new : α) :
    ∀ (l : List α) (old : α), l.find? sel = some old →
      (updateFirst sel (fun _ => new) l).countP q + (if q old then 1 else 0)
        = l.countP q + (if q new then 1 else 0) := by
  intro l
  induction l with
  | nil => intro old h; simp at h
  | cons a t ih =>
    intro old h
    by_cases ha : sel a = true
    · simp only [List.find?, ha, Option.some.injEq] at h
      subst h
      simp only [updateFirst, ha, if_true, List.countP_cons]
      omega
    · simp only [Bool.not_eq_true] at ha
      simp only [List.find?, ha] at h
      have := ih old h
      simp only [updateFirst, ha, List.countP_cons]
      simp only [Bool.false_eq_true, if_false, List.countP_cons]
      omega

/-- C2, as stated, fails: alice inquires about the flat, cancels that inquiry
through `updateInquiryStatus`, inquires again, and then sets the first
inquiry back to pending; the store then holds two active inquiries for the
pair (flat, alice). A reply on the cancelled inquiry, in place of the last
call, has the same effect. -/
theorem two_active_after_status_override :
    (run isoDate (Store.initial [flat])
        [.create alice request 100, .setStatus alice 0 (some "cancelled"),
         .create alice request 200, .setStatus alice 0 (some "pending")]).summary
      = [(0, 7, 1, .pending), (1, 7, 1, .pending)]
    ∧ (run isoDate (Store.initial [flat])
        [.create alice request 100, .setStatus alice 0 (some "cancelled"),
         .create alice request 200, .setStatus alice 0 (some "pending")]).activeCount 7 1 = 2
    ∧ (run isoDate (Store.initial [flat])
        [.create alice request 100, .setStatus alice 0 (some "cancelled"),
         .create alice request 200, .reply alice 0 (some "Still interested") 300]).summary
      = [(0, 7, 1, .replied), (1, 7, 1, .pending)]
    ∧ (run isoDate (Store.initial [flat])
        [.create alice request 100, .setStatus alice 0 (some "cancelled"),
         .create alice request 200, .reply alice 0 (some "Still interested") 300]).activeCount
          7 1 = 2 := by
  decide

/-! ## C11: updateInquiryStatus -/

theorem ofString_toString (st : Status) : Status.ofString st.toString = some st := by
  cases st <;> decide

theorem toString_of_ofString {text : String} {st : Status}
    (h : Status.ofString text = some st) : st.toString = text := by
  have := List.find?_some h
  simpa using this

theorem ofString_eq_none {text : String} (h : ∀ st : Status, st.toString ≠ text) :
    Status.ofString text = none := by
  cases hc : Status.ofString text with
  | none => rfl
  | some st => exact absurd (toString_of_ofString hc) (h st)

theorem updateInquiryStatus_participant (s : Store) (user : User) (id : ObjectId)
    (inquiry : Inquiry) (status : Option String)
    (hfind : s.findInquiry id = some inquiry)
    (hpart : user.id = inquiry.tenant ∨ user.id = inquiry.landlord) :
    updateInquiryStatus s user id status
      = match status.bind Status.ofString with
        | none => (.fail .invalidStatus, s)
        | some st =>
          (.ok 200 { inquiry with status := st }, s.save { inquiry with status := st }) := by
  have hauth : ¬ ((Ref.oid inquiry.tenant).toString ≠ user.idText
      ∧ (Ref.oid inquiry.landlord).toString ≠ user.idText) := by
    simp only [Ref.toString, User.idText, ne_eq, IdText.hex.injEq, not_and, not_not]
    rcases hpart with h | h
    · intro h1; exact absurd h.symm h1
    · intro _; exact h.symm
  simp [updateInquiryStatus, hfind, hauth]

/-- C11. For every stored inquiry, every participant and every requested
status: when the request names one of the six enum values,
`updateInquiryStatus` answers 200 with an inquiry that is then the stored
one and that is the old inquiry with status set to that value, whatever the
old status was; when it names no enum value (or is absent) the answer is
BadRequest and the store is as it was. It succeeds exactly in the first case. -/
theorem updateInquiryStatus_sets_status (s : Store) (user : User) (id : ObjectId)
    (inquiry : Inquiry) (status : Option String)
    (hfind : s.findInquiry id = some inquiry)
    (hpart : user.id = inquiry.tenant ∨ user.id = inquiry.landlord) :
    (∀ st : Status, status = some st.toString →
      (updateInquiryStatus s user id status).1 = .ok 200 { inquiry with status := st }
      ∧ (updateInquiryStatus s user id status).2.findInquiry id
          = some { inquiry with status := st })
    ∧ ((∀ st : Status, status ≠ some st.toString) →
      (updateInquiryStatus s user id status).1.errorKind = some .badRequest
      ∧ (updateInquiryStatus s user id status).2 = s)
    ∧ ((updateInquiryStatus s user id status).1.errorKind = none
        ↔ ∃ st ∈ validStatuses, status = some st.toString) := by
  have hrun := updateInquiryStatus_participant s user id inquiry status hfind hpart
  have hid : inquiry.id = id := findInquiry_id hfind
  refine ⟨?_, ?_, ?_⟩
  · intro st hst
    subst hst
    rw [hrun]
    simp only [Option.bind, ofString_toString]
    exact ⟨trivial, findInquiry_save hfind hid⟩
  · intro hno
    rw [hrun]
    have : status.bind Status.ofString = none := by
      cases status with
      | none => rfl
      | some text =>
        exact ofString_eq_none (fun st e => hno st (by rw [e]))
    rw [this]
    exact ⟨rfl, rfl⟩
  · rw [hrun]
    constructor
    · intro hok
      cases status with
      | none => simp [Response.errorKind] at hok
      | some text =>
        cases hc : Status.ofString text with
        | none => simp [hc, Response.errorKind] at hok
        | some st =>
          refine ⟨st, ?_, ?_⟩
          · cases st <;> decide
          · rw [toString_of_ofString hc]
    · rintro ⟨st, _, hst⟩
      subst hst
      simp [ofString_toString, Response.errorKind]

/-- Witness for C11: alice sets her scheduled inquiry back to pending. -/
theorem updateInquiryStatus_sets_status_witness :
    ((updateInquiryStatus viewingScheduled alice 0 (some "pending")).2.findInquiry 0).map
        (fun i => i.status) = some .pending
    ∧ ((updateInquiryStatus viewingScheduled alice 0 (some "pending")).1.errorKind = none
        ↔ ∃ st ∈ validStatuses, some "pending" = some st.toString) :=
  ⟨by
    rw [((updateInquiryStatus_sets_status viewingScheduled alice 0
      { id := 0, property := 7, tenant := 1, landlord := 2, message := "Is it free in June?",
        moveInDate := "2025-06-01", numberOfOccupants := 2, status := .scheduled,
        scheduledViewing :=
          { date := some "2025-06-01", time := some "10:00", notes := none,
            confirmed := false },
        replies := [], viewedByLandlord := false, viewedByTenant := false, createdAt := 100 }
      (some "pending") (by decide) (Or.inl (by decide))).1 .pending rfl).2]
    rfl,
   (updateInquiryStatus_sets_status viewingScheduled alice 0
      { id := 0, property := 7, tenant := 1, landlord := 2, message := "Is it free in June?",
        moveInDate := "2025-06-01", numberOfOccupants := 2, status := .scheduled,
        scheduledViewing :=
          { date := some "2025-06-01", time := some "10:00", notes := none,
            confirmed := false },
        replies := [], viewedByLandlord := false, viewedByTenant := false, createdAt := 100 }
      (some "pending") (by decide) (Or.inl (by decide))).2.2⟩

/-! ## C13: the refusals of createInquiry -/

/-- C13. `createInquiry` answers Forbidden whenever the role of the caller is
not tenant, whatever the body (and so does the route, through `tenantOnly`);
for a caller with role tenant it answers NotFound when the property does not
exist and Unavailable when it exists and is not available. In each case the
store is as it was: no inquiry is created and no counter changes. -/
theorem createInquiry_refusals (s : Store) (user : User) (body : CreateBody) (now : Nat) :
    (user.role ≠ .tenant →
      (createInquiry isDate s user body now).1.errorKind = some .forbidden
      ∧ (createInquiry isDate s user body now).2 = s
      ∧ (createRoute isDate s user body now).1.errorKind = some .forbidden
      ∧ (createRoute isDate s user body now).2 = s)
    ∧ (user.role = .tenant → s.findProperty body.propertyId = none →
      (createInquiry isDate s user body now).1.errorKind = some .notFound
      ∧ (createInquiry isDate s user body now).2 = s)
    ∧ (user.role = .tenant → ∀ property : Property,
        s.findProperty body.propertyId = some property → property.isAvailable = false →
      (createInquiry isDate s user body now).1.errorKind = some .unavailable
      ∧ (createInquiry isDate s user body now).2 = s) := by
  refine ⟨?_, ?_, ?_⟩
  · intro h
    simp [createInquiry, createRoute, tenantOnly, h, Response.errorKind, Rejection.kind]
  · intro h hnone
    simp [createInquiry, h, hnone, Response.errorKind, Rejection.kind]
  · intro h property hsome hav
    simp [createInquiry, h, hsome, hav, Response.errorKind, Rejection.kind]

/-- Witness for C13: bob, a landlord, tries to create an inquiry; alice asks
about a property that does not exist. -/
theorem createInquiry_refusals_witness :
    ((createInquiry isoDate inquired bob request 200).1.errorKind = some .forbidden
      ∧ (createInquiry isoDate inquired bob request 200).2 = inquired
      ∧ (createRoute isoDate inquired bob request 200).1.errorKind = some .forbidden
      ∧ (createRoute isoDate inquired bob request 200).2 = inquired)
    ∧ ((createInquiry isoDate inquired alice { request with propertyId := 5 } 200).1.errorKind
          = some .notFound
      ∧ (createInquiry isoDate inquired alice { request with propertyId := 5 } 200).2 = inquired) :=
  ⟨(createInquiry_refusals inquired bob request 200).1 (by decide),
   (createInquiry_refusals inquired alice { request with propertyId := 5 } 200).2.1
      (by decide) (by decide)⟩

/-! ## C14: a refused call changes nothing -/

theorem createInquiry_fail_store (s : Store) (user : User) (body : CreateBody) (now : Nat)
    (h : (createInquiry isDate s user body now).1.errorKind ≠ none) :
    (createInquiry isDate s user body now).2 = s := by
  unfold createInquiry at h ⊢
  repeat' split
  all_goals first | rfl | (simp_all [Response.errorKind])

theorem getInquiryById_fail_store (s : Store) (user : User) (id : ObjectId)
    (h : (getInquiryById s user id).1.errorKind ≠ none) :
    (getInquiryById s user id).2 = s := by
  unfold getInquiryById at h ⊢
  repeat' split
  all_goals first | rfl | (simp_all [Response.errorKind])

theorem replyToInquiry_fail_store (s : Store) (user : User) (id : ObjectId)
    (message : Option String) (now : Nat)
    (h : (replyToInquiry s user id message now).1.errorKind ≠ none) :
    (replyToInquiry s user id message now).2 = s := by
  unfold replyToInquiry at h ⊢
  repeat' split
  all_goals first | rfl | (simp_all [Response.errorKind])

theorem scheduleViewing_fail_store (s : Store) (user : User) (id : ObjectId)
    (date time notes : Option String)
    (h : (scheduleViewing isDate s user id date time notes).1.errorKind ≠ none) :
    (scheduleViewing isDate s user id date time notes).2 = s := by
  unfold scheduleViewing at h ⊢
  repeat' split
  all_goals first | rfl | (simp_all [Response.errorKind])

theorem confirmViewing_fail_store (s : Store) (user : User) (id : ObjectId)
    (h : (confirmViewing s user id).1.errorKind ≠ none) :
    (confirmViewing s user id).2 = s := by
  unfold confirmViewing at h ⊢
  repeat' split
  all_goals first | rfl | (simp_all [Response.errorKind])

theorem updateInquiryStatus_fail_store (s : Store) (user : User) (id : ObjectId)
    (status : Option String)
    (h : (updateInquiryStatus s user id status).1.errorKind ≠ none) :
    (updateInquiryStatus s user id status).2 = s := by
  unfold updateInquiryStatus at h ⊢
  repeat' split
  all_goals first | rfl | (simp_all [Response.errorKind])

/-- C14. For every handler, every store and every input: when the handler
answers with an error (of any kind), the store it returns is the store it
was given, so no inquiry field and no property counter has changed. -/
theorem failed_call_leaves_store (s : Store) (op : Op)
    (h : (op.apply isDate s).1.errorKind ≠ none) : (op.apply isDate s).2 = s := by
  cases op with
  | create user body now => exact createInquiry_fail_store s user body now h
  | get user id => exact getInquiryById_fail_store s user id h
  | reply user id message now => exact replyToInquiry_fail_store s user id message now h
  | schedule user id date time notes =>
    exact scheduleViewing_fail_store s user id date time notes h
  | confirm user id => exact confirmViewing_fail_store s user id h
  | setStatus user id status => exact updateInquiryStatus_fail_store s user id status h

/-- Witness for C14: the second inquiry of alice about the same flat is
refused with Conflict. -/
theorem failed_call_leaves_store_witness :
    ((Op.create alice request 200).apply isoDate inquired).1.errorKind = some .conflict
    ∧ ((Op.create alice request 200).apply isoDate inquired).2 = inquired :=
  ⟨by decide, failed_call_leaves_store inquired (Op.create alice request 200) (by decide)⟩

/-! ## C12: what a successful createInquiry stores -/

theorem updateFirst_split {α : Type} (p : α → Bool) (f : α → α) :
    ∀ (l : List α) (x : α), l.find? p = some x →
      ∃ before after : List α, l = before ++ x :: after
        ∧ (∀ y ∈ before, p y = false)
        ∧ updateFirst p f l = before ++ f x :: after := by
  intro l
  induction l with
  | nil => intro x h; simp at h
  | cons a t ih =>
    intro x h
    by_cases ha : p a = true
    · simp only [List.find?, ha, Option.some.injEq] at h
      subst h
      exact ⟨[], t, rfl, by simp, by simp [updateFirst, ha]⟩
    · simp only [Bool.not_eq_true] at ha
      simp only [List.find?, ha] at h
      obtain ⟨before, after, h1, h2, h3⟩ := ih x h
      refine ⟨a :: before, after, by simp [h1], ?_, by simp [updateFirst, ha, h3]⟩
      intro y hy
      rcases List.mem_cons.mp hy with rfl | hy
      · exact ha
      · exact h2 y hy

theorem validateNew_fields {s : Store} {user : User} {property : Property}
    {body : CreateBody} {now : Nat} {inquiry : Inquiry}
    (h : validateNew isDate s user property body now = some inquiry) :
    ∃ message moveInDate, body.message = some message ∧ body.moveInDate = some moveInDate
      ∧ inquiry =
        { id := s.nextId, property := body.propertyId, tenant := user.id,
          landlord := property.landlord, message := message, moveInDate := moveInDate,
          numberOfOccupants := body.numberOfOccupants.getD 1, status := .pending,
          scheduledViewing := ScheduledViewing.unset, replies := [],
          viewedByLandlord := false, viewedByTenant := false, createdAt := now } := by
  unfold validateNew at h
  split at h
  · rename_i message moveInDate hm hd
    split at h
    · simp only [Option.some.injEq] at h
      exact ⟨message, moveInDate, hm, hd, h.symm⟩
    · cases h
  · cases h

theorem createInquiry_ok {s : Store} {user : User} {body : CreateBody} {now : Nat}
    {code : Nat} {inquiry : Inquiry}
    (h : (createInquiry isDate s user body now).1 = .ok code inquiry) :
    code = 201 ∧ user.role = .tenant
      ∧ s.findExisting body.propertyId user.id = none
      ∧ ∃ property, s.findProperty body.propertyId = some property
        ∧ property.isAvailable = true
        ∧ validateNew isDate s user property body now = some inquiry
        ∧ (createInquiry isDate s user body now).2
            = (s.insert inquiry).incInquiries body.propertyId := by
  by_cases hrole : user.role = .tenant
  · rcases Option.eq_none_or_eq_some (s.findProperty body.propertyId) with hp | ⟨property, hp⟩
    · simp [createInquiry, hrole, hp] at h
    · rcases Bool.eq_false_or_eq_true property.isAvailable with hav | hav
      · rcases Option.eq_none_or_eq_some (s.findExisting body.propertyId user.id)
          with hex | ⟨other, hex⟩
        · rcases Option.eq_none_or_eq_some (validateNew isDate s user property body now)
            with hv | ⟨created, hv⟩
          · simp [createInquiry, hrole, hp, hav, hex, hv] at h
          · have hfull : createInquiry isDate s user body now
                = (.ok 201 created, (s.insert created).incInquiries body.propertyId) := by
              simp [createInquiry, hrole, hp, hav, hex, hv]
            rw [hfull] at h ⊢
            simp only [Response.ok.injEq] at h
            obtain ⟨h1, h2⟩ := h
            subst h1 h2
            exact ⟨rfl, hrole, hex, property, hp, hav, hv, rfl⟩
        · simp [createInquiry, hrole, hp, hav, hex] at h
      · simp [createInquiry, hrole, hp, hav] at h
  · simp [createInquiry, hrole] at h

/-- C12. When `createInquiry` answers with an inquiry, the status code is 201
and the inquiry has status pending, the caller as tenant, the requested
property, the owner of that property as landlord, message and moveInDate as
sent, numberOfOccupants as sent or 1 when absent, no replies, no viewing
(no date, no time, no notes, confirmed false) and both viewed flags false.
The inquiries of the store afterwards are the old ones followed by that new
inquiry, and its properties are the old ones with the counter of the
requested property, and of no other, raised by 1. -/
theorem createInquiry_stores_one (s : Store) (user : User) (body : CreateBody) (now : Nat)
    (code : Nat) (inquiry : Inquiry)
    (h : (createInquiry isDate s user body now).1 = .ok code inquiry) :
    code = 201
    ∧ ∃ (property : Property) (before after : List Property),
      s.findProperty body.propertyId = some property
      ∧ inquiry.status = .pending
      ∧ inquiry.tenant = user.id
      ∧ inquiry.property = body.propertyId
      ∧ inquiry.landlord = property.landlord
      ∧ body.message = some inquiry.message
      ∧ body.moveInDate = some inquiry.moveInDate
      ∧ inquiry.numberOfOccupants = body.numberOfOccupants.getD 1
      ∧ inquiry.replies = []
      ∧ inquiry.scheduledViewing
          = { date := none, time := none, notes := none, confirmed := false }
      ∧ inquiry.viewedByLandlord = false
      ∧ inquiry.viewedByTenant = false
      ∧ (createInquiry isDate s user body now).2.inquiries = s.inquiries ++ [inquiry]
      ∧ s.properties = before ++ property :: after
      ∧ (∀ q ∈ before, q.id ≠ body.propertyId)
      ∧ (createInquiry isDate s user body now).2.properties
          = before ++ { property with inquiries := property.inquiries + 1 } :: after := by
  obtain ⟨hcode, _, _, property, hp, _, hv, hstore⟩ := createInquiry_ok h
  obtain ⟨message, moveInDate, hm, hd, hinq⟩ := validateNew_fields hv
  have hp0 : s.properties.find? (fun q => q.id == body.propertyId) = some property := hp
  obtain ⟨before, after, h1, h2, h3⟩ :=
    updateFirst_split (fun q : Property => q.id == body.propertyId)
      (fun q => { q with inquiries := q.inquiries + 1 }) s.properties property hp0
  refine ⟨hcode, property, before, after, hp, ?_, ?_, ?_, ?_, ?_, ?_, ?_, ?_, ?_, ?_, ?_,
    ?_, h1, ?_, ?_⟩
  all_goals try (subst hinq; first | rfl | assumption)
  · rw [hstore]; rfl
  · intro q hq; simpa using h2 q hq
  · rw [hstore]; exact h3

/-- Witness for C12: the first inquiry of alice about the flat. -/
theorem createInquiry_stores_one_witness :
    ∃ (property : Property) (before after : List Property),
      (Store.initial [flat]).findProperty 7 = some property
      ∧ (inquired.inquiries.map (fun i => (i.status, i.tenant, i.property, i.landlord)))
          = [(.pending, 1, 7, property.landlord)]
      ∧ (Store.initial [flat]).properties = before ++ property :: after
      ∧ inquired.properties
          = before ++ { property with inquiries := property.inquiries + 1 } :: after := by
  obtain ⟨_, property, before, after, h1, h2, h3, h4, h5, _, _, _, _, _, _, _, h13, h14, _, h16⟩ :=
    @createInquiry_stores_one isoDate (Store.initial [flat]) alice request 100 201
      { id := 0, property := 7, tenant := 1, landlord := 2, message := "Is it free in June?",
        moveInDate := "2025-06-01", numberOfOccupants := 2, status := .pending,
        scheduledViewing := ScheduledViewing.unset, replies := [],
        viewedByLandlord := false, viewedByTenant := false, createdAt := 100 }
      (by decide)
  refine ⟨property, before, after, h1, ?_, h14, h16⟩
  have : inquired.inquiries = (createInquiry isoDate (Store.initial [flat]) alice request 100).2.inquiries :=
    rfl
  rw [this, h13, ← h5]
  rfl

/-! ## What one call does to the store -/

theorem findInquiry_save_other {s : Store} {id : ObjectId} {next : Inquiry}
    (hne : next.id ≠ id) : (s.save next).findInquiry id = s.findInquiry id := by
  unfold Store.findInquiry Store.save
  simp only
  induction s.inquiries with
  | nil => rfl
  | cons a t ih =>
    by_cases ha : a.id = next.id
    · have h1 : (a.id == id) = false := by simp [ha, hne]
      have h2 : (next.id == id) = false := by simp [hne]
      simp [updateFirst, ha, List.find?, h1, h2]
    · have h1 : (a.id == next.id) = false := by simp [ha]
      simp only [updateFirst, h1, Bool.false_eq_true, if_false, List.find?]
      rw [ih]

theorem findInquiry_insert {s : Store} {id pid : ObjectId} {inquiry created : Inquiry}
    (h : s.findInquiry id = some inquiry) :
    ((s.insert created).incInquiries pid).findInquiry id = some inquiry := by
  have h0 : s.inquiries.find? (fun i => i.id == id) = some inquiry := h
  simp [Store.findInquiry, Store.insert, Store.incInquiries, List.find?_append, h0]

theorem mem_updateFirst {α : Type} (p : α → Bool) (f : α → α) :
    ∀ (l : List α) (y : α), y ∈ updateFirst p f l → y ∈ l ∨ ∃ x ∈ l, y = f x := by
  intro l
  induction l with
  | nil => intro y h; simp [updateFirst] at h
  | cons a t ih =>
    intro y h
    by_cases ha : p a = true
    · simp only [updateFirst, ha, if_true, List.mem_cons] at h
      rcases h with h | h
      · exact Or.inr ⟨a, List.mem_cons_self _ _, h⟩
      · exact Or.inl (List.mem_cons_of_mem _ h)
    · simp only [Bool.not_eq_true] at ha
      simp only [updateFirst, ha, Bool.false_eq_true, if_false, List.mem_cons] at h
      rcases h with h | h
      · exact Or.inl (by simp [h])
      · rcases ih y h with h' | ⟨x, hx, hy⟩
        · exact Or.inl (List.mem_cons_of_mem _ h')
        · exact Or.inr ⟨x, List.mem_cons_of_mem _ hx, hy⟩

/-- The three things a call can do to the store: nothing; insert the inquiry
`createInquiry` built and raise one counter; or write back one stored
inquiry with its four references kept and its replies kept or, for a reply,
extended by one entry. -/
theorem apply_cases (s : Store) (op : Op) :
    (op.apply isDate s).2 = s
    ∨ (∃ (user : User) (body : CreateBody) (now : Nat) (property : Property)
        (created : Inquiry),
        op = .create user body now
        ∧ s.findProperty body.propertyId = some property
        ∧ created.tenant = user.id ∧ created.landlord = property.landlord
        ∧ (op.apply isDate s).2 = (s.insert created).incInquiries body.propertyId)
    ∨ (∃ (id : ObjectId) (old next : Inquiry),
        s.findInquiry id = some old
        ∧ op.target = some id
        ∧ (op.apply isDate s).2 = s.save next
        ∧ (op.apply isDate s).1.errorKind = none
        ∧ next.id = old.id ∧ next.property = old.property
        ∧ next.tenant = old.tenant ∧ next.landlord = old.landlord
        ∧ (next.replies = old.replies
            ∨ ∃ (user : User) (text : String) (now : Nat),
                op = .reply user id (some text) now
                ∧ next.replies = old.replies ++
                    [{ sender := user.id, message := text, read := false,
                       createdAt := now }])) := by
  cases op with
  | create user body now =>
    simp only [Op.apply]
    cases hr : (createInquiry isDate s user body now).1 with
    | fail r =>
      left
      exact createInquiry_fail_store s user body now (by simp [hr, Response.errorKind])
    | ok code created =>
      right; left
      obtain ⟨_, _, _, property, hp, _, hv, hstore⟩ := createInquiry_ok hr
      obtain ⟨message, moveInDate, _, _, hinq⟩ := validateNew_fields hv
      refine ⟨user, body, now, property, created, rfl, hp, ?_, ?_, hstore⟩
      · rw [hinq]
      · rw [hinq]
  | get user id =>
    left
    simp only [Op.apply]
    exact (getInquiryById_rejects_all s user id).2
  | reply user id message now =>
    simp only [Op.apply]
    cases hr : (replyToInquiry s user id message now).1 with
    | fail r =>
      left
      exact replyToInquiry_fail_store s user id message now (by simp [hr, Response.errorKind])
    | ok code answered =>
      right; right
      unfold replyToInquiry at hr ⊢
      split at hr
      · cases hr
      · rename_i text
        split at hr
        · cases hr
        · rename_i htext
          split at hr
          · cases hr
          · rename_i old hfind
            split at hr
            · cases hr
            · rename_i hauth
              refine ⟨id, old, applyReply old user text now, hfind, rfl, ?_, ?_, ?_, ?_, ?_, ?_,
                ?_⟩
              · simp [htext, hfind, hauth]
              · simp [htext, hfind, hauth, Response.errorKind]
              · exact applyReply_id old user text now
              · unfold applyReply; split <;> rfl
              · unfold applyReply; split <;> rfl
              · unfold applyReply; split <;> rfl
              · right
                refine ⟨user, text, now, rfl, ?_⟩
                unfold applyReply; split <;> rfl
  | schedule user id date time notes =>
    simp only [Op.apply]
    cases hr : (scheduleViewing isDate s user id date time notes).1 with
    | fail r =>
      left
      exact scheduleViewing_fail_store s user id date time notes
        (by simp [hr, Response.errorKind])
    | ok code answered =>
      right; right
      unfold scheduleViewing at hr ⊢
      split at hr
      · cases hr
      · rename_i hrole
        split at hr
        · cases hr
        · rename_i hdate
          split at hr
          · cases hr
          · rename_i old hfind
            split at hr
            · cases hr
            · rename_i hauth
              split at hr
              · cases hr
              · rename_i hcast
                refine ⟨id, old,
                  { old with
                    scheduledViewing :=
                      { date := date, time := time, notes := notes, confirmed := false }
                    status := .scheduled },
                  hfind, rfl, ?_, ?_, rfl, rfl, rfl, rfl, Or.inl rfl⟩
                · simp [hrole, hdate, hfind, hauth, hcast]
                · simp [hrole, hdate, hfind, hauth, hcast, Response.errorKind]
  | confirm user id =>
    simp only [Op.apply]
    cases hr : (confirmViewing s user id).1 with
    | fail r =>
      left
      exact confirmViewing_fail_store s user id (by simp [hr, Response.errorKind])
    | ok code answered =>
      right; right
      unfold confirmViewing at hr ⊢
      split at hr
      · cases hr
      · rename_i hrole
        split at hr
        · cases hr
        · rename_i old hfind
          split at hr
          · cases hr
          · rename_i hauth
            split at hr
            · cases hr
            · rename_i htruthy
              refine ⟨id, old,
                { old with
                  scheduledViewing := { old.scheduledViewing with confirmed := true }
                  status := .scheduled },
                hfind, rfl, ?_, ?_, rfl, rfl, rfl, rfl, Or.inl rfl⟩
              · simp [hrole, hfind, hauth, htruthy]
              · simp [hrole, hfind, hauth, htruthy, Response.errorKind]
  | setStatus user id status =>
    simp only [Op.apply]
    cases hr : (updateInquiryStatus s user id status).1 with
    | fail r =>
      left
      exact updateInquiryStatus_fail_store s user id status
        (by simp [hr, Response.errorKind])
    | ok code answered =>
      right; right
      unfold updateInquiryStatus at hr ⊢
      split at hr
      · cases hr
      · rename_i old hfind
        split at hr
        · cases hr
        · rename_i hauth
          split at hr
          · cases hr
          · rename_i st hst
            refine ⟨id, old, { old with status := st }, hfind, rfl, ?_, ?_, rfl, rfl, rfl, rfl,
              Or.inl rfl⟩
            · simp [hfind, hauth, hst]
            · simp [hfind, hauth, hst, Response.errorKind]

/-- After any call, an inquiry that was stored under `id` is still stored
under `id`, with the same four references, and with the same replies unless
the call was a reply to `id` that succeeded, which adds one entry at the end. -/
theorem apply_findInquiry (s : Store) (op : Op) (id : ObjectId) (inquiry : Inquiry)
    (hfind : s.findInquiry id = some inquiry) :
    ∃ next : Inquiry,
      (op.apply isDate s).2.findInquiry id = some next
      ∧ next.id = inquiry.id ∧ next.property = inquiry.property
      ∧ next.tenant = inquiry.tenant ∧ next.landlord = inquiry.landlord
      ∧ (next.replies = inquiry.replies
          ∨ ∃ (user : User) (text : String) (now : Nat),
              op = .reply user id (some text) now
              ∧ (op.apply isDate s).1.errorKind = none
              ∧ next.replies = inquiry.replies ++
                  [{ sender := user.id, message := text, read := false, createdAt := now }]) := by
  rcases apply_cases s op with h | ⟨_, body, _, _, created, _, _, _, _, h⟩
    | ⟨id2, old, next, hold, _, h, hok, h1, h2, h3, h4, h5⟩
  · exact ⟨inquiry, by rw [h]; exact hfind, rfl, rfl, rfl, rfl, Or.inl rfl⟩
  · exact ⟨inquiry, by rw [h]; exact findInquiry_insert hfind, rfl, rfl, rfl, rfl, Or.inl rfl⟩
  · have hid2 : old.id = id2 := findInquiry_id hold
    by_cases hsame : id2 = id
    · subst hsame
      have hio : old = inquiry := by
        rw [hfind] at hold
        exact (Option.some.inj hold).symm
      subst hio
      refine ⟨next, by rw [h]; exact findInquiry_save hfind (h1.trans hid2), h1, h2, h3, h4, ?_⟩
      rcases h5 with h5 | ⟨user, text, now, hop, h5⟩
      · exact Or.inl h5
      · exact Or.inr ⟨user, text, now, hop, hok, h5⟩
    · refine ⟨inquiry, ?_, rfl, rfl, rfl, rfl, Or.inl rfl⟩
      rw [h, findInquiry_save_other (by rw [h1, hid2]; exact hsame)]
      exact hfind

/-! ## C15: replies only grow -/

/-- C15. For every call of a handler, with any caller and input, and every
inquiry stored before the call: the inquiry is still stored after the call
and its replies are the replies before the call followed by a list `added`,
so nothing is removed, reordered or altered. `added` is empty unless the call
is a `replyToInquiry` on that inquiry that succeeds, and then it is the one
new entry. -/
theorem replies_append_only (s : Store) (op : Op) (id : ObjectId) (inquiry : Inquiry)
    (hfind : s.findInquiry id = some inquiry) :
    ∃ (next : Inquiry) (added : List Reply),
      (op.apply isDate s).2.findInquiry id = some next
      ∧ next.replies = inquiry.replies ++ added
      ∧ (added = []
          ∨ ∃ (user : User) (text : String) (now : Nat),
              op = .reply user id (some text) now
              ∧ (op.apply isDate s).1.errorKind = none
              ∧ added = [{ sender := user.id, message := text, read := false,
                           createdAt := now }]) := by
  obtain ⟨next, h1, _, _, _, _, h6⟩ := apply_findInquiry s op id inquiry hfind
  rcases h6 with h6 | ⟨user, text, now, hop, hok, h6⟩
  · exact ⟨next, [], h1, by simp [h6], Or.inl rfl⟩
  · exact ⟨next, _, h1, h6, Or.inr ⟨user, text, now, hop, hok, rfl⟩⟩

/-- Witness for C15: a reply by bob on the inquiry of alice. -/
theorem replies_append_only_witness :
    ∃ (next : Inquiry) (added : List Reply),
      ((Op.reply bob 0 (some "available June 1") 150).apply isoDate inquired).2.findInquiry 0
        = some next
      ∧ next.replies = [] ++ added
      ∧ (added = []
          ∨ ∃ (user : User) (text : String) (now : Nat),
              Op.reply bob 0 (some "available June 1") 150 = .reply user 0 (some text) now
              ∧ ((Op.reply bob 0 (some "available June 1") 150).apply isoDate inquired).1.errorKind
                  = none
              ∧ added = [{ sender := user.id, message := text, read := false,
                           createdAt := now }]) :=
  replies_append_only inquired (Op.reply bob 0 (some "available June 1") 150) 0
    { id := 0, property := 7, tenant := 1, landlord := 2, message := "Is it free in June?",
      moveInDate := "2025-06-01", numberOfOccupants := 2, status := .pending,
      scheduledViewing := ScheduledViewing.unset, replies := [],
      viewedByLandlord := false, viewedByTenant := false, createdAt := 100 }
    (by decide)

/-! ## C16: the references of an inquiry never change -/

/-- C16. For every call of a handler (the five that act on a stored inquiry,
and `createInquiry` as well), with any caller and input, and every inquiry
stored before the call: the inquiry stored under the same id after the call
has the same id, property, tenant and landlord. -/
theorem references_immutable (s : Store) (op : Op) (id : ObjectId) (inquiry : Inquiry)
    (hfind : s.findInquiry id = some inquiry) :
    ∃ next : Inquiry,
      (op.apply isDate s).2.findInquiry id = some next
      ∧ next.id = inquiry.id
      ∧ next.property = inquiry.property
      ∧ next.tenant = inquiry.tenant
      ∧ next.landlord = inquiry.landlord := by
  obtain ⟨next, h1, h2, h3, h4, h5, _⟩ := apply_findInquiry s op id inquiry hfind
  exact ⟨next, h1, h2, h3, h4, h5⟩

/-- Witness for C16: alice overrides the status of her scheduled inquiry. -/
theorem references_immutable_witness :
    ∃ next : Inquiry,
      ((Op.setStatus alice 0 (some "cancelled")).apply isoDate viewingScheduled).2.findInquiry 0
        = some next
      ∧ next.id = 0 ∧ next.property = 7 ∧ next.tenant = 1 ∧ next.landlord = 2 :=
  references_immutable viewingScheduled (Op.setStatus alice 0 (some "cancelled")) 0
    { id := 0, property := 7, tenant := 1, landlord := 2, message := "Is it free in June?",
      moveInDate := "2025-06-01", numberOfOccupants := 2, status := .scheduled,
      scheduledViewing :=
        { date := some "2025-06-01", time := some "10:00", notes := none, confirmed := false },
      replies := [], viewedByLandlord := false, viewedByTenant := false, createdAt := 100 }
    (by decide)

/-! ## C17: tenant and landlord of an inquiry -/

/-- C17, as stated, fails: `createInquiry` does not compare the caller with
the owner of the property. The owner field of `ownFlat` names alice; her
inquiry about it is accepted and stored with alice as tenant and as landlord. -/
theorem createInquiry_by_owner :
    (Store.initial [ownFlat]).findProperty 9 = some ownFlat
    ∧ ownFlat.landlord = alice.id
    ∧ (createInquiry isoDate (Store.initial [ownFlat]) alice { request with propertyId := 9 }
        100).1.errorKind = none
    ∧ (run isoDate (Store.initial [ownFlat])
        [.create alice { request with propertyId := 9 } 100]).inquiries.map
          (fun i => (i.tenant, i.landlord)) = [(1, 1)] := by
  decide

theorem everyStep_run (ok : Store → Op → Bool) (P : Store → Prop)
    (hstep : ∀ (s : Store) (op : Op), P s → ok s op = true → P (op.apply isDate s).2) :
    ∀ (ops : List Op) (s : Store), P s → everyStep ok isDate s ops = true →
      P (run isDate s ops) := by
  intro ops
  induction ops with
  | nil => intro s h _; exact h
  | cons op rest ih =>
    intro s h hall
    simp only [everyStep, Bool.and_eq_true] at hall
    exact ih (op.apply isDate s).2 (hstep s op h hall.1) hall.2

theorem tenant_ne_landlord_step (s : Store) (op : Op)
    (hinv : ∀ i ∈ s.inquiries, i.tenant ≠ i.landlord)
    (hop : (!op.createsForOwnProperty isDate s) = true) :
    ∀ i ∈ (op.apply isDate s).2.inquiries, i.tenant ≠ i.landlord := by
  rcases @apply_cases isDate s op with h | ⟨user, body, now, property, created, hc, hp, ht, hl, h⟩
    | ⟨id2, old, next, hold, _, h, _, _, _, h3, h4, _⟩
  · rw [h]; exact hinv
  · subst hc
    intro i hi
    rw [h] at hi
    simp only [Store.incInquiries, Store.insert, List.mem_append, List.mem_singleton] at hi
    rcases hi with hi | rfl
    · exact hinv i hi
    · rw [ht, hl]
      intro e
      have hok : (createInquiry isDate s user body now).1.errorKind = none := by
        cases hr : (createInquiry isDate s user body now).1 with
        | ok code made => rfl
        | fail r =>
          have hsame := @createInquiry_fail_store isDate s user body now
            (by simp [hr, Response.errorKind])
          have hlen := congrArg (fun st : Store => st.inquiries.length) h
          simp only [Op.apply] at hlen
          rw [hsame] at hlen
          simp [Store.incInquiries, Store.insert] at hlen
      simp [Op.createsForOwnProperty, Op.apply, hok, hp, e] at hop
  · rw [h]
    intro i hi
    simp only [Store.save] at hi
    rcases mem_updateFirst _ _ _ _ hi with h1 | ⟨x, _, rfl⟩
    · exact hinv i h1
    · rw [h3, h4]
      exact hinv old (findInquiry_mem hold)

/-- C17, amended. In every store reached from a store without inquiries by
calls of the handlers, every inquiry has a tenant different from its
landlord, provided no `createInquiry` call is accepted for a property whose
owner is the caller. -/
theorem tenant_ne_landlord (properties : List Property) (ops : List Op)
    (hops : everyStep (fun s op => !op.createsForOwnProperty isDate s) isDate
      (Store.initial properties) ops = true) :
    ∀ i ∈ (run isDate (Store.initial properties) ops).inquiries, i.tenant ≠ i.landlord :=
  everyStep_run (fun s op => !op.createsForOwnProperty isDate s)
    (fun s => ∀ i ∈ s.inquiries, i.tenant ≠ i.landlord)
    (fun s op hinv hop => tenant_ne_landlord_step s op hinv hop)
    ops (Store.initial properties) (by intro i hi; simp [Store.initial] at hi) hops

/-- Witness for C17, amended: bob, who owns the flat, is refused when he tries
to inquire about it; alice inquires, bob replies and schedules a viewing. -/
theorem tenant_ne_landlord_witness :
    everyStep (fun s op => !op.createsForOwnProperty isoDate s) isoDate
      (Store.initial [flat])
      [Op.create bob request 50, Op.create alice request 100,
        Op.reply bob 0 (some "available June 1") 150,
        Op.schedule bob 0 (some "2025-06-01") (some "10:00") none] = true
    ∧ ∀ i ∈ (run isoDate (Store.initial [flat])
        [Op.create bob request 50, Op.create alice request 100,
          Op.reply bob 0 (some "available June 1") 150,
          Op.schedule bob 0 (some "2025-06-01") (some "10:00") none]).inquiries,
        i.tenant ≠ i.landlord :=
  ⟨by decide,
   tenant_ne_landlord [flat]
    [Op.create bob request 50, Op.create alice request 100,
      Op.reply bob 0 (some "available June 1") 150,
      Op.schedule bob 0 (some "2025-06-01") (some "10:00") none] (by decide)⟩

/-! ## C4: the viewed flag a reply resets -/

theorem viewed_flags_step (s : Store) (op : Op)
    (hinv : ∀ i ∈ s.inquiries, i.viewedByLandlord = false ∧ i.viewedByTenant = false) :
    ∀ i ∈ (op.apply isDate s).2.inquiries,
      i.viewedByLandlord = false ∧ i.viewedByTenant = false := by
  have hsave : ∀ next : Inquiry,
      next.viewedByLandlord = false ∧ next.viewedByTenant = false →
      ∀ i ∈ (s.save next).inquiries,
        i.viewedByLandlord = false ∧ i.viewedByTenant = false := by
    intro next hnext i hi
    simp only [Store.save] at hi
    rcases mem_updateFirst _ _ _ _ hi with h1 | ⟨x, _, rfl⟩
    · exact hinv i h1
    · exact hnext
  cases op with
  | create user body now =>
    simp only [Op.apply]
    cases hr : (createInquiry isDate s user body now).1 with
    | fail r =>
      rw [@createInquiry_fail_store isDate s user body now (by simp [hr, Response.errorKind])]
      exact hinv
    | ok code created =>
      obtain ⟨_, _, _, property, _, _, hv, hstore⟩ := createInquiry_ok hr
      obtain ⟨message, moveInDate, _, _, hinq⟩ := validateNew_fields hv
      rw [hstore]
      intro i hi
      simp only [Store.incInquiries, Store.insert, List.mem_append, List.mem_singleton] at hi
      rcases hi with hi | rfl
      · exact hinv i hi
      · rw [hinq]; exact ⟨rfl, rfl⟩
  | get user id =>
    simp only [Op.apply]
    rw [(getInquiryById_rejects_all s user id).2]
    exact hinv
  | reply user id message now =>
    simp only [Op.apply]
    unfold replyToInquiry
    split
    · exact hinv
    · split
      · exact hinv
      · split
        · exact hinv
        · rename_i old hfind
          have hold := hinv old (findInquiry_mem hfind)
          split
          · exact hinv
          · apply hsave
            unfold applyReply
            split
            · exact ⟨hold.1, rfl⟩
            · exact ⟨rfl, hold.2⟩
  | schedule user id date time notes =>
    simp only [Op.apply]
    unfold scheduleViewing
    split
    · exact hinv
    · split
      · exact hinv
      · split
        · exact hinv
        · rename_i old hfind
          have hold := hinv old (findInquiry_mem hfind)
          split
          · exact hinv
          · split
            · exact hinv
            · exact hsave _ hold
  | confirm user id =>
    simp only [Op.apply]
    unfold confirmViewing
    split
    · exact hinv
    · split
      · exact hinv
      · rename_i old hfind
        have hold := hinv old (findInquiry_mem hfind)
        split
        · exact hinv
        · split
          · exact hinv
          · exact hsave _ hold
  | setStatus user id status =>
    simp only [Op.apply]
    unfold updateInquiryStatus
    split
    · exact hinv
    · rename_i old hfind
      have hold := hinv old (findInquiry_mem hfind)
      split
      · exact hinv
      · split
        · exact hinv
        · exact hsave _ hold

/-- No sequence of calls leaves a viewed flag true: `createInquiry` stores
both flags false, `getInquiryById` never writes, and no other handler sets a
flag to true. -/
theorem viewed_flags_run (ops : List Op) :
    ∀ s : Store,
      (∀ i ∈ s.inquiries, i.viewedByLandlord = false ∧ i.viewedByTenant = false) →
      ∀ i ∈ (run isDate s ops).inquiries,
        i.viewedByLandlord = false ∧ i.viewedByTenant = false := by
  induction ops with
  | nil => intro s h; exact h
  | cons op rest ih =>
    intro s h
    exact ih (op.apply isDate s).2 (viewed_flags_step s op h)

/-- C4. A reply with a non-empty message by a participant of a stored inquiry
answers 200 with the inquiry it stores, in which exactly the flag of the
other party is reset: when the caller is the landlord of record,
viewedByTenant is false afterwards and viewedByLandlord is as before; when
the caller is the tenant of record, viewedByLandlord is false afterwards and
viewedByTenant is as before. This holds in every store reached from a store
without inquiries by calls of the six handlers (any callers, any inputs),
and in any store at all when the role of the caller is the one of its party
(role landlord for the landlord of record, another role for the tenant of
record). -/
theorem replyToInquiry_resets_other_party (s : Store) (user : User) (id : ObjectId)
    (inquiry : Inquiry) (text : String) (now : Nat)
    (hfind : s.findInquiry id = some inquiry)
    (hpart : user.id = inquiry.tenant ∨ user.id = inquiry.landlord)
    (htext : text ≠ "") :
    ∃ next : Inquiry,
      (replyToInquiry s user id (some text) now).1 = .ok 200 next
      ∧ (replyToInquiry s user id (some text) now).2.findInquiry id = some next
      ∧ (user.id = inquiry.landlord →
          (user.role = .landlord
            ∨ ∃ (properties : List Property) (ops : List Op),
                s = run isDate (Store.initial properties) ops) →
          next.viewedByTenant = false ∧ next.viewedByLandlord = inquiry.viewedByLandlord)
      ∧ (user.id = inquiry.tenant →
          (user.role ≠ .landlord
            ∨ ∃ (properties : List Property) (ops : List Op),
                s = run isDate (Store.initial properties) ops) →
          next.viewedByLandlord = false ∧ next.viewedByTenant = inquiry.viewedByTenant) := by
  have hflags : (∃ (properties : List Property) (ops : List Op),
      s = run isDate (Store.initial properties) ops) →
      inquiry.viewedByLandlord = false ∧ inquiry.viewedByTenant = false := by
    rintro ⟨properties, ops, rfl⟩
    exact viewed_flags_run ops (Store.initial properties)
      (by intro i hi; simp [Store.initial] at hi) inquiry (findInquiry_mem hfind)
  refine ⟨applyReply inquiry user text now, ?_, ?_, ?_, ?_⟩
  · rw [replyToInquiry_participant s user id inquiry text now hfind hpart htext]
  · rw [replyToInquiry_participant s user id inquiry text now hfind hpart htext]
    exact findInquiry_save hfind
      ((applyReply_id inquiry user text now).trans (findInquiry_id hfind))
  · intro _ h
    rcases h with hrole | hreach
    · simp [applyReply, hrole]
    · obtain ⟨hl, ht⟩ := hflags hreach
      unfold applyReply
      split
      · exact ⟨rfl, rfl⟩
      · exact ⟨ht, hl.symm⟩
  · intro _ h
    rcases h with hrole | hreach
    · simp [applyReply, hrole]
    · obtain ⟨hl, ht⟩ := hflags hreach
      unfold applyReply
      split
      · exact ⟨hl, ht.symm⟩
      · exact ⟨rfl, rfl⟩

/-- Witness for C4: in the store where alice has inquired about the flat of
bob, each of them replies; after dave, an account with role tenant, has been
made owner of a flat alice inquires about, dave replies as its landlord of
record. -/
theorem replyToInquiry_resets_other_party_witness :
    (∃ next : Inquiry,
      (replyToInquiry inquired bob 0 (some "available June 1") 150).1 = .ok 200 next
      ∧ (replyToInquiry inquired bob 0 (some "available June 1") 150).2.findInquiry 0
          = some next
      ∧ (bob.id = 2 →
          (bob.role = .landlord
            ∨ ∃ (properties : List Property) (ops : List Op),
                inquired = run isoDate (Store.initial properties) ops) →
          next.viewedByTenant = false ∧ next.viewedByLandlord = false)
      ∧ (bob.id = 1 →
          (bob.role ≠ .landlord
            ∨ ∃ (properties : List Property) (ops : List Op),
                inquired = run isoDate (Store.initial properties) ops) →
          next.viewedByLandlord = false ∧ next.viewedByTenant = false))
    ∧ (∃ next : Inquiry,
      (replyToInquiry
        (run isoDate (Store.initial [{ flat with landlord := 4 }])
          [.create alice request 100]) dave 0 (some "yes") 150).1 = .ok 200 next
      ∧ next.viewedByTenant = false ∧ next.viewedByLandlord = false) :=
  ⟨replyToInquiry_resets_other_party inquired bob 0
    { id := 0, property := 7, tenant := 1, landlord := 2, message := "Is it free in June?",
      moveInDate := "2025-06-01", numberOfOccupants := 2, status := .pending,
      scheduledViewing := ScheduledViewing.unset, replies := [],
      viewedByLandlord := false, viewedByTenant := false, createdAt := 100 }
    "available June 1" 150 (by decide) (Or.inr (by decide)) (by decide),
   by
    obtain ⟨next, h1, _, h3, _⟩ := @replyToInquiry_resets_other_party isoDate
      (run isoDate (Store.initial [{ flat with landlord := 4 }]) [.create alice request 100])
      dave 0
      { id := 0, property := 7, tenant := 1, landlord := 4, message := "Is it free in June?",
        moveInDate := "2025-06-01", numberOfOccupants := 2, status := .pending,
        scheduledViewing := ScheduledViewing.unset, replies := [],
        viewedByLandlord := false, viewedByTenant := false, createdAt := 100 }
      "yes" 150 (by decide) (Or.inr (by decide)) (by decide)
    exact ⟨next, h1, h3 (by decide) (Or.inr ⟨_, _, rfl⟩)⟩⟩

/-! ## C2, amended: one active inquiry per (property, tenant) -/

theorem activeCount_eq (s : Store) (p t : ObjectId) :
    s.activeCount p t = s.inquiries.countP (fun i =>
      i.property == p && i.tenant == t && i.status.isActive) := by
  simp [Store.activeCount, List.countP_eq_length_filter]

theorem activeCount_save_le (s : Store) (id : ObjectId) (old next : Inquiry) (p t : ObjectId)
    (hfind : s.findInquiry id = some old) (hid : next.id = id)
    (hq : (next.property == p && next.tenant == t && next.status.isActive) = true →
          (old.property == p && old.tenant == t && old.status.isActive) = true) :
    (s.save next).activeCount p t ≤ s.activeCount p t := by
  rw [activeCount_eq, activeCount_eq]
  have h0 : s.inquiries.find? (fun i => i.id == id) = some old := hfind
  have h := countP_updateFirst (fun i => i.id == id)
    (fun i => i.property == p && i.tenant == t && i.status.isActive)
    next s.inquiries old h0
  simp only [Store.save, hid]
  by_cases hn : (next.property == p && next.tenant == t && next.status.isActive) = true
  · have ho := hq hn
    simp only [hn, ho, if_true] at h
    omega
  · simp only [hn] at h
    simp only [Bool.false_eq_true, if_false] at h
    omega

theorem activeCount_zero_of_create (s : Store) (user : User) (body : CreateBody)
    (hnone : s.findExisting body.propertyId user.id = none)
    (hsched : s.inquiries.any (fun i =>
      i.property == body.propertyId && i.tenant == user.id && i.status == .scheduled)
        = false) :
    s.activeCount body.propertyId user.id = 0 := by
  unfold Store.findExisting at hnone
  rw [List.find?_eq_none] at hnone
  rw [List.any_eq_false] at hsched
  rw [activeCount_eq, List.countP_eq_zero]
  intro i hi
  have h1 := hnone i hi
  have h2 := hsched i hi
  intro hq
  simp only [Bool.and_eq_true, beq_iff_eq] at hq
  obtain ⟨⟨hp, ht⟩, hact⟩ := hq
  cases hst : i.status <;>
    simp [hp, ht, hst, duplicateCheckStatuses, Status.isActive] at h1 h2 hact

theorem activeCount_step (s : Store) (op : Op)
    (hinv : ∀ p t : ObjectId, s.activeCount p t ≤ 1)
    (hop : (!op.reactivates isDate s && !op.createsBesideScheduled isDate s) = true) :
    ∀ p t : ObjectId, (op.apply isDate s).2.activeCount p t ≤ 1 := by
  simp only [Bool.and_eq_true, Bool.not_eq_true', Bool.not_eq_eq_eq_not, Bool.not_true] at hop
  obtain ⟨hre, hslip⟩ := hop
  intro p t
  rcases @apply_cases isDate s op with h
    | ⟨user, body, now, property, created, hc, hp, ht, hl, h⟩
    | ⟨id, old, next, hold, htarget, h, _, h1, h2, h3, _, _⟩
  · rw [h]; exact hinv p t
  · subst hc
    cases hr : (createInquiry isDate s user body now).1 with
    | fail r =>
      have hsame := @createInquiry_fail_store isDate s user body now
        (by simp [hr, Response.errorKind])
      simp only [Op.apply]
      rw [hsame]; exact hinv p t
    | ok code made =>
      obtain ⟨_, _, hnone, property2, _, _, hv, hstore⟩ := createInquiry_ok hr
      obtain ⟨message, moveInDate, _, _, hinq⟩ := validateNew_fields hv
      have hsched : s.inquiries.any (fun i =>
          i.property == body.propertyId && i.tenant == user.id && i.status == .scheduled)
            = false := by
        simpa [Op.createsBesideScheduled, Op.apply, hr, Response.errorKind] using hslip
      have hzero := activeCount_zero_of_create s user body hnone hsched
      simp only [Op.apply]
      rw [hstore]
      rw [activeCount_eq] at hzero ⊢
      have hbase := hinv p t
      rw [activeCount_eq] at hbase
      simp only [Store.incInquiries, Store.insert, List.countP_append, List.countP_cons,
        List.countP_nil]
      by_cases hpair : made.property = p ∧ made.tenant = t
      · have hp' : body.propertyId = p := by rw [← hpair.1, hinq]
        have ht' : user.id = t := by rw [← hpair.2, hinq]
        rw [hp', ht'] at hzero
        rw [hzero]
        split <;> omega
      · have hq : (made.property == p && made.tenant == t && made.status.isActive) = false := by
          rcases not_and_or.mp hpair with hne | hne
          · simp [hne]
          · simp [hne]
        simp only [hq]
        simpa using hbase
  · have hid : old.id = id := findInquiry_id hold
    have hafter : (op.apply isDate s).2.findInquiry id = some next := by
      rw [h]; exact findInquiry_save hold (h1.trans hid)
    have hno : (!old.status.isActive && next.status.isActive) = false := by
      simpa [Op.reactivates, htarget, hold, hafter] using hre
    rw [h]
    refine le_trans (activeCount_save_le s id old next p t hold (h1.trans hid) ?_) (hinv p t)
    intro hq
    simp only [Bool.and_eq_true, beq_iff_eq] at hq
    obtain ⟨⟨hp, ht⟩, hact⟩ := hq
    have hold_active : old.status.isActive = true := by
      cases hoa : old.status.isActive with
      | true => rfl
      | false => simp [hoa, hact] at hno
    simp [← h2, ← h3, hp, ht, hold_active]

/-- C2, amended. In every store reached from a store without inquiries by
calls of the six handlers (any callers, any inputs), every (property, tenant)
pair has at most one active inquiry, provided that no call of the sequence
turns a cancelled or completed inquiry back into an active one. The case of
a `createInquiry` accepted while the pair holds a scheduled inquiry is left
aside. -/
theorem one_active_inquiry_per_pair (properties : List Property) (ops : List Op)
    (hops : everyStep
      (fun s op => !op.reactivates isDate s && !op.createsBesideScheduled isDate s)
      isDate (Store.initial properties) ops = true)
    (propertyId tenant : ObjectId) :
    (run isDate (Store.initial properties) ops).activeCount propertyId tenant ≤ 1 :=
  everyStep_run
    (fun s op => !op.reactivates isDate s && !op.createsBesideScheduled isDate s)
    (fun s => ∀ p t : ObjectId, s.activeCount p t ≤ 1)
    (fun s op hinv hop => activeCount_step s op hinv hop)
    ops (Store.initial properties)
    (by intro p t; simp [Store.initial, Store.activeCount]) hops propertyId tenant

/-- Witness for C2, amended: alice inquires, bob replies and schedules, alice
confirms and replies, alice cancels, and alice inquires again. -/
theorem one_active_inquiry_per_pair_witness :
    everyStep
      (fun s op => !op.reactivates isoDate s && !op.createsBesideScheduled isoDate s)
      isoDate (Store.initial [flat])
      [Op.create alice request 100, Op.reply bob 0 (some "available June 1") 150,
        Op.schedule bob 0 (some "2025-06-01") (some "10:00") none, Op.confirm alice 0,
        Op.reply alice 0 (some "see you then") 160,
        Op.setStatus alice 0 (some "cancelled"), Op.create alice request 200] = true
    ∧ (run isoDate (Store.initial [flat])
      [Op.create alice request 100, Op.reply bob 0 (some "available June 1") 150,
        Op.schedule bob 0 (some "2025-06-01") (some "10:00") none, Op.confirm alice 0,
        Op.reply alice 0 (some "see you then") 160,
        Op.setStatus alice 0 (some "cancelled"), Op.create alice request 200]).summary
        = [(0, 7, 1, .cancelled), (1, 7, 1, .pending)]
    ∧ (run isoDate (Store.initial [flat])
      [Op.create alice request 100, Op.reply bob 0 (some "available June 1") 150,
        Op.schedule bob 0 (some "2025-06-01") (some "10:00") none, Op.confirm alice 0,
        Op.reply alice 0 (some "see you then") 160,
        Op.setStatus alice 0 (some "cancelled"), Op.create alice request 200]).activeCount
          7 1 ≤ 1 :=
  ⟨by decide, by decide,
   one_active_inquiry_per_pair [flat]
    [Op.create alice request 100, Op.reply bob 0 (some "available June 1") 150,
      Op.schedule bob 0 (some "2025-06-01") (some "10:00") none, Op.confirm alice 0,
      Op.reply alice 0 (some "see you then") 160,
      Op.setStatus alice 0 (some "cancelled"), Op.create alice request 200]
    (by decide) 7 1⟩

/-! ## C19: the scenario of the specification -/

theorem createInquiry_valid (s : Store) (user : User) (body : CreateBody) (now : Nat)
    (property : Property) (message moveInDate : String)
    (hrole : user.role = .tenant)
    (hprop : s.findProperty body.propertyId = some property)
    (hav : property.isAvailable = true)
    (hnone : s.findExisting body.propertyId user.id = none)
    (hm : body.message = some message) (hm1 : message ≠ "")
    (hm2 : utf16Length message ≤ 1000)
    (hd : body.moveInDate = some moveInDate) (hd1 : moveInDate ≠ "")
    (hd2 : isDate moveInDate = true)
    (hocc : 1 ≤ body.numberOfOccupants.getD 1) :
    createInquiry isDate s user body now
      = (.ok 201
          { id := s.nextId, property := body.propertyId, tenant := user.id,
            landlord := property.landlord, message := message, moveInDate := moveInDate,
            numberOfOccupants := body.numberOfOccupants.getD 1, status := .pending,
            scheduledViewing := ScheduledViewing.unset, replies := [],
            viewedByLandlord := false, viewedByTenant := false, createdAt := now },
         (s.insert
          { id := s.nextId, property := body.propertyId, tenant := user.id,
            landlord := property.landlord, message := message, moveInDate := moveInDate,
            numberOfOccupants := body.numberOfOccupants.getD 1, status := .pending,
            scheduledViewing := ScheduledViewing.unset, replies := [],
            viewedByLandlord := false, viewedByTenant := false,
            createdAt := now }).incInquiries body.propertyId) := by
  have hv : validateNew isDate s user property body now = some
      { id := s.nextId, property := body.propertyId, tenant := user.id,
        landlord := property.landlord, message := message, moveInDate := moveInDate,
        numberOfOccupants := body.numberOfOccupants.getD 1, status := .pending,
        scheduledViewing := ScheduledViewing.unset, replies := [],
        viewedByLandlord := false, viewedByTenant := false, createdAt := now } := by
    simp [validateNew, hm, hd, hm1, hm2, hd1, hd2, hocc]
  simp [createInquiry, hrole, hprop, hav, hnone, hv]

theorem findInquiry_inserted {s : Store} {pid : ObjectId} {created : Inquiry}
    (hfresh : s.findInquiry created.id = none) :
    ((s.insert created).incInquiries pid).findInquiry created.id = some created := by
  have h0 : s.inquiries.find? (fun i => i.id == created.id) = none := hfresh
  simp [Store.findInquiry, Store.insert, Store.incInquiries, List.find?_append, h0]

theorem scenario_after_create (s : Store) (id : ObjectId) (inquiry : Inquiry)
    (tenant landlord : User) (reply : String) (notes : Option String) (t1 : Nat)
    (hfind : s.findInquiry id = some inquiry)
    (htenant : tenant.role = .tenant) (hlandlord : landlord.role = .landlord)
    (hten : tenant.id = inquiry.tenant) (hown : landlord.id = inquiry.landlord)
    (hreply : reply ≠ "") (hiso : isDate "2025-06-01" = true) :
    ∃ i2 i3 i4 : Inquiry,
      (replyToInquiry s landlord id (some reply) t1).1 = .ok 200 i2
      ∧ i2.status = .replied ∧ i2.viewedByTenant = false
      ∧ (scheduleViewing isDate (run isDate s [.reply landlord id (some reply) t1])
          landlord id (some "2025-06-01") (some "10:00") notes).1 = .ok 200 i3
      ∧ i3.status = .scheduled ∧ i3.scheduledViewing.confirmed = false
      ∧ i3.scheduledViewing.date = some "2025-06-01"
      ∧ i3.scheduledViewing.time = some "10:00"
      ∧ (confirmViewing
          (run isDate s [.reply landlord id (some reply) t1,
            .schedule landlord id (some "2025-06-01") (some "10:00") notes])
          tenant id).1 = .ok 200 i4
      ∧ i4.status = .scheduled ∧ i4.scheduledViewing.confirmed = true := by
  have hid : inquiry.id = id := findInquiry_id hfind
  have hr := replyToInquiry_participant s landlord id inquiry reply t1 hfind (Or.inr hown) hreply
  have ha_id : (applyReply inquiry landlord reply t1).id = id :=
    (applyReply_id inquiry landlord reply t1).trans hid
  have ha_l : (applyReply inquiry landlord reply t1).landlord = inquiry.landlord := by
    unfold applyReply; split <;> rfl
  have ha_t : (applyReply inquiry landlord reply t1).tenant = inquiry.tenant := by
    unfold applyReply; split <;> rfl
  have hs2 : run isDate s [.reply landlord id (some reply) t1]
      = s.save (applyReply inquiry landlord reply t1) := by
    simp only [run, List.foldl, Op.apply]
    rw [hr]
  have hf2 : (run isDate s [.reply landlord id (some reply) t1]).findInquiry id
      = some (applyReply inquiry landlord reply t1) := by
    rw [hs2]; exact findInquiry_save hfind ha_id
  have hsch := @scheduleViewing_by_landlord isDate
    (run isDate s [.reply landlord id (some reply) t1])
    landlord id (applyReply inquiry landlord reply t1) "2025-06-01" (some "10:00")
    notes hf2 hlandlord (hown.trans ha_l.symm) (by decide) (by decide)
  rw [hiso] at hsch
  simp only [if_true] at hsch
  have hs3 : run isDate s [.reply landlord id (some reply) t1,
        .schedule landlord id (some "2025-06-01") (some "10:00") notes]
      = (scheduleViewing isDate (run isDate s [.reply landlord id (some reply) t1])
          landlord id (some "2025-06-01") (some "10:00") notes).2 := rfl
  have hf3 : (run isDate s [.reply landlord id (some reply) t1,
        .schedule landlord id (some "2025-06-01") (some "10:00") notes]).findInquiry id
      = some
        { applyReply inquiry landlord reply t1 with
          scheduledViewing :=
            { date := some "2025-06-01", time := some "10:00", notes := notes,
              confirmed := false }
          status := .scheduled } := by
    rw [hs3, hsch]
    exact findInquiry_save hf2 ha_id
  have hcf := confirmViewing_by_tenant _ tenant id _ hf3 htenant (hten.trans ha_t.symm)
  refine ⟨applyReply inquiry landlord reply t1, _, _, by rw [hr], ?_, ?_, by rw [hsch],
    rfl, rfl, rfl, rfl, by rw [hcf], rfl, rfl⟩
  · unfold applyReply; split <;> rfl
  · simp [applyReply, hlandlord]

/-- C19. In a store where the property is available and owned by the
landlord, the tenant has no pending, viewed or replied inquiry for it, and
the next inquiry id is unused, and with a Date cast that accepts the move-in
date and 2025-06-01, the four calls of the scenario all succeed:
`createInquiry` by the tenant (a message of 1 to 1000 UTF-16 units, a move-in
date, 2 occupants) answers 201 with status pending; the reply of the landlord
answers 200 with status replied and viewedByTenant = false;
`scheduleViewing` by the landlord for 2025-06-01 at 10:00 answers 200 with
status scheduled and confirmed = false; `confirmViewing` by the tenant
answers 200 with confirmed = true and status still scheduled. -/
theorem scenario_succeeds (s : Store) (tenant landlord : User) (body : CreateBody)
    (property : Property) (message moveInDate reply : String) (notes : Option String)
    (t0 t1 : Nat)
    (htenant : tenant.role = .tenant) (hlandlord : landlord.role = .landlord)
    (hprop : s.findProperty body.propertyId = some property)
    (hav : property.isAvailable = true)
    (hown : landlord.id = property.landlord)
    (hnone : s.findExisting body.propertyId tenant.id = none)
    (hfresh : s.findInquiry s.nextId = none)
    (hm : body.message = some message) (hm1 : message ≠ "")
    (hm2 : utf16Length message ≤ 1000)
    (hd : body.moveInDate = some moveInDate) (hd1 : moveInDate ≠ "")
    (hd2 : isDate moveInDate = true)
    (hocc : body.numberOfOccupants = some 2)
    (hreply : reply ≠ "") (hiso : isDate "2025-06-01" = true) :
    ∃ i1 i2 i3 i4 : Inquiry,
      (createInquiry isDate s tenant body t0).1 = .ok 201 i1
      ∧ i1.status = .pending ∧ i1.numberOfOccupants = 2 ∧ i1.id = s.nextId
      ∧ (replyToInquiry (run isDate s [.create tenant body t0]) landlord s.nextId (some reply)
          t1).1 = .ok 200 i2
      ∧ i2.status = .replied ∧ i2.viewedByTenant = false
      ∧ (scheduleViewing isDate
          (run isDate s [.create tenant body t0, .reply landlord s.nextId (some reply) t1])
          landlord s.nextId (some "2025-06-01") (some "10:00") notes).1 = .ok 200 i3
      ∧ i3.status = .scheduled ∧ i3.scheduledViewing.confirmed = false
      ∧ i3.scheduledViewing.date = some "2025-06-01"
      ∧ i3.scheduledViewing.time = some "10:00"
      ∧ (confirmViewing
          (run isDate s [.create tenant body t0, .reply landlord s.nextId (some reply) t1,
            .schedule landlord s.nextId (some "2025-06-01") (some "10:00") notes])
          tenant s.nextId).1 = .ok 200 i4
      ∧ i4.status = .scheduled ∧ i4.scheduledViewing.confirmed = true := by
  have hc := createInquiry_valid s tenant body t0 property message moveInDate htenant hprop
    hav hnone hm hm1 hm2 hd hd1 hd2 (by rw [hocc]; decide)
  rw [hocc] at hc
  simp only [Option.getD_some] at hc
  have hs1 : run isDate s [.create tenant body t0] = (createInquiry isDate s tenant body t0).2 := rfl
  have hf1 : (run isDate s [.create tenant body t0]).findInquiry s.nextId
      = some
        { id := s.nextId, property := body.propertyId, tenant := tenant.id,
          landlord := property.landlord, message := message, moveInDate := moveInDate,
          numberOfOccupants := 2, status := .pending,
          scheduledViewing := ScheduledViewing.unset, replies := [],
          viewedByLandlord := false, viewedByTenant := false, createdAt := t0 } := by
    rw [hs1, hc]
    exact findInquiry_inserted hfresh
  obtain ⟨i2, i3, i4, h2, h3, h4, h5, h6, h7, h8, h9, h10, h11, h12⟩ :=
    scenario_after_create (run isDate s [.create tenant body t0]) s.nextId _ tenant landlord reply
      notes t1 hf1 htenant hlandlord rfl hown hreply hiso
  exact ⟨_, i2, i3, i4, by rw [hc], rfl, rfl, rfl, h2, h3, h4, h5, h6, h7, h8, h9, h10,
    h11, h12⟩

/-! ## Lists, pages and filters -/

theorem mem_sortedMatches {s : Store} {user : User} {status : Option String}
    {sort : Option (Inquiry → Inquiry → Bool)} {i : Inquiry} :
    i ∈ sortedMatches s user status sort
      ↔ i ∈ s.inquiries ∧ listFilter user status i = true := by
  unfold sortedMatches
  rw [(List.perm_insertionSort _ _).mem_iff, List.mem_filter]

theorem length_sortedMatches (s : Store) (user : User) (status : Option String)
    (sort : Option (Inquiry → Inquiry → Bool)) :
    (sortedMatches s user status sort).length
      = (s.inquiries.filter (listFilter user status)).length :=
  (List.perm_insertionSort _ _).length_eq

theorem listFilter_iff (user : User) (status : Option String) (i : Inquiry) :
    listFilter user status i = true
      ↔ (user.role = .tenant → i.tenant = user.id)
        ∧ (user.role = .landlord → i.landlord = user.id)
        ∧ (∀ value : String, status = some value → value ≠ "" →
            i.status.toString = value) := by
  obtain ⟨uid, role⟩ := user
  cases status with
  | none => cases role <;> simp [listFilter, truthy]
  | some value =>
    by_cases hv : value = ""
    · subst hv
      cases role <;> simp [listFilter, truthy]
    · cases role <;> simp [listFilter, truthy, hv]

theorem mem_page_of_mem {α : Type} (docs : List α) (l : Nat) (hl : 1 ≤ l) (x : α)
    (hx : x ∈ docs) :
    ∃ p : Nat, 1 ≤ p ∧ x ∈ (docs.drop ((p - 1) * l)).take l := by
  obtain ⟨n, hn, hget⟩ := List.getElem_of_mem hx
  refine ⟨n / l + 1, Nat.le_add_left 1 _, ?_⟩
  apply List.getElem?_mem (n := n % l)
  rw [List.getElem?_take]
  have hmod : n % l < l := Nat.mod_lt _ (by omega)
  simp only [hmod, if_true, List.getElem?_drop, Nat.add_sub_cancel]
  have : n / l * l + n % l = n := by
    rw [Nat.mul_comm]; exact Nat.div_add_mod n l
  rw [this, List.getElem?_eq_getElem hn, hget]

theorem le_ceil_mul (t l pages : Nat) (hl : 1 ≤ l)
    (h : (pages : Int) = ⌈(t : ℚ) / (l : ℚ)⌉) : t ≤ pages * l := by
  have hlq : (0 : ℚ) < (l : ℚ) := by exact_mod_cast hl
  have h1 : (t : ℚ) / (l : ℚ) ≤ ((⌈(t : ℚ) / (l : ℚ)⌉ : Int) : ℚ) := Int.le_ceil _
  rw [← h] at h1
  have h2 : (t : ℚ) ≤ (pages : ℚ) * (l : ℚ) := by
    rw [div_le_iff₀ hlq] at h1
    exact_mod_cast h1
  exact_mod_cast h2

theorem chunks_concat {α : Type} (docs : List α) (l : Nat) :
    ∀ n : Nat, (List.range n).flatMap (fun k => (docs.drop (k * l)).take l)
      = docs.take (n * l) := by
  intro n
  induction n with
  | zero => simp
  | succ n ih =>
    rw [List.range_succ, List.flatMap_append, ih]
    simp only [List.flatMap_cons, List.flatMap_nil, List.append_nil]
    rw [Nat.succ_mul, List.take_add]

theorem page_index {α : Type} (docs : List α) (a l total k : Nat)
    (htotal : total = docs.length) :
    ((docs.drop a).take l)[k]?
      = if a + k < min (a + l) total then docs[a + k]? else none := by
  rw [List.getElem?_take, List.getElem?_drop]
  by_cases hk : k < l
  · by_cases hin : a + k < total
    · have : a + k < min (a + l) total := by omega
      simp [hk, this]
    · have : ¬ (a + k < min (a + l) total) := by omega
      simp only [hk, if_true, this, if_false]
      exact List.getElem?_eq_none (by omega)
  · have : ¬ (a + k < min (a + l) total) := by omega
    simp [hk, this]

/-! ## Numbers of JavaScript and query texts -/

theorem bitLengthAux_le_iff :
    ∀ (fuel n b : Nat), n ≤ fuel → (bitLengthAux fuel n ≤ b ↔ n < 2 ^ b) := by
  intro fuel
  induction fuel with
  | zero =>
    intro n b hn
    have h0 : n = 0 := by omega
    subst h0
    simp [bitLengthAux]
  | succ fuel ih =>
    intro n b hn
    by_cases h0 : n = 0
    · subst h0
      simp [bitLengthAux]
    · simp only [bitLengthAux, h0, if_false]
      cases b with
      | zero =>
        simp only [Nat.pow_zero, Nat.lt_one_iff]
        constructor
        · intro h; omega
        · intro h; exact absurd h h0
      | succ b =>
        rw [Nat.add_le_add_iff_right, ih (n / 2) b (by omega), Nat.pow_succ]
        omega

theorem bitLength_le_iff (n b : Nat) : bitLength n ≤ b ↔ n < 2 ^ b :=
  bitLengthAux_le_iff n n b (Nat.le_refl n)

theorem lt_two_pow_bitLength (n : Nat) : n < 2 ^ bitLength n :=
  (bitLength_le_iff n (bitLength n)).mp (Nat.le_refl _)

theorem two_pow_le_of_lt_bitLength {n b : Nat} (h : b < bitLength n) : 2 ^ b ≤ n := by
  by_contra hlt
  have := (bitLength_le_iff n b).mpr (by omega)
  omega

theorem roundToMultiple_zero (n : Nat) (sticky : Bool) : roundToMultiple n 0 sticky = n := by
  simp [roundToMultiple, Nat.mod_one]

theorem roundDouble_exact {n : Nat} (h : n < 2 ^ 53) : roundDouble n = some n := by
  have h53 : bitLength n ≤ 53 := (bitLength_le_iff n 53).mpr h
  have he : bitLength n - 53 = 0 := by omega
  have h1024 : bitLength n ≤ 1024 := by omega
  simp [roundDouble, he, roundToMultiple_zero, h1024]

theorem ofInt_exact {n : Nat} (h : n < 2 ^ 53) : JsNumber.ofInt (n : Int) = .finite (n : Int) := by
  have hneg : ¬ ((n : Int) < 0) := by omega
  simp [JsNumber.ofInt, roundDouble_exact h, hneg]

theorem ofInt_zero : JsNumber.ofInt 0 = .finite 0 := ofInt_exact (n := 0) (by decide)

theorem ofInt_neg_zero : JsNumber.ofInt (-((0 : Nat) : Int)) = .finite 0 := by
  simpa using ofInt_zero

theorem digitChar_facts {d : Nat} (h : d < 10) :
    digitValue (digitChar d) = some d ∧ (digitChar d).toNat - 48 = d
      ∧ isWhiteSpace (digitChar d) = false
      ∧ digitChar d ≠ '-' ∧ digitChar d ≠ '+' ∧ digitChar d ≠ 'x' ∧ digitChar d ≠ 'X' := by
  interval_cases d <;> decide

/-- The number a run of decimal digits denotes, continuing from `a`. -/
theorem readDigits_digits :
    ∀ (cs : List Char) (a : Nat), (∀ c ∈ cs, ∃ d, d < 10 ∧ c = digitChar d) →
      readDigits digitValue 10 cs (some a)
        = some (cs.foldl (fun a c => a * 10 + (c.toNat - 48)) a) := by
  intro cs
  induction cs with
  | nil => intro a _; rfl
  | cons c cs ih =>
    intro a h
    obtain ⟨d, hd, rfl⟩ := h c (List.mem_cons_self _ _)
    obtain ⟨h1, h2, _⟩ := digitChar_facts hd
    simp only [readDigits, h1, Option.getD_some, List.foldl_cons, h2]
    exact ih _ (fun c hc => h c (List.mem_cons_of_mem _ hc))

theorem decimalDigits_spec :
    ∀ (fuel n : Nat) (acc : List Char), n < fuel →
      (∀ c ∈ acc, ∃ d, d < 10 ∧ c = digitChar d) →
      (∀ c ∈ decimalDigits fuel n acc, ∃ d, d < 10 ∧ c = digitChar d)
      ∧ (∃ d rest, d < 10 ∧ decimalDigits fuel n acc = digitChar d :: rest)
      ∧ (decimalDigits fuel n acc).foldl (fun a c => a * 10 + (c.toNat - 48)) 0
          = acc.foldl (fun a c => a * 10 + (c.toNat - 48)) n := by
  intro fuel
  induction fuel with
  | zero => intro n acc h; omega
  | succ fuel ih =>
    intro n acc hn hacc
    by_cases h10 : n < 10
    · simp only [decimalDigits, h10, if_true]
      refine ⟨?_, ⟨n, acc, h10, rfl⟩, ?_⟩
      · intro c hc
        rcases List.mem_cons.mp hc with rfl | hc
        · exact ⟨n, h10, rfl⟩
        · exact hacc c hc
      · simp [List.foldl_cons, (digitChar_facts h10).2.1]
    · simp only [decimalDigits, h10, if_false]
      have hmod : n % 10 < 10 := Nat.mod_lt _ (by decide)
      have hacc2 : ∀ c ∈ digitChar (n % 10) :: acc, ∃ d, d < 10 ∧ c = digitChar d := by
        intro c hc
        rcases List.mem_cons.mp hc with rfl | hc
        · exact ⟨n % 10, hmod, rfl⟩
        · exact hacc c hc
      obtain ⟨h1, h2, h3⟩ := ih (n / 10) (digitChar (n % 10) :: acc) (by omega) hacc2
      refine ⟨h1, h2, ?_⟩
      rw [h3, List.foldl_cons, (digitChar_facts hmod).2.1]
      congr 1
      omega

theorem significant_digits {text : String} {d : Nat} {rest : List Char} (hd : d < 10)
    (h : text.toList = digitChar d :: rest) : significant text = digitChar d :: rest := by
  obtain ⟨_, _, hws, hminus, hplus, _, _⟩ := digitChar_facts hd
  have h2 : text.data = digitChar d :: rest := h
  simp [significant, String.toList, h2, List.dropWhile_cons, hws, hminus, hplus]

/-- Reading back the decimal text of a number gives the double nearest to
it. -/
theorem parseInt_decimal (n : Nat) : parseInt (some (decimal n)) = JsNumber.ofInt (n : Int) := by
  obtain ⟨hall, ⟨d, rest, hd, hshape⟩, hval⟩ :=
    decimalDigits_spec (n + 1) n [] (Nat.lt_succ_self n) (by intro c hc; simp at hc)
  have htext : (decimal n).toList = digitChar d :: rest := by
    simp [decimal, hshape]
  have hsig := significant_digits hd htext
  obtain ⟨hv, hnat, hws, hminus, hplus, hx, hX⟩ := digitChar_facts hd
  have hrest : ∀ c ∈ rest, ∃ d, d < 10 ∧ c = digitChar d := by
    intro c hc
    exact hall c (by rw [hshape]; exact List.mem_cons_of_mem _ hc)
  have hhex : ((digitChar d :: rest).take 2 == ['0', 'x']
      || (digitChar d :: rest).take 2 == ['0', 'X']) = false := by
    cases rest with
    | nil => simp
    | cons c2 rest2 =>
      obtain ⟨d2, hd2, rfl⟩ := hrest c2 (List.mem_cons_self _ _)
      obtain ⟨_, _, _, _, _, hx2, hX2⟩ := digitChar_facts hd2
      simp [hx2, hX2]
  have hread : readDigits digitValue 10 (digitChar d :: rest) none = some n := by
    simp only [readDigits, hv, Option.getD_none, Nat.zero_mul, Nat.zero_add]
    rw [readDigits_digits rest d hrest]
    rw [hshape] at hval
    simp only [List.foldl_cons, Nat.zero_mul, Nat.zero_add, hnat, List.foldl_nil] at hval
    rw [hval]
  have hhead : ((decimal n).toList.dropWhile isWhiteSpace).head? ≠ some '-' := by
    rw [htext]
    simp [List.dropWhile_cons, hws, hminus]
  have hhead2 : (((decimal n).toList.dropWhile isWhiteSpace).head? == some '-') = false := by
    simpa using hhead
  simp only [parseInt, hsig, hhex, Bool.false_eq_true, if_false, hread, hhead2]

theorem parseInt_not_numeric {text : String} (h : isNumericText text = false) :
    parseInt (some text) = .nan := by
  unfold isNumericText at h
  cases hs : significant text with
  | nil => simp [parseInt, hs, readDigits]
  | cons c rest =>
    rw [hs] at h
    simp only [List.head?_cons, Option.bind_some] at h
    have hv : digitValue c = none := by
      cases hd : digitValue c with
      | none => rfl
      | some d => simp [hd] at h
    have hc0 : c ≠ '0' := by
      rintro rfl
      simp [digitValue] at hv
    have hhex : ((c :: rest).take 2 == ['0', 'x'] || (c :: rest).take 2 == ['0', 'X'])
        = false := by
      cases rest with
      | nil => simp
      | cons c2 rest2 => simp [hc0]
    simp only [parseInt, hs, hhex, Bool.false_eq_true, if_false, readDigits, hv]

theorem readDigits_zeros :
    ∀ (cs : List Char),
      (cs.dropWhile (fun c => c == '0')).head?.all
        (fun c => (digitValue c).isNone && c != 'x' && c != 'X') = true →
      readDigits digitValue 10 cs (some 0) = some 0 := by
  intro cs
  induction cs with
  | nil => intro _; rfl
  | cons c cs ih =>
    intro h
    by_cases hc : c = '0'
    · subst hc
      have hv : digitValue '0' = some 0 := by decide
      simp only [List.dropWhile_cons, beq_self_eq_true, if_true] at h
      simp only [readDigits, hv, Option.getD_some, Nat.zero_mul, Nat.zero_add]
      exact ih h
    · have hne : (c == '0') = false := by simp [hc]
      simp only [List.dropWhile_cons, hne, Bool.false_eq_true, if_false, List.head?_cons,
        Option.all_some, Bool.and_eq_true, Option.isNone_iff_eq_none] at h
      simp [readDigits, h.1.1]

theorem parseInt_zero_text {text : String} (h : isZeroText text = true) :
    parseInt (some text) = .finite 0 := by
  unfold isZeroText at h
  simp only [Bool.and_eq_true, beq_iff_eq] at h
  obtain ⟨hhead, htail⟩ := h
  cases hs : significant text with
  | nil => simp [hs] at hhead
  | cons c rest =>
    rw [hs] at hhead htail
    simp only [List.head?_cons, Option.some.injEq] at hhead
    subst hhead
    have hv : digitValue '0' = some 0 := by decide
    simp only [List.dropWhile_cons, beq_self_eq_true, if_true] at htail
    have hhex : (('0' :: rest).take 2 == ['0', 'x'] || ('0' :: rest).take 2 == ['0', 'X'])
        = false := by
      cases rest with
      | nil => simp
      | cons c2 rest2 =>
        by_cases h0 : c2 = '0'
        · subst h0; simp
        · have hne : (c2 == '0') = false := by simp [h0]
          simp only [List.dropWhile_cons, hne, Bool.false_eq_true, if_false, List.head?_cons,
            Option.all_some, Bool.and_eq_true, bne_iff_ne, ne_eq] at htail
          simp [htail.1.2, htail.2]
    have hread : readDigits digitValue 10 ('0' :: rest) none = some 0 := by
      simp only [readDigits, hv, Option.getD_none, Nat.zero_mul, Nat.zero_add]
      exact readDigits_zeros rest htail
    simp only [parseInt, hs, hhex, Bool.false_eq_true, if_false, hread]
    split
    · exact ofInt_neg_zero
    · exact ofInt_zero

/-- Rounding to the nearest multiple keeps a quotient between the integers
around it: with `Q * l < t ≤ (Q + 1) * l`, the multiple of `G = 2 * G'`
nearest to `t * (H * G) / l` lies above `Q * (H * G)` and not above
`(Q + 1) * (H * G)`, provided the multiple keeps 53 binary digits and `t` has
no more. -/
theorem round_bracket (t l n q r ρ Q H G' : Nat)
    (hl : 0 < l) (hG' : 0 < G') (hH : 0 < H)
    (hA : t * (H * (2 * G')) = n * l + ρ) (hρ : ρ < l)
    (hn : n = q * (2 * G') + r) (hr : r < 2 * G')
    (hQ1 : Q * l < t) (hQ2 : t ≤ (Q + 1) * l)
    (ht : t < 2 ^ 53) (hbig : 2 ^ 52 * (2 * G') ≤ n) (up : Bool)
    (hup : up = true ↔ (2 * G' < 2 * r ∨ (2 * r = 2 * G' ∧ (ρ ≠ 0 ∨ q % 2 = 1)))) :
    Q * (H * (2 * G')) < (if up = true then (q + 1) * (2 * G') else q * (2 * G'))
      ∧ (if up = true then (q + 1) * (2 * G') else q * (2 * G')) ≤ (Q + 1) * (H * (2 * G')) := by
  have hnl : n * l ≤ (Q + 1) * (H * (2 * G')) * l := by
    calc n * l ≤ n * l + ρ := Nat.le_add_right _ _
      _ = t * (H * (2 * G')) := hA.symm
      _ ≤ ((Q + 1) * l) * (H * (2 * G')) := Nat.mul_le_mul_right _ hQ2
      _ = (Q + 1) * (H * (2 * G')) * l := by ring
  have h1 : n ≤ (Q + 1) * (H * (2 * G')) := Nat.le_of_mul_le_mul_right hnl hl
  have h2 : q ≤ (Q + 1) * H := by
    have : q * (2 * G') ≤ ((Q + 1) * H) * (2 * G') := by
      calc q * (2 * G') ≤ n := by rw [hn]; exact Nat.le_add_right _ _
        _ ≤ (Q + 1) * (H * (2 * G')) := h1
        _ = ((Q + 1) * H) * (2 * G') := by ring
    exact Nat.le_of_mul_le_mul_right this (by omega)
  have hlow : Q * (H * (2 * G')) * l < (n + 1) * l := by
    calc Q * (H * (2 * G')) * l = (Q * l) * (H * (2 * G')) := by ring
      _ < t * (H * (2 * G')) := Nat.mul_lt_mul_of_pos_right hQ1 (by positivity)
      _ = n * l + ρ := hA
      _ < n * l + l := by omega
      _ = (n + 1) * l := by ring
  have h3 : Q * (H * (2 * G')) ≤ n := by
    have := Nat.lt_of_mul_lt_mul_right hlow
    omega
  have h4 : Q * H ≤ q := by
    have : (Q * H) * (2 * G') < (q + 1) * (2 * G') := by
      calc (Q * H) * (2 * G') = Q * (H * (2 * G')) := by ring
        _ ≤ n := h3
        _ < (q + 1) * (2 * G') := by rw [hn]; nlinarith
    have := Nat.lt_of_mul_lt_mul_right this
    omega
  have hbound : l < 2 * H := by
    have h5 : 2 ^ 52 * (2 * G') * l < 2 ^ 53 * (H * (2 * G')) := by
      calc 2 ^ 52 * (2 * G') * l ≤ n * l := Nat.mul_le_mul_right _ hbig
        _ ≤ n * l + ρ := Nat.le_add_right _ _
        _ = t * (H * (2 * G')) := hA.symm
        _ < 2 ^ 53 * (H * (2 * G')) := Nat.mul_lt_mul_of_pos_right ht (by positivity)
    have h6 : (2 ^ 52 * l) * (2 * G') < (2 ^ 53 * H) * (2 * G') := by
      calc (2 ^ 52 * l) * (2 * G') = 2 ^ 52 * (2 * G') * l := by ring
        _ < 2 ^ 53 * (H * (2 * G')) := h5
        _ = (2 ^ 53 * H) * (2 * G') := by ring
    have := Nat.lt_of_mul_lt_mul_right h6
    omega
  by_cases hu : up = true
  · simp only [hu, if_true]
    constructor
    · calc Q * (H * (2 * G')) = (Q * H) * (2 * G') := by ring
        _ ≤ q * (2 * G') := Nat.mul_le_mul_right _ h4
        _ < (q + 1) * (2 * G') := by nlinarith
    · rcases Nat.lt_or_ge q ((Q + 1) * H) with hlt | hge
      · calc (q + 1) * (2 * G') ≤ ((Q + 1) * H) * (2 * G') := Nat.mul_le_mul_right _ hlt
          _ = (Q + 1) * (H * (2 * G')) := by ring
      · exfalso
        have hq : q = (Q + 1) * H := Nat.le_antisymm h2 hge
        have hn2 : n = (Q + 1) * (H * (2 * G')) := by
          apply Nat.le_antisymm h1
          calc (Q + 1) * (H * (2 * G')) = q * (2 * G') := by rw [hq]; ring
            _ ≤ n := by rw [hn]; exact Nat.le_add_right _ _
        have hr0 : r = 0 := by
          have : q * (2 * G') = (Q + 1) * (H * (2 * G')) := by rw [hq]; ring
          omega
        have hρ0 : ρ = 0 := by
          have : n * l + ρ ≤ n * l := by
            calc n * l + ρ = t * (H * (2 * G')) := hA.symm
              _ ≤ ((Q + 1) * l) * (H * (2 * G')) := Nat.mul_le_mul_right _ hQ2
              _ = (Q + 1) * (H * (2 * G')) * l := by ring
              _ = n * l := by rw [hn2]
          omega
        rcases hup.mp hu with h | ⟨h, _⟩
        · omega
        · omega
  · simp only [hu]
    simp only [Bool.false_eq_true, if_false]
    have hnot := fun h => hu (hup.mpr h)
    constructor
    · rcases Nat.lt_or_ge (Q * H) q with hlt | hge
      · calc Q * (H * (2 * G')) = (Q * H) * (2 * G') := by ring
          _ < q * (2 * G') := Nat.mul_lt_mul_of_pos_right hlt (by omega)
      · exfalso
        have hq : q = Q * H := Nat.le_antisymm hge h4
        have hd : (t - Q * l) * (H * (2 * G')) = r * l + ρ := by
          have e1 : t * (H * (2 * G')) = (Q * H * (2 * G') + r) * l + ρ := by
            rw [hA, hn, hq]
          have e2 : (t - Q * l) * (H * (2 * G')) + Q * l * (H * (2 * G'))
              = t * (H * (2 * G')) := by
            rw [← Nat.add_mul, Nat.sub_add_cancel (Nat.le_of_lt hQ1)]
          have e3 : (Q * H * (2 * G') + r) * l = Q * l * (H * (2 * G')) + r * l := by ring
          omega
        have hP : H * (2 * G') ≤ r * l + ρ := by
          calc H * (2 * G') = 1 * (H * (2 * G')) := by ring
            _ ≤ (t - Q * l) * (H * (2 * G')) := Nat.mul_le_mul_right _ (by omega)
            _ = r * l + ρ := hd
        have h2H : (2 * H) * G' ≤ l * G' := by
          by_cases heq : 2 * r = 2 * G'
          · have hρ0 : ρ = 0 := by
              by_contra hne
              exact hnot (Or.inr ⟨heq, Or.inl hne⟩)
            have hrG : r = G' := by omega
            calc (2 * H) * G' = H * (2 * G') := by ring
              _ ≤ r * l + ρ := hP
              _ = l * G' := by rw [hρ0, hrG]; ring
          · have hrlt : r + 1 ≤ G' := by
              have : ¬ (2 * G' < 2 * r) := fun h => hnot (Or.inl h)
              omega
            have : r * l + ρ < l * G' := by
              calc r * l + ρ < r * l + l := by omega
                _ = (r + 1) * l := by ring
                _ ≤ G' * l := Nat.mul_le_mul_right _ hrlt
                _ = l * G' := by ring
            calc (2 * H) * G' = H * (2 * G') := by ring
              _ ≤ r * l + ρ := hP
              _ ≤ l * G' := Nat.le_of_lt this
        have := Nat.le_of_mul_le_mul_right h2H hG'
        omega
    · calc q * (2 * G') ≤ n := by rw [hn]; exact Nat.le_add_right _ _
        _ ≤ (Q + 1) * (H * (2 * G')) := h1

theorem one_le_bitLength {n : Nat} (h : 1 ≤ n) : 1 ≤ bitLength n := by
  by_contra hlt
  have := (bitLength_le_iff n 0).mp (by omega)
  simp at this
  omega

theorem roundToMultiple_eq (n e : Nat) (sticky : Bool) {G : Nat} (hG : 2 ^ e = G) :
    roundToMultiple n e sticky
      = if (decide (G < 2 * (n % G)) || (2 * (n % G) == G && (sticky || n / G % 2 == 1)))
            = true then
          (n / G + 1) * G
        else n / G * G := by
  subst hG
  rfl

/-- Division of two positive integers below 2 ^ 53 in doubles, followed by
`Math.ceil`, gives the ceiling of the exact quotient. -/
theorem ceil_divDouble (t l : Nat) (ht1 : 1 ≤ t) (ht : t < 2 ^ 53) (hl1 : 1 ≤ l)
    (hl : l < 2 ^ 53) :
    ((divDouble t l).1 + 2 ^ (divDouble t l).2 - 1) / 2 ^ (divDouble t l).2
      = (t + l - 1) / l := by
  have hbt : bitLength t ≤ 53 := (bitLength_le_iff t 53).mpr ht
  have hbl : bitLength l ≤ 53 := (bitLength_le_iff l 53).mpr hl
  have hbt1 := one_le_bitLength ht1
  have hbl1 := one_le_bitLength hl1
  have htlo : 2 ^ (bitLength t - 1) ≤ t := two_pow_le_of_lt_bitLength (by omega)
  have hthi := lt_two_pow_bitLength t
  have hllo : 2 ^ (bitLength l - 1) ≤ l := two_pow_le_of_lt_bitLength (by omega)
  have hlhi := lt_two_pow_bitLength l
  obtain ⟨k, hk⟩ : ∃ k, k = 55 + bitLength l - bitLength t := ⟨_, rfl⟩
  obtain ⟨n, hn⟩ : ∃ n, n = t * 2 ^ k / l := ⟨_, rfl⟩
  have hnlo : 2 ^ 54 ≤ n := by
    rw [hn, Nat.le_div_iff_mul_le (by omega)]
    calc 2 ^ 54 * l ≤ 2 ^ 54 * 2 ^ bitLength l := Nat.mul_le_mul_left _ (Nat.le_of_lt hlhi)
      _ = 2 ^ (bitLength t - 1) * 2 ^ k := by
          rw [← Nat.pow_add, ← Nat.pow_add]; congr 1; omega
      _ ≤ t * 2 ^ k := Nat.mul_le_mul_right _ htlo
  have hnhi : n < 2 ^ 56 := by
    rw [hn, Nat.div_lt_iff_lt_mul (by omega)]
    calc t * 2 ^ k < 2 ^ bitLength t * 2 ^ k :=
          Nat.mul_lt_mul_of_pos_right hthi (by positivity)
      _ = 2 ^ 56 * 2 ^ (bitLength l - 1) := by
          rw [← Nat.pow_add, ← Nat.pow_add]; congr 1; omega
      _ ≤ 2 ^ 56 * l := Nat.mul_le_mul_left _ hllo
  have hbn56 : bitLength n ≤ 56 := (bitLength_le_iff n 56).mpr hnhi
  have hbn55 : 55 ≤ bitLength n := by
    by_contra hlt
    have := (bitLength_le_iff n 54).mp (by omega)
    omega
  obtain ⟨e, he⟩ : ∃ e, e = bitLength n - 53 := ⟨_, rfl⟩
  have hmax : max (bitLength n - 53) (k - 1074) = e := by
    rw [he]; exact Nat.max_eq_left (by omega)
  have hbig : 2 ^ 52 * (2 * 2 ^ (e - 1)) ≤ n := by
    have h := two_pow_le_of_lt_bitLength (n := n) (b := bitLength n - 1) (by omega)
    calc 2 ^ 52 * (2 * 2 ^ (e - 1)) = 2 ^ (bitLength n - 1) := by
          rw [← Nat.pow_succ', ← Nat.pow_add]; congr 1; omega
      _ ≤ n := h
  have hG : 2 ^ e = 2 * 2 ^ (e - 1) := by
    rw [← Nat.pow_succ']; congr 1; omega
  have hP : 2 ^ k = 2 ^ (k - e) * (2 * 2 ^ (e - 1)) := by
    rw [← hG, ← Nat.pow_add]; congr 1; omega
  have hQ : (t + l - 1) / l = ((t + l - 1) / l - 1) + 1 := by
    have : 1 ≤ (t + l - 1) / l := by
      rw [Nat.le_div_iff_mul_le (by omega)]; omega
    omega
  obtain ⟨Q, hQdef⟩ : ∃ Q, Q = (t + l - 1) / l - 1 := ⟨_, rfl⟩
  have hdm := Nat.div_add_mod (t + l - 1) l
  have hQ1 : Q * l < t := by
    have : l * ((t + l - 1) / l) = l * Q + l := by rw [hQ, ← hQdef]; ring
    have hm := Nat.mod_lt (t + l - 1) (show l > 0 by omega)
    have : Q * l = l * Q := Nat.mul_comm _ _
    omega
  have hQ2 : t ≤ (Q + 1) * l := by
    have : l * ((t + l - 1) / l) = (Q + 1) * l := by rw [hQ, ← hQdef]; ring
    have hm := Nat.mod_lt (t + l - 1) (show l > 0 by omega)
    omega
  have hA : t * (2 ^ (k - e) * (2 * 2 ^ (e - 1))) = n * l + t * 2 ^ k % l := by
    rw [← hP, hn, Nat.mul_comm (t * 2 ^ k / l) l]
    exact (Nat.div_add_mod _ _).symm
  have hnq : n = n / (2 * 2 ^ (e - 1)) * (2 * 2 ^ (e - 1)) + n % (2 * 2 ^ (e - 1)) := by
    rw [Nat.mul_comm]; exact (Nat.div_add_mod _ _).symm
  obtain ⟨up, hupdef⟩ : ∃ up : Bool, up =
      (decide (2 * 2 ^ (e - 1) < 2 * (n % (2 * 2 ^ (e - 1))))
        || (2 * (n % (2 * 2 ^ (e - 1))) == 2 * 2 ^ (e - 1)
            && (t * 2 ^ k % l != 0 || n / (2 * 2 ^ (e - 1)) % 2 == 1))) := ⟨_, rfl⟩
  have hbr := round_bracket t l n (n / (2 * 2 ^ (e - 1))) (n % (2 * 2 ^ (e - 1)))
    (t * 2 ^ k % l) Q (2 ^ (k - e)) (2 ^ (e - 1)) (by omega) (by positivity) (by positivity)
    hA (Nat.mod_lt _ (by omega)) hnq (Nat.mod_lt _ (by positivity)) hQ1 hQ2 ht hbig up
    (by rw [hupdef]; simp [Bool.or_eq_true, Bool.and_eq_true])
  have hfst : (divDouble t l).1
      = if up = true then (n / (2 * 2 ^ (e - 1)) + 1) * (2 * 2 ^ (e - 1))
        else n / (2 * 2 ^ (e - 1)) * (2 * 2 ^ (e - 1)) := by
    simp only [divDouble]
    rw [← hk, ← hn, hmax, hupdef]
    exact roundToMultiple_eq n e _ hG
  have hsnd : (divDouble t l).2 = k := by simp only [divDouble]; exact hk.symm
  rw [hsnd, hfst, hQ, ← hQdef, hP]
  obtain ⟨hlo, hhi⟩ := hbr
  have hpos : 0 < 2 ^ (k - e) * (2 * 2 ^ (e - 1)) := by positivity
  have e1 : (Q + 1) * (2 ^ (k - e) * (2 * 2 ^ (e - 1)))
      = Q * (2 ^ (k - e) * (2 * 2 ^ (e - 1))) + 2 ^ (k - e) * (2 * 2 ^ (e - 1)) := by ring
  have e2 : (Q + 1 + 1) * (2 ^ (k - e) * (2 * 2 ^ (e - 1)))
      = Q * (2 ^ (k - e) * (2 * 2 ^ (e - 1))) + 2 ^ (k - e) * (2 * 2 ^ (e - 1))
        + 2 ^ (k - e) * (2 * 2 ^ (e - 1)) := by ring
  apply Nat.div_eq_of_lt_le
  · omega
  · omega

theorem toLong_finite {n : Nat} (h : n < 2 ^ 53) : toLong (.finite (n : Int)) = (n : Int) := by
  simp only [toLong]
  omega

theorem orDefault_finite {n : Nat} (h : 1 ≤ n) (d : Int) :
    orDefault (.finite (n : Int)) d = .finite (n : Int) := by
  have : ¬ ((n : Int) = 0) := by omega
  simp [orDefault, this]

theorem orDefault_parseInt_decimal {n : Nat} (h1 : 1 ≤ n) (h : n < 2 ^ 53) (d : Int) :
    orDefault (parseInt (some (decimal n))) d = .finite (n : Int) := by
  rw [parseInt_decimal, ofInt_exact h, orDefault_finite h1]

theorem skip_exact {p l : Nat} (hp : 1 ≤ p) (hpb : p < 2 ^ 53)
    (hskip : (p - 1) * l < 2 ^ 53) :
    JsNumber.mul (JsNumber.sub (.finite (p : Int)) (.finite 1)) (.finite (l : Int))
      = .finite (((p - 1) * l : Nat) : Int) := by
  have h1 : (p : Int) - 1 = ((p - 1 : Nat) : Int) := by omega
  have h2 : ((p - 1 : Nat) : Int) * (l : Int) = (((p - 1) * l : Nat) : Int) := by
    push_cast; rfl
  simp only [JsNumber.sub, h1]
  rw [ofInt_exact (by omega : p - 1 < 2 ^ 53)]
  simp only [JsNumber.mul, h2]
  exact ofInt_exact hskip

theorem skipLimit_page {α : Type} (docs : List α) {a l : Nat} (ha : a < 2 ^ 53)
    (hl : 1 ≤ l) (hlb : l < 2 ^ 53) :
    skipLimit docs (.finite (a : Int)) (.finite (l : Int)) = some ((docs.drop a).take l) := by
  have h1 : ¬ ((a : Int) < 0) := by omega
  have h2 : ¬ ((l : Int) < 0) := by omega
  have h3 : ¬ ((l : Int) = 0) := by omega
  simp only [skipLimit, toLong_finite ha, toLong_finite hlb, h1, h2, h3, if_false,
    Int.toNat_ofNat]

/-- The ceiling of `t / l` as a quotient of natural numbers. -/
theorem ceil_div_eq (t l : Nat) (hl : 1 ≤ l) :
    (((t + l - 1) / l : Nat) : Int) = ⌈(t : ℚ) / (l : ℚ)⌉ := by
  have hlq : (0 : ℚ) < (l : ℚ) := by exact_mod_cast hl
  have hdm := Nat.div_add_mod (t + l - 1) l
  have hm := Nat.mod_lt (t + l - 1) (show l > 0 by omega)
  obtain ⟨Q, hQ⟩ : ∃ Q, Q = (t + l - 1) / l := ⟨_, rfl⟩
  rw [← hQ] at hdm ⊢
  symm
  rw [Int.ceil_eq_iff]
  constructor
  · rw [lt_div_iff₀ hlq]
    have h : ((Q : Int) - 1) * (l : Int) < (t : Int) := by
      have : (l : Int) * (Q : Int) + (((t + l - 1) % l : Nat) : Int) = ((t + l - 1 : Nat) : Int) := by
        exact_mod_cast hdm
      have hmi : (((t + l - 1) % l : Nat) : Int) < (l : Int) := by exact_mod_cast hm
      have hsub : ((t + l - 1 : Nat) : Int) = (t : Int) + (l : Int) - 1 := by omega
      nlinarith
    exact_mod_cast h
  · rw [div_le_iff₀ hlq]
    have h : (t : Int) ≤ (Q : Int) * (l : Int) := by
      have : (l : Int) * (Q : Int) + (((t + l - 1) % l : Nat) : Int) = ((t + l - 1 : Nat) : Int) := by
        exact_mod_cast hdm
      have hmi : (((t + l - 1) % l : Nat) : Int) < (l : Int) := by exact_mod_cast hm
      have hsub : ((t + l - 1 : Nat) : Int) = (t : Int) + (l : Int) - 1 := by omega
      nlinarith
    exact_mod_cast h

theorem pageCount_exact (t l : Nat) (ht : t < 2 ^ 53) (hl1 : 1 ≤ l) (hl : l < 2 ^ 53) :
    pageCount (.finite (t : Int)) (.finite (l : Int))
      = .finite (((t + l - 1) / l : Nat) : Int) := by
  have hl0 : ¬ ((l : Int) = 0) := by omega
  by_cases ht0 : t = 0
  · subst ht0
    have : (0 + l - 1) / l = 0 := Nat.div_eq_of_lt (by omega)
    rw [this]
    simp [pageCount, hl0]
  · have ht0i : ¬ ((t : Int) = 0) := by omega
    have hneg1 : ¬ ((t : Int) < 0) := by omega
    have hneg2 : ¬ ((l : Int) < 0) := by omega
    simp only [pageCount, hl0, ht0i, if_false, hneg1, hneg2, decide_False, if_true,
      Int.natAbs_ofNat]
    rw [ceil_divDouble t l (by omega) ht hl1 hl]

theorem getInquiries_page (s : Store) (user : User) (status : Option String)
    (sort : Option (Inquiry → Inquiry → Bool)) (p l : Nat) (hp : 1 ≤ p) (hpb : p < 2 ^ 53)
    (hl : 1 ≤ l) (hlb : l < 2 ^ 53) (hskip : (p - 1) * l < 2 ^ 53)
    (hlen : s.inquiries.length < 2 ^ 53) :
    getInquiries s user
        { page := some (decimal p), limit := some (decimal l), status := status, sort := sort }
      = .ok
        { count := (((sortedMatches s user status sort).drop ((p - 1) * l)).take l).length
          total := .finite ((s.inquiries.filter (listFilter user status)).length : Int)
          page := .finite (p : Int)
          pages := .finite
            ((((s.inquiries.filter (listFilter user status)).length + l - 1) / l : Nat) : Int)
          inquiries := ((sortedMatches s user status sort).drop ((p - 1) * l)).take l } := by
  have hcount : (s.inquiries.filter (listFilter user status)).length < 2 ^ 53 :=
    Nat.lt_of_le_of_lt (List.length_filter_le _ _) hlen
  simp only [getInquiries, orDefault_parseInt_decimal hp hpb, orDefault_parseInt_decimal hl hlb,
    skip_exact hp hpb hskip, skipLimit_page _ hskip hl hlb, pageCount_exact _ l hcount hl hlb,
    ofInt_exact hcount]

/-! ## C18, C20: getInquiries -/

theorem mem_of_skipLimit {α : Type} {docs taken : List α} {skip limit : JsNumber}
    (h : skipLimit docs skip limit = some taken) : ∀ x ∈ taken, x ∈ docs := by
  unfold skipLimit at h
  split at h
  · cases h
  · split at h
    · simp only [Option.some.injEq] at h
      subst h
      intro x hx
      exact List.mem_of_mem_drop (List.mem_of_mem_take hx)
    · split at h
      · simp only [Option.some.injEq] at h
        subst h
        intro x hx
        exact List.mem_of_mem_drop hx
      · simp only [Option.some.injEq] at h
        subst h
        intro x hx
        exact List.mem_of_mem_drop (List.mem_of_mem_take hx)

theorem mem_getInquiries {s : Store} {user : User} {q : ListQuery} {i : Inquiry}
    (h : i ∈ (getInquiries s user q).inquiries) :
    i ∈ sortedMatches s user q.status q.sort := by
  unfold getInquiries at h
  split at h
  · simp [ListResponse.inquiries] at h
  · rename_i taken htaken
    exact mem_of_skipLimit htaken i h

/-- The answer of `getInquiries` depends on the texts of `page` and `limit`
only through the numbers read from them. -/
theorem getInquiries_congr (s : Store) (user : User) {q1 q2 : ListQuery}
    (hpage : orDefault (parseInt q1.page) 1 = orDefault (parseInt q2.page) 1)
    (hlimit : orDefault (parseInt q1.limit) 20 = orDefault (parseInt q2.limit) 20)
    (hstatus : q1.status = q2.status) (hsort : q1.sort = q2.sort) :
    getInquiries s user q1 = getInquiries s user q2 := by
  unfold getInquiries
  rw [hpage, hlimit, hstatus, hsort]

theorem orDefault_fallback {v : Option String}
    (h : v = none
      ∨ ∃ text, v = some text ∧ (isNumericText text = false ∨ isZeroText text = true))
    (d : Int) : orDefault (parseInt v) d = .finite d := by
  rcases h with rfl | ⟨text, rfl, h | h⟩
  · rfl
  · rw [parseInt_not_numeric h]; rfl
  · rw [parseInt_zero_text h]; rfl

theorem lt_length_of_mem_take_drop {α : Type} {docs : List α} {a l : Nat} {x : α}
    (h : x ∈ (docs.drop a).take l) : a < docs.length := by
  by_contra hge
  rw [List.drop_eq_nil_of_le (by omega)] at h
  simp at h

theorem flatMap_congr_mem {α β : Type} (f g : α → List β) :
    ∀ (xs : List α), (∀ x ∈ xs, f x = g x) → xs.flatMap f = xs.flatMap g := by
  intro xs
  induction xs with
  | nil => intro _; rfl
  | cons x xs ih =>
    intro h
    rw [List.flatMap_cons, List.flatMap_cons, h x (List.mem_cons_self _ _),
      ih (fun y hy => h y (List.mem_cons_of_mem _ hy))]

theorem pages_bound (t l : Nat) (hl : 1 ≤ l) :
    (t + l - 1) / l ≤ t ∧ ((t + l - 1) / l - 1) * l < t + 1
      ∧ (1 ≤ (t + l - 1) / l → ((t + l - 1) / l - 1) * l < t) := by
  have hdm := Nat.div_add_mod (t + l - 1) l
  have hm := Nat.mod_lt (t + l - 1) (show l > 0 by omega)
  obtain ⟨Q, hQ⟩ : ∃ Q, Q = (t + l - 1) / l := ⟨_, rfl⟩
  rw [← hQ] at hdm ⊢
  have h1 : Q ≤ l * Q := Nat.le_mul_of_pos_left Q (by omega)
  cases Q with
  | zero => simp
  | succ Q =>
    have h2 : l * (Q + 1) = Q * l + l := by ring
    simp only [Nat.add_sub_cancel]
    refine ⟨?_, ?_, ?_⟩
    · have : Q ≤ Q * l := Nat.le_mul_of_pos_right Q (by omega)
      omega
    · omega
    · intro _; omega

/-- C18. Every inquiry `getInquiries` returns is a stored inquiry that passes
the filter of the request: its tenant is the caller when the role of the
caller is tenant, its landlord is the caller when the role is landlord, with
or without a status value, and its status is the status value when one is
sent. Conversely no inquiry that passes the filter is left out of the pages:
for a page size `limit` from 1 to below 2 ^ 53, written in decimal in the
query, or for the page size 20 of a query without limit, and a store of
fewer than 2 ^ 53 inquiries, every stored inquiry that passes the filter is
returned by `getInquiries` for some page number, written in decimal in the
query. -/
theorem getInquiries_role_scoped (s : Store) (user : User) (q : ListQuery) :
    (∀ i ∈ (getInquiries s user q).inquiries,
        i ∈ s.inquiries
        ∧ (user.role = .tenant → i.tenant = user.id)
        ∧ (user.role = .landlord → i.landlord = user.id)
        ∧ (∀ value : String, q.status = some value → value ≠ "" →
            i.status.toString = value))
    ∧ (∀ limit : Nat, 1 ≤ limit → limit < 2 ^ 53 → s.inquiries.length < 2 ^ 53 →
        (q.limit = some (decimal limit) ∨ (q.limit = none ∧ limit = 20)) →
        ∀ i ∈ s.inquiries,
        (user.role = .tenant → i.tenant = user.id) →
        (user.role = .landlord → i.landlord = user.id) →
        (∀ value : String, q.status = some value → value ≠ "" →
            i.status.toString = value) →
        ∃ page : Nat, 1 ≤ page
          ∧ i ∈ (getInquiries s user { q with page := some (decimal page) }).inquiries) := by
  refine ⟨?_, ?_⟩
  · intro i hi
    have hmem := mem_sortedMatches.mp (mem_getInquiries hi)
    have hf := (listFilter_iff user q.status i).mp hmem.2
    exact ⟨hmem.1, hf.1, hf.2.1, hf.2.2⟩
  · intro limit hl hlb hlen hlimit i hi h1 h2 h3
    have hf : listFilter user q.status i = true :=
      (listFilter_iff user q.status i).mpr ⟨h1, h2, h3⟩
    have hdocs : i ∈ sortedMatches s user q.status q.sort :=
      mem_sortedMatches.mpr ⟨hi, hf⟩
    obtain ⟨p, hp, hmem⟩ := mem_page_of_mem _ limit hl i hdocs
    have hskip : (p - 1) * limit < 2 ^ 53 := by
      have h := lt_length_of_mem_take_drop hmem
      rw [length_sortedMatches] at h
      have := List.length_filter_le (listFilter user q.status) s.inquiries
      omega
    have hpb : p < 2 ^ 53 := by
      have : p - 1 ≤ (p - 1) * limit := Nat.le_mul_of_pos_right _ (by omega)
      have h := lt_length_of_mem_take_drop hmem
      rw [length_sortedMatches] at h
      have := List.length_filter_le (listFilter user q.status) s.inquiries
      omega
    refine ⟨p, hp, ?_⟩
    have hsame : getInquiries s user { q with page := some (decimal p) }
        = getInquiries s user
            { page := some (decimal p), limit := some (decimal limit), status := q.status,
              sort := q.sort } := by
      have hlim : orDefault (parseInt q.limit) 20
          = orDefault (parseInt (some (decimal limit))) 20 := by
        rcases hlimit with h | ⟨h, h20⟩
        · rw [h]
        · rw [h, h20, orDefault_parseInt_decimal (by decide) (by decide)]
          rfl
      exact @getInquiries_congr s user { q with page := some (decimal p) }
        { page := some (decimal p), limit := some (decimal limit), status := q.status,
          sort := q.sort } rfl hlim rfl rfl
    rw [hsame, getInquiries_page s user q.status q.sort p limit hp hpb hl hlb hskip hlen]
    exact hmem

/-- Witness for C18: alice lists her inquiries among the three about the
flat, one to a page; the pending one, inquiry 2, is on a page, and page 2
holds inquiry 0. -/
theorem getInquiries_role_scoped_witness :
    (getInquiries threeInquiries alice
        { page := some "2", limit := some "1", status := none, sort := none }).inquiries.map
      (fun i => (i.id, i.tenant, i.status)) = [(0, 1, .cancelled)]
    ∧ (getInquiries threeInquiries alice
        { page := none, limit := none, status := some "pending", sort := none }).inquiries.map
      (fun i => (i.id, i.tenant, i.status)) = [(2, 1, .pending)]
    ∧ ∃ page : Nat, 1 ≤ page
      ∧ { id := 2, property := 7, tenant := 1, landlord := 2, message := "Is it free in June?",
          moveInDate := "2025-06-01", numberOfOccupants := 2, status := .pending,
          scheduledViewing := ScheduledViewing.unset, replies := [],
          viewedByLandlord := false, viewedByTenant := false, createdAt := 300 }
        ∈ (getInquiries threeInquiries alice
            { page := some (decimal page), limit := some "1", status := none,
              sort := none }).inquiries :=
  ⟨by decide, by decide,
   (getInquiries_role_scoped threeInquiries alice
      { page := none, limit := some "1", status := none, sort := none }).2 1 (by decide)
      (by decide) (by decide) (Or.inl (by decide)) _ (by decide) (by decide) (by decide)
      (by intro value h; cases h)⟩

/-- C20. `page` and `limit` are 1 and 20 when the query value is absent, is
not numeric or is a text of zero: the answer is the one for the texts `1` and
`20`. For page and limit written in decimal in the query, with the sorted
list of matching inquiries of length `total`: for every page size `l` of at
least 1 and every page number `p` of at least 1 the answer is a listing whose
inquiries are the elements of the sorted list at the positions from
`(p - 1) * l` up to, not including, `min (p * l) total`; `count` is their
number and is at most `l`; `pages` is the ceiling of `total / l`; the pages 1
to `pages`, one after the other, are the whole sorted list; and every page
after `pages` is empty. The numbers are doubles in the code: `p`, `l`, the
skip `(p - 1) * l` and the number of stored inquiries are below 2 ^ 53,
where doubles are exact. -/
theorem pagination_partitions (s : Store) (user : User) (status : Option String)
    (sort : Option (Inquiry → Inquiry → Bool)) (p l : Nat) (hp : 1 ≤ p) (hl : 1 ≤ l)
    (hpb : p < 2 ^ 53) (hlb : l < 2 ^ 53) (hskip : (p - 1) * l < 2 ^ 53)
    (hlen : s.inquiries.length < 2 ^ 53) :
    ∃ (r : Listing) (pages : Nat),
      getInquiries s user
          { page := some (decimal p), limit := some (decimal l), status := status,
            sort := sort } = .ok r
      ∧ r.total = .finite ((sortedMatches s user status sort).length : Int)
      ∧ r.page = .finite (p : Int)
      ∧ (∀ k : Nat, r.inquiries[k]? =
          if (p - 1) * l + k < min (p * l) (sortedMatches s user status sort).length
          then (sortedMatches s user status sort)[(p - 1) * l + k]? else none)
      ∧ r.count = r.inquiries.length
      ∧ r.count = min (p * l) (sortedMatches s user status sort).length - (p - 1) * l
      ∧ r.count ≤ l
      ∧ r.pages = .finite (pages : Int)
      ∧ (pages : Int) = ⌈((sortedMatches s user status sort).length : ℚ) / (l : ℚ)⌉
      ∧ (List.range pages).flatMap
          (fun k => (getInquiries s user
            { page := some (decimal (k + 1)), limit := some (decimal l), status := status,
              sort := sort }).inquiries)
          = sortedMatches s user status sort
      ∧ (∀ later : Nat, pages < later → later < 2 ^ 53 → (later - 1) * l < 2 ^ 53 →
          (getInquiries s user
            { page := some (decimal later), limit := some (decimal l), status := status,
              sort := sort }).inquiries = [])
      ∧ (∀ (v : Option String) (q : ListQuery),
          (v = none
            ∨ ∃ text, v = some text
                ∧ (isNumericText text = false ∨ isZeroText text = true)) →
          getInquiries s user { q with page := v }
              = getInquiries s user { q with page := some (decimal 1) }
          ∧ getInquiries s user { q with limit := v }
              = getInquiries s user { q with limit := some (decimal 20) }) := by
  have hlen2 := length_sortedMatches s user status sort
  have hcount : (s.inquiries.filter (listFilter user status)).length < 2 ^ 53 :=
    Nat.lt_of_le_of_lt (List.length_filter_le _ _) hlen
  have hpl : p * l = (p - 1) * l + l := by
    obtain ⟨k, rfl⟩ : ∃ k, p = k + 1 := ⟨p - 1, by omega⟩
    simp [Nat.succ_mul]
  obtain ⟨pages, hpages⟩ : ∃ pages,
      pages = ((s.inquiries.filter (listFilter user status)).length + l - 1) / l := ⟨_, rfl⟩
  have hceil : (pages : Int)
      = ⌈(((s.inquiries.filter (listFilter user status)).length : ℕ) : ℚ) / (l : ℚ)⌉ := by
    rw [hpages]; exact ceil_div_eq _ l hl
  have hcover := le_ceil_mul _ l pages hl hceil
  obtain ⟨hb1, _, hb3⟩ := pages_bound (s.inquiries.filter (listFilter user status)).length l hl
  rw [← hpages] at hb1 hb3
  refine ⟨_, pages, getInquiries_page s user status sort p l hp hpb hl hlb hskip hlen, ?_, rfl,
    ?_, rfl, ?_, ?_, ?_, ?_, ?_, ?_, ?_⟩
  · simp only [hlen2]
  · intro k
    simp only
    rw [hpl]
    exact page_index _ _ _ _ _ rfl
  · simp only [List.length_take, List.length_drop]
    rw [hpl]
    omega
  · simp only [List.length_take]
    omega
  · simp only [hpages]
  · rw [hlen2]; exact hceil
  · have hfun : ∀ k ∈ List.range pages,
        (getInquiries s user
          { page := some (decimal (k + 1)), limit := some (decimal l), status := status,
            sort := sort }).inquiries
        = ((sortedMatches s user status sort).drop (k * l)).take l := by
      intro k hk
      have hklt : k < pages := List.mem_range.mp hk
      have hkl : k * l ≤ (pages - 1) * l := Nat.mul_le_mul_right l (by omega)
      have hlast := hb3 (by omega)
      rw [getInquiries_page s user status sort (k + 1) l (by omega) (by omega) hl hlb
        (by simp only [Nat.add_sub_cancel]; omega) hlen]
      simp [ListResponse.inquiries]
    rw [flatMap_congr_mem _ _ _ hfun, chunks_concat]
    exact List.take_of_length_le (by rw [hlen2]; exact hcover)
  · intro later hlater hlaterb hlaterskip
    rw [getInquiries_page s user status sort later l (by omega) hlaterb hl hlb hlaterskip hlen]
    simp only [ListResponse.inquiries]
    rw [List.drop_eq_nil_of_le, List.take_nil]
    rw [hlen2]
    calc (s.inquiries.filter (listFilter user status)).length
        ≤ pages * l := hcover
      _ ≤ (later - 1) * l := Nat.mul_le_mul_right l (by omega)
  · intro v q hv
    constructor
    · exact @getInquiries_congr s user { q with page := v }
        { q with page := some (decimal 1) }
        (by
          show orDefault (parseInt v) 1 = orDefault (parseInt (some (decimal 1))) 1
          rw [orDefault_fallback hv, orDefault_parseInt_decimal (by decide) (by decide)]
          rfl)
        rfl rfl rfl
    · exact @getInquiries_congr s user { q with limit := v }
        { q with limit := some (decimal 20) } rfl
        (by
          show orDefault (parseInt v) 20 = orDefault (parseInt (some (decimal 20))) 20
          rw [orDefault_fallback hv, orDefault_parseInt_decimal (by decide) (by decide)]
          rfl)
        rfl rfl

/-- Witness for C20: bob lists the three inquiries about his flat, two to a
page; page 2 holds the oldest one, and there are 2 pages. The query values
are read as JavaScript reads them: a hexadecimal page, a limit after a
no-break space, a page of 2 ^ 53 + 1 rounded to 2 ^ 53, and defaults for a
page that is not a number and a limit of zero. -/
theorem pagination_partitions_witness :
    (sortedMatches threeInquiries bob none none).map (fun i => i.id) = [2, 1, 0]
    ∧ (getInquiries threeInquiries bob
        { page := some "2", limit := some "2", status := none, sort := none }).inquiries.map
        (fun i => i.id) = [0]
    ∧ (getInquiries threeInquiries bob
        { page := some "0x2", limit := some "\u00a01px", status := none,
          sort := none }).inquiries.map (fun i => i.id) = [1]
    ∧ getInquiries threeInquiries bob
        { page := some "9007199254740993", limit := none, status := none, sort := none }
        = .ok { count := 0, total := .finite 3, page := .finite 9007199254740992,
                pages := .finite 1, inquiries := [] }
    ∧ (getInquiries threeInquiries bob
        { page := some "abc", limit := some "-0", status := none, sort := none }).inquiries.map
        (fun i => i.id) = [2, 1, 0]
    ∧ parseInt (some "0x1F") = .finite 31
    ∧ parseInt (some "-7") = .finite (-7)
    ∧ parseInt (some "0xg") = .nan
    ∧ ∃ (r : Listing) (pages : Nat),
      getInquiries threeInquiries bob
          { page := some (decimal 2), limit := some (decimal 2), status := none,
            sort := none } = .ok r
      ∧ r.count ≤ 2
      ∧ r.pages = .finite (pages : Int)
      ∧ (pages : Int)
          = ⌈((sortedMatches threeInquiries bob none none).length : ℚ) / ((2 : Nat) : ℚ)⌉
      ∧ (List.range pages).flatMap
          (fun k => (getInquiries threeInquiries bob
            { page := some (decimal (k + 1)), limit := some (decimal 2), status := none,
              sort := none }).inquiries)
          = sortedMatches threeInquiries bob none none := by
  refine ⟨by decide, by decide, by decide, by decide, by decide, by decide, by decide,
    by decide, ?_⟩
  obtain ⟨r, pages, h1, _, _, _, _, _, h7, h8, h9, h10, _⟩ :=
    pagination_partitions threeInquiries bob none none 2 2 (by decide) (by decide)
      (by decide) (by decide) (by decide) (by decide)
  exact ⟨r, pages, h1, h7, h8, h9, h10⟩

/-- Witness for C19: alice, bob and the flat, from the store without
inquiries. -/
theorem scenario_succeeds_witness :
    ∃ i1 i2 i3 i4 : Inquiry,
      (createInquiry isoDate (Store.initial [flat]) alice request 100).1 = .ok 201 i1
      ∧ i1.status = .pending ∧ i1.numberOfOccupants = 2 ∧ i1.id = 0
      ∧ (replyToInquiry (run isoDate (Store.initial [flat]) [.create alice request 100]) bob 0
          (some "available June 1") 150).1 = .ok 200 i2
      ∧ i2.status = .replied ∧ i2.viewedByTenant = false
      ∧ (scheduleViewing isoDate
          (run isoDate (Store.initial [flat])
            [.create alice request 100, .reply bob 0 (some "available June 1") 150])
          bob 0 (some "2025-06-01") (some "10:00") none).1 = .ok 200 i3
      ∧ i3.status = .scheduled ∧ i3.scheduledViewing.confirmed = false
      ∧ i3.scheduledViewing.date = some "2025-06-01"
      ∧ i3.scheduledViewing.time = some "10:00"
      ∧ (confirmViewing
          (run isoDate (Store.initial [flat])
            [.create alice request 100, .reply bob 0 (some "available June 1") 150,
              .schedule bob 0 (some "2025-06-01") (some "10:00") none])
          alice 0).1 = .ok 200 i4
      ∧ i4.status = .scheduled ∧ i4.scheduledViewing.confirmed = true :=
  scenario_succeeds (Store.initial [flat]) alice bob request flat "Is it free in June?"
    "2025-06-01" "available June 1" none 100 150 (by decide) (by decide) (by decide)
    (by decide) (by decide) (by decide) (by decide) (by decide) (by decide) (by decide)
    (by decide) (by decide) (by decide) (by decide) (by decide) (by decide)

end RentalPlatform
